import Mathlib

/-!
# Query orchestration and the persistent cache / history store

A shallow embedding of `src/utils/history.js` (class `HistoryManager`), of
`src/services/orchestrator.js` (class `AIOrchestrator`), of `src/utils/configValidator.js`
(class `ConfigValidator`) and of `validatePlugin` in `src/utils/pluginManager.js`.

Conventions of the embedding.

* A JavaScript string is a Lean `String`, a sequence of Unicode scalar values.
  `String.prototype.length` counts UTF-16 code units and is `jsLength`.  Strings with
  unpaired surrogates are the type `JsString`; they matter where `addToHistory` hands an
  answer to `zlib.gzip`, whose conversion to UTF-8 replaces an unpaired surrogate.
* A timestamp is the number of milliseconds since the epoch that `new Date(s).getTime()`
  gives for the stored ISO string `s`; `new Date().toISOString()` followed by
  `new Date(s)` is the identity on millisecond instants.
* A JavaScript `Map` is an association list in insertion order.
* `async` methods run to completion one after the other; each returns the value or the
  thrown error together with the mutated object.
* Functions of the platform that the repository only calls (`zlib.gzip`, `JSON.stringify`,
  `JSON.parse`, `Buffer` base64 conversion, `String.prototype.toLowerCase`) are the fields of
  `Runtime`.
* What the outside world does during one call (clock readings, collaborator answers,
  whether a file write succeeds) is the record `Env`.
* A configuration or plugin object is the function from property names to values; a
  regular expression of `CONFIG_SCHEMA` is the predicate on character sequences it decides.
-/

namespace SmartAiCli

/-! ## JavaScript values -/

/-- An error value travelling through `throw`. -/
inductive JsError where
  /-- An `Error` raised by a collaborator (network call, file system), with its message. -/
  | thrown (message : String)
  /-- A `ReferenceError`: the identifier is not bound in the module. -/
  | referenceError (identifier : String)
  /-- A `TypeError`, e.g. reading a property of `undefined`. -/
  | typeError (message : String)
  deriving DecidableEq, Repr

/-- The `message` property of an error value. -/
def JsError.message : JsError → String
  | .thrown m => m
  | .referenceError x => x ++ " is not defined"
  | .typeError m => m

/-- Number of UTF-16 code units of a character. -/
def utf16Units (c : Char) : Nat := if c.toNat < 0x10000 then 1 else 2

/-- The value of `s.length` in JavaScript: the number of UTF-16 code units. -/
def jsLength (s : String) : Nat := (s.data.map utf16Units).sum

/-- Number of bytes of the UTF-8 encoding of a character. -/
def utf8Units (c : Char) : Nat :=
  if c.toNat < 0x80 then 1 else if c.toNat < 0x800 then 2 else if c.toNat < 0x10000 then 3 else 4

/-- Number of bytes of the UTF-8 encoding of a string. -/
def utf8Length (s : String) : Nat := (s.data.map utf8Units).sum

/-- White space and line terminators, the characters `String.prototype.trim` removes. -/
def isJsWhiteSpace (c : Char) : Bool :=
  let n := c.toNat
  n == 0x09 || n == 0x0A || n == 0x0B || n == 0x0C || n == 0x0D || n == 0x20 || n == 0xA0 ||
  n == 0x1680 || (0x2000 ≤ n && n ≤ 0x200A) || n == 0x2028 || n == 0x2029 || n == 0x202F ||
  n == 0x205F || n == 0x3000 || n == 0xFEFF

/-- Model of `s.trim()`. -/
def jsTrim (s : String) : String :=
  ⟨((s.data.dropWhile isJsWhiteSpace).reverse.dropWhile isJsWhiteSpace).reverse⟩

/-- Splitting a character sequence at every line feed; the pieces of `s.split('\n')`. -/
def splitLines : List Char → List (List Char)
  | [] => [[]]
  | c :: cs =>
    if c = '\n' then [] :: splitLines cs
    else
      match splitLines cs with
      | [] => [[c]]
      | l :: ls => (c :: l) :: ls

/-- Model of `s.split('\n')`. -/
def jsSplitLines (s : String) : List String := (splitLines s.data).map String.mk

/-- Model of `s.includes(t)`. -/
def jsIncludes (s t : String) : Bool := decide (List.IsInfix t.data s.data)

/-- Model of `s.startsWith(t)`. -/
def jsStartsWith (s t : String) : Bool := List.isPrefixOf t.data s.data

/-- Truthiness of a string value: every string but the empty one. -/
def jsTruthy (s : String) : Bool := s != ""

/-! ## Data model (`HistoryManager` constructor, `history.js` lines 16-34) -/

/-- A value of the cache map: `{ response, timestamp }`. -/
structure CacheEntry where
  response : String
  timestamp : Int
  deriving DecidableEq, Repr

/-- The object `cacheStats`. -/
structure CacheStats where
  hits : Nat
  misses : Nat
  evictions : Nat
  size : Nat
  maxSize : Nat
  deriving DecidableEq, Repr

/-- An element of `history`: `{ timestamp, question, answer, compressed? }`; an absent
`compressed` property is `false`. -/
structure HistoryEntry where
  timestamp : Int
  question : String
  answer : String
  compressed : Bool
  deriving DecidableEq, Repr

/-- The object `historyStats`.  `totalEntries` is an integer: the trimming loop of
`saveHistory` decrements it without looking at its value. -/
structure HistoryStats where
  totalEntries : Int
  compressedSize : Nat
  maxEntries : Nat
  maxSizeMB : Nat
  deriving DecidableEq, Repr

/-- The mutable fields of a `HistoryManager` object. -/
structure HistoryManager where
  history : List HistoryEntry
  cache : List (String × CacheEntry)
  historyStats : HistoryStats
  cacheStats : CacheStats
  deriving DecidableEq, Repr

/-- The object the constructor builds before any file is read. -/
def HistoryManager.fresh : HistoryManager :=
  { history := []
    cache := []
    historyStats := { totalEntries := 0, compressedSize := 0, maxEntries := 10000, maxSizeMB := 100 }
    cacheStats := { hits := 0, misses := 0, evictions := 0, size := 0, maxSize := 1000 } }

/-- A Node.js `Buffer`: a sequence of bytes. -/
abbrev Buffer := List (Fin 256)

/-- Platform functions the repository calls but does not define. -/
structure Runtime where
  /-- The method `String.prototype.toLowerCase`. -/
  toLowerCase : String → String
  /-- The call `JSON.stringify({ entries, stats })`. -/
  jsonStringify : List HistoryEntry → HistoryStats → String
  /-- The call `zlib.gzip` on a string (encoded as UTF-8 first). -/
  gzip : String → Buffer
  /-- The call `zlib.gunzip` followed by `toString()`; `none` when the input is not a gzip stream. -/
  gunzip : Buffer → Option String
  /-- The call `buffer.toString('base64')`. -/
  toBase64 : Buffer → String
  /-- The call `Buffer.from(text, 'base64')`. -/
  fromBase64 : String → Buffer
  /-- Whether the names `ERROR_CODES` and `ERROR_CATEGORIES` that `orchestrator.js` and
  `configValidator.js` import from `errorHandler.js` are bound to the tables.  In the
  repository they are not (`false`): `errorHandler.js` declares both tables without exporting
  them, its only export is the class `ErrorHandler`, so the imported names are `undefined`.
  `true` is what an `errorHandler.js` that exported its tables would give. -/
  errorTablesBound : Bool
  /-- The time zone of the process, as the operation `LocalTZA(t, isUTC)` of the language: the
  offset of local time from UTC in milliseconds, at the UTC instant `t` when `isUTC` is
  `true` and at the local time `t` when it is `false`. -/
  localTZA : Int → Bool → Int
  /-- The call `JSON.parse` on the text of the history file, read as `{ entries, stats }`:
  the array `entries` and the object `stats` when the document has one; `none` when the text
  is not JSON or the document holds no array of entries. -/
  jsonParseHistory : String → Option (List HistoryEntry × Option HistoryStats)
  /-- The call `JSON.parse` on the text of the cache file, read as an array of
  `[question, entry]` pairs; `none` when the text is not such a document. -/
  jsonParseCache : String → Option (List (String × CacheEntry))

/-! ## The `Map` operations used by the cache -/

/-- Model of `map.get(key)`. -/
def mapGet (m : List (String × CacheEntry)) (key : String) : Option CacheEntry :=
  (m.find? (fun p => p.1 == key)).map Prod.snd

/-- Model of `map.delete(key)`. -/
def mapDelete (m : List (String × CacheEntry)) (key : String) : List (String × CacheEntry) :=
  m.filter (fun p => p.1 != key)

/-- Model of `map.set(key, value)`: an existing key keeps its position, a new key goes last. -/
def mapSet : List (String × CacheEntry) → String → CacheEntry → List (String × CacheEntry)
  | [], key, v => [(key, v)]
  | p :: rest, key, v => if p.1 == key then (key, v) :: rest else p :: mapSet rest key v

/-! ## `HistoryManager` methods -/

/-- The time to live of a cache entry, `60 * 60 * 1000` milliseconds. -/
def ttl : Int := 60 * 60 * 1000

/-- Model of `getCachedResponse(question)` (`history.js` lines 172-187); `now` is `Date.now()`. -/
def getCachedResponse (now : Int) (question : String) (m : HistoryManager) :
    Option CacheEntry × HistoryManager :=
  match mapGet m.cache question with
  | some cached =>
    if now - cached.timestamp < ttl then
      (some cached, { m with cacheStats := { m.cacheStats with hits := m.cacheStats.hits + 1 } })
    else
      (none, { m with
        cache := mapDelete m.cache question
        cacheStats := { m.cacheStats with
          evictions := m.cacheStats.evictions + 1
          misses := m.cacheStats.misses + 1 } })
  | none =>
    (none, { m with cacheStats := { m.cacheStats with misses := m.cacheStats.misses + 1 } })

/-- The comparator of the eviction sort, `new Date(a[1].timestamp) - new Date(b[1].timestamp)`,
as the order it induces. -/
def olderOrEqual (a b : String × CacheEntry) : Prop := a.2.timestamp ≤ b.2.timestamp

instance : DecidableRel olderOrEqual := fun a b => Int.decLe a.2.timestamp b.2.timestamp

instance : IsTotal (String × CacheEntry) olderOrEqual :=
  ⟨fun a b => Int.le_total a.2.timestamp b.2.timestamp⟩

instance : IsTrans (String × CacheEntry) olderOrEqual :=
  ⟨fun _ _ _ hab hbc => Int.le_trans hab hbc⟩

/-- The array `entries` after `entries.sort(...)`: a stable sort by timestamp. -/
def sortedEntries (cache : List (String × CacheEntry)) : List (String × CacheEntry) :=
  cache.insertionSort olderOrEqual

/-- Model of `saveCache()` (lines 121-133).  A failed write enters the `catch` block, whose
first expression reads the identifier `ErrorHandler`; `history.js` neither imports nor
declares it. -/
def saveCache (writeOk : Bool) : Except JsError Unit :=
  if writeOk then .ok () else .error (.referenceError "ErrorHandler")

/-- Model of `cacheResponse(question, response)` (lines 189-205); `now` is the instant of
`new Date()`. -/
def cacheResponse (now : Int) (writeOk : Bool) (question response : String) (m : HistoryManager) :
    Except JsError Unit × HistoryManager :=
  let evicted : Except JsError HistoryManager :=
    if m.cache.length ≥ m.cacheStats.maxSize then
      match sortedEntries m.cache with
      | [] => .error (.typeError "Cannot read properties of undefined (reading '0')")
      | oldest :: _ =>
        .ok { m with
          cache := mapDelete m.cache oldest.1
          cacheStats := { m.cacheStats with evictions := m.cacheStats.evictions + 1 } }
    else .ok m
  match evicted with
  | .error e => (.error e, m)
  | .ok m1 =>
    let cache := mapSet m1.cache question { response := response, timestamp := now }
    let m2 := { m1 with cache := cache, cacheStats := { m1.cacheStats with size := cache.length } }
    (saveCache writeOk, m2)

/-- The loop `while (compressedData.length > limit && this.history.length > 0)` of
`saveHistory`: each round removes the first entry and decrements `totalEntries`;
`compressedData` is not computed again inside the loop. -/
def trimLoop (size limit : Nat) : List HistoryEntry → Int → List HistoryEntry × Int
  | [], total => ([], total)
  | e :: es, total => if size > limit then trimLoop size limit es (total - 1) else (e :: es, total)

/-- The value `compressedData.length` in `saveHistory`. -/
def blobLength (rt : Runtime) (m : HistoryManager) : Nat :=
  (rt.gzip (rt.jsonStringify m.history m.historyStats)).length

/-- The value `this.historyStats.maxSizeMB * 1024 * 1024`. -/
def sizeLimit (m : HistoryManager) : Nat := m.historyStats.maxSizeMB * 1024 * 1024

/-- Model of `saveHistory()` (lines 89-119).  A failed write enters the `catch` block, which
reads the unbound identifier `ErrorHandler`. -/
def saveHistory (rt : Runtime) (writeOk : Bool) (m : HistoryManager) :
    Except JsError Unit × HistoryManager :=
  let size := blobLength rt m
  let trimmed :=
    if size > sizeLimit m then trimLoop size (sizeLimit m) m.history m.historyStats.totalEntries
    else (m.history, m.historyStats.totalEntries)
  let m1 := { m with
    history := trimmed.1
    historyStats := { m.historyStats with totalEntries := trimmed.2 } }
  if writeOk then
    (.ok (), { m1 with historyStats := { m1.historyStats with compressedSize := size } })
  else
    (.error (.referenceError "ErrorHandler"), m1)

/-- The entry `addToHistory` builds (lines 136-146): answers longer than 1024 (by
`answer.length`) are replaced by the base64 text of their gzip stream and flagged. -/
def newEntry (rt : Runtime) (now : Int) (question answer : String) : HistoryEntry :=
  if jsLength answer > 1024 then
    { timestamp := now, question := question, answer := rt.toBase64 (rt.gzip answer),
      compressed := true }
  else
    { timestamp := now, question := question, answer := answer, compressed := false }

/-- Model of `addToHistory(question, answer)` (lines 135-151). -/
def addToHistory (rt : Runtime) (now : Int) (writeOk : Bool) (question answer : String)
    (m : HistoryManager) : Except JsError Unit × HistoryManager :=
  saveHistory rt writeOk
    { m with
      history := m.history ++ [newEntry rt now question answer]
      historyStats := { m.historyStats with totalEntries := m.historyStats.totalEntries + 1 } }

/-- Model of `cleanupHistory()` (lines 63-70). -/
def cleanupHistory (m : HistoryManager) : HistoryManager :=
  if m.history.length > m.historyStats.maxEntries then
    let history := m.history.drop (m.history.length - m.historyStats.maxEntries)
    { m with
      history := history
      historyStats := { m.historyStats with totalEntries := history.length } }
  else m

/-- The number of milliseconds of a day, `msPerDay`. -/
def msPerDay : Int := 86400000

/-- The largest magnitude of the time value of a valid `Date`, 8.64e15 ms. -/
def maxTimeValue : Int := 8640000000000000

/-- The time value of `cutoffDate` after `cutoffDate.setDate(cutoffDate.getDate() - days)`
(lines 162-163); `none` is the Invalid Date.  The argument `days` is an integer (`some d`) or
a number that is not finite (`none`: `NaN`, as `parseInt` gives for an option without digits,
or an infinity); numbers with a fractional part are outside the model.  `setDate` works on the
local time of `now`: the day number `MakeDay` computes for the day of the month minus `d` is
the local day of `now` minus `d`, the time within the day is kept, the result is taken back to
UTC with the offset in force at that local time, and `TimeClip` rejects what is out of
range. -/
def cutoffDate (rt : Runtime) (now : Int) (days : Option Int) : Option Int :=
  match days with
  | none => none
  | some d =>
    let localTime := now + rt.localTZA now true
    let newDate := localTime - d * msPerDay
    let u := newDate - rt.localTZA newDate false
    if u.natAbs ≤ maxTimeValue.toNat then some u else none

/-- The test `new Date(entry.timestamp) > cutoffDate`: a comparison with the Invalid Date is
false. -/
def laterThan (timestamp : Int) (cutoff : Option Int) : Bool :=
  match cutoff with
  | some c => decide (timestamp > c)
  | none => false

/-- Model of `clearOldHistory(days)` (lines 161-170); `now` is the instant of `new Date()`. -/
def clearOldHistory (rt : Runtime) (now : Int) (writeOk : Bool) (days : Option Int)
    (m : HistoryManager) : Except JsError Unit × HistoryManager :=
  let cutoff := cutoffDate rt now days
  let history := m.history.filter (fun entry => laterThan entry.timestamp cutoff)
  saveHistory rt writeOk
    { m with
      history := history
      historyStats := { m.historyStats with totalEntries := history.length } }

/-- The object `historyStats` that the constructor and the `catch` block of `loadHistory`
build. -/
def defaultHistoryStats : HistoryStats :=
  { totalEntries := 0, compressedSize := 0, maxEntries := 10000, maxSizeMB := 100 }

/-- Model of `loadHistory()` (lines 36-61).  `file` is what `fs.readFile(HISTORY_FILE)`
yields, `none` when the read fails.  A failure of the read, of `decompress` or of
`JSON.parse` enters the `catch` block, which resets the history and its stats and raises
nothing. -/
def loadHistory (rt : Runtime) (file : Option Buffer) (m : HistoryManager) :
    Except JsError Unit × HistoryManager :=
  let reset : HistoryManager := { m with history := [], historyStats := defaultHistoryStats }
  match file with
  | none => (.ok (), reset)
  | some compressedData =>
    match rt.gunzip compressedData with
    | none => (.ok (), reset)
    | some text =>
      match rt.jsonParseHistory text with
      | none => (.ok (), reset)
      | some (entries, stats) =>
        (.ok (), cleanupHistory
          { m with
            history := entries
            historyStats := stats.getD
              { totalEntries := entries.length
                compressedSize := compressedData.length
                maxEntries := 10000
                maxSizeMB := 100 } })

/-- Model of `new Map(cacheData)`: the pairs are set one after the other. -/
def mapOfPairs (pairs : List (String × CacheEntry)) : List (String × CacheEntry) :=
  pairs.foldl (fun c p => mapSet c p.1 p.2) []

/-- Model of `loadCache()` (lines 72-87).  `file` is what `fs.readFile(CACHE_FILE, 'utf8')`
yields, `none` when the read fails.  A failure of the read or of `JSON.parse` enters the
`catch` block, whose first expression reads the identifier `ErrorHandler`, unbound in
`history.js`; the assignment `this.cache = new Map()` that follows it is not reached. -/
def loadCache (rt : Runtime) (file : Option String) (m : HistoryManager) :
    Except JsError Unit × HistoryManager :=
  match file.bind rt.jsonParseCache with
  | some cacheData => (.ok (), { m with cache := mapOfPairs cacheData })
  | none => (.error (.referenceError "ErrorHandler"), m)

/-- Model of `searchHistory(query)` (lines 235-241): a filter on the stored `question` and the
stored `answer` of each entry. -/
def searchHistory (rt : Runtime) (query : String) (m : HistoryManager) : List HistoryEntry :=
  let lowerQuery := rt.toLowerCase query
  m.history.filter (fun entry =>
    jsIncludes (rt.toLowerCase entry.question) lowerQuery ||
    jsIncludes (rt.toLowerCase entry.answer) lowerQuery)

/-- The object `getCacheStats()` returns (lines 207-212): the cache counters and `hitRate`.
The quotient is an exact rational here; `0 / 0` is `NaN` in JavaScript, which `|| 0` turns
into `0`, and the rational division by zero is `0` as well. -/
structure CacheStatsView extends CacheStats where
  hitRate : ℚ

/-- Model of `getCacheStats()` (lines 207-212). -/
def getCacheStats (m : HistoryManager) : CacheStatsView :=
  { m.cacheStats with
    hitRate := (m.cacheStats.hits : ℚ) / ((m.cacheStats.hits : ℚ) + (m.cacheStats.misses : ℚ)) }

/-- Model of `clearCache()` (lines 214-224): the map is emptied, the counters are replaced by
a new object, and the cache file is written. -/
def clearCache (writeOk : Bool) (m : HistoryManager) : Except JsError Unit × HistoryManager :=
  (saveCache writeOk,
    { m with
      cache := []
      cacheStats := { hits := 0, misses := 0, evictions := 0, size := 0, maxSize := 1000 } })

/-! ## Strings with unpaired surrogates -/

/-- One element of a JavaScript string read as Unicode text: a scalar value (one or two code
units), or a surrogate code unit that is not part of a pair. -/
inductive JsUnit where
  | scalar (c : Char)
  | unpaired (unit : Nat)
  deriving DecidableEq

/-- A JavaScript string in general.  Lean's `String`, used for JavaScript strings everywhere
else in this development, is the case without unpaired surrogates (`JsString.ofString`). -/
abbrev JsString := List JsUnit

/-- A string without unpaired surrogates as a string in general. -/
def JsString.ofString (s : String) : JsString := s.data.map JsUnit.scalar

/-- The value of `s.length`: the number of UTF-16 code units. -/
def JsString.units (s : JsString) : Nat :=
  (s.map (fun u => match u with
    | .scalar c => utf16Units c
    | .unpaired _ => 1)).sum

/-- Model of `s.isWellFormed()`: no unpaired surrogate. -/
def JsString.isWellFormed (s : JsString) : Bool :=
  s.all (fun u => match u with
    | .scalar _ => true
    | .unpaired _ => false)

/-- Model of `s.toWellFormed()`: each unpaired surrogate becomes U+FFFD.  This is the text
whose UTF-8 bytes the platform writes when it converts `s` to UTF-8. -/
def JsString.toWellFormed (s : JsString) : String :=
  String.mk (s.map (fun u => match u with
    | .scalar c => c
    | .unpaired _ => Char.ofNat 0xFFFD))

/-- The object `entry` of `addToHistory` for an answer that may hold unpaired surrogates. -/
structure RawEntry where
  timestamp : Int
  question : String
  answer : JsString
  compressed : Bool
  deriving DecidableEq

/-- A history entry as an entry with an answer string in general. -/
def RawEntry.ofEntry (e : HistoryEntry) : RawEntry :=
  { timestamp := e.timestamp, question := e.question, answer := JsString.ofString e.answer,
    compressed := e.compressed }

/-- The entry `addToHistory` builds (lines 136-146) for an answer string in general.
`zlib.gzip` converts its string argument to UTF-8 before it compresses, so the bytes it
compresses are those of `answer.toWellFormed()`; on answers without unpaired surrogates this
is `newEntry`. -/
def newEntryOf (rt : Runtime) (now : Int) (question : String) (answer : JsString) : RawEntry :=
  if JsString.units answer > 1024 then
    { timestamp := now
      question := question
      answer := JsString.ofString (rt.toBase64 (rt.gzip (JsString.toWellFormed answer)))
      compressed := true }
  else
    { timestamp := now, question := question, answer := answer, compressed := false }

/-! ## The orchestrator (`orchestrator.js`) -/

/-- The second argument of `processQuery`. -/
structure Options where
  quick : Bool
  detailed : Bool
  deriving DecidableEq, Repr

/-- The object `processQuery` resolves to.  The cache path sets `response`, `source` and
`timestamp`; the other path sets `response`, `source`, `searchResults` and `usedModel`
(`usedModel = none` is the JavaScript `null`). -/
structure QueryResult where
  response : String
  source : String
  timestamp : Option Int
  searchResults : Option String
  usedModel : Option String
  deriving DecidableEq, Repr

/-- What `processQuery` does to its collaborators, in order of occurrence. -/
inductive Event where
  /-- The call `this.serper.search(query)`. -/
  | search (query : String)
  /-- The call `generateResponse(context)` on the service of the named model. -/
  | generate (model context : String)
  /-- The call `console.warn` of the fallback loop, with the error message. -/
  | warn (model message : String)
  /-- The call `ErrorHandler.handle(error, { query })`. -/
  | errorLog (message : String) (code : Nat) (category : String) (query : String)
  /-- The call `performanceMonitor.trackQuery(startTime)`. -/
  | trackQuery (startTime : Int)
  deriving DecidableEq, Repr

/-- What the outside world does during one call of `processQuery`. -/
structure Env where
  /-- The reading `Date.now()` at the start of `processQuery`. -/
  startTime : Int
  /-- The reading `Date.now()` inside `getCachedResponse`. -/
  lookupTime : Int
  /-- The instant of `new Date()` inside `cacheResponse`. -/
  cacheTime : Int
  /-- The instant of `new Date()` inside `addToHistory`. -/
  historyTime : Int
  /-- The search collaborator: the text, or the message of the error it raises. -/
  search : String → Except String String
  /-- The four provider collaborators: the text, or the message of the error raised. -/
  openai : String → Except String String
  claude : String → Except String String
  bard : String → Except String String
  llama : String → Except String String
  /-- Whether `fs.writeFile(CACHE_FILE, ...)` succeeds. -/
  cacheWriteOk : Bool
  /-- Whether `fs.writeFile(HISTORY_FILE, ...)` succeeds. -/
  historyWriteOk : Bool

/-- The orchestrator object: its `HistoryManager` and the record of its outgoing calls. -/
structure Orchestrator where
  history : HistoryManager
  trace : List Event
  deriving DecidableEq, Repr

/-- The field `modelPriority` set by the constructor. -/
def modelPriority : List String := ["openai", "claude", "bard", "llama"]

/-- The entry `API_INVALID_RESPONSE` of the table `ERROR_CODES` in `errorHandler.js`. -/
def ERROR_CODES.API_INVALID_RESPONSE : Nat := 1003

/-- The entry `API` of the table `ERROR_CATEGORIES` in `errorHandler.js`. -/
def ERROR_CATEGORIES.API : String := "API Error"

/-- Model of `createPrompt(query, searchResults, options)` (lines 103-114). -/
def createPrompt (query searchResults : String) (options : Options) : String :=
  "Based on the following search results and the user's query \"" ++ query ++
  "\", please provide a " ++ (if options.detailed then "detailed" else "concise") ++
  " answer:\n\nSearch Results:\n" ++ searchResults ++
  "\n\nAdditional requirements:\n" ++
  (if options.detailed then "- Provide a detailed explanation with examples"
    else "- Keep it concise") ++
  "\n- Include relevant facts and figures\n- Cite sources when possible\n" ++
  "- Focus on practical, actionable information"

/-- The heading of the answer built from the first search line. -/
def foundHeading : String := "Based on the search results, here's what I found:\n\n"

/-- Model of `formatResponse(aiResponse, searchResults, query)` (lines 116-155);
`aiResponse = none` is `null`.  Every test of a string value (`if (aiResponse)`,
`line.trim()`, `!mainResult`, `if (additionalInfo)`) is its truthiness, and
`results[0]` of an empty array prints as `undefined`. -/
def formatResponse (rt : Runtime) (aiResponse : Option String) (searchResults query : String) :
    String :=
  match aiResponse.filter jsTruthy with
  | some text => text
  | none =>
    let results := (jsSplitLines searchResults).filter (fun line => jsTruthy (jsTrim line))
    let mainResult := results.find? (fun line =>
      jsIncludes (rt.toLowerCase line) (rt.toLowerCase query) ||
      (jsStartsWith line "1." && !jsIncludes (rt.toLowerCase line) "url:"))
    match mainResult.filter jsTruthy with
    | none => foundHeading ++ results.head?.getD "undefined"
    | some main =>
      let additionalInfo := results.find? (fun line =>
        !jsIncludes line main && !jsIncludes (rt.toLowerCase line) "url:" &&
        decide (jsLength (jsTrim line) > 0))
      match additionalInfo.filter jsTruthy with
      | some info => jsTrim main ++ "\n\n" ++ jsTrim info
      | none => jsTrim main

/-- The `switch (model)` of the fallback loop: the service a model name selects, if any. -/
def providerOf (env : Env) (model : String) : Option (String → Except String String) :=
  if model = "openai" then some env.openai
  else if model = "claude" then some env.claude
  else if model = "bard" then some env.bard
  else if model = "llama" then some env.llama
  else none

/-- The loop `for (const model of this.modelPriority)` (lines 47-69).  Returns `aiResponse`,
`usedModel` and the extended record of calls. -/
def tryModels (env : Env) (context : String) :
    List String → List Event → Option String × Option String × List Event
  | [], trace => (none, none, trace)
  | model :: rest, trace =>
    match providerOf env model with
    | none => (none, some model, trace)
    | some generate =>
      match generate context with
      | .ok text => (some text, some model, trace ++ [.generate model context])
      | .error message =>
        tryModels env context rest (trace ++ [.generate model context, .warn model message])

/-- The `catch` block of `processQuery` (lines 90-100): report the error with the query as
context, then throw it again.  Building the report reads `ERROR_CODES.API_INVALID_RESPONSE`;
where the loader left `ERROR_CODES` undefined that read raises a `TypeError` instead, before
anything is reported. -/
def rethrow (rt : Runtime) (e : JsError) (query : String) (h : HistoryManager)
    (trace : List Event) : Except JsError QueryResult × Orchestrator :=
  if rt.errorTablesBound then
    (.error e,
      { history := h
        trace := trace ++ [.errorLog ("Failed to process query: " ++ e.message)
          ERROR_CODES.API_INVALID_RESPONSE ERROR_CATEGORIES.API query] })
  else
    (.error (.typeError
        "Cannot read properties of undefined (reading 'API_INVALID_RESPONSE')"),
      { history := h, trace := trace })

/-- The part of `processQuery` after the cache lookup (lines 39-88). -/
def answerQuery (rt : Runtime) (env : Env) (query : String) (options : Options)
    (h : HistoryManager) (trace : List Event) : Except JsError QueryResult × Orchestrator :=
  match env.search query with
  | .error message => rethrow rt (.thrown message) query h (trace ++ [.search query])
  | .ok searchResults =>
    let attempt := tryModels env (createPrompt query searchResults options) modelPriority
      (trace ++ [.search query])
    let aiResponse := attempt.1
    let usedModel := attempt.2.1
    let formattedResponse := formatResponse rt aiResponse searchResults query
    match cacheResponse env.cacheTime env.cacheWriteOk query formattedResponse h with
    | (.error e, h1) => rethrow rt e query h1 attempt.2.2
    | (.ok (), h1) =>
      match addToHistory rt env.historyTime env.historyWriteOk query formattedResponse h1 with
      | (.error e, h2) => rethrow rt e query h2 attempt.2.2
      | (.ok (), h2) =>
        (.ok { response := formattedResponse
               source := (usedModel.filter jsTruthy).getD "search"
               timestamp := none
               searchResults := some searchResults
               usedModel := usedModel },
          { history := h2, trace := attempt.2.2 ++ [.trackQuery env.startTime] })

/-- Model of `processQuery(query, options)` (lines 24-101). -/
def processQuery (rt : Runtime) (env : Env) (query : String) (options : Options)
    (o : Orchestrator) : Except JsError QueryResult × Orchestrator :=
  if options.quick then
    match getCachedResponse env.lookupTime query o.history with
    | (some cached, h) =>
      (.ok { response := cached.response
             source := "cache"
             timestamp := some cached.timestamp
             searchResults := none
             usedModel := none },
        { o with history := h })
    | (none, h) => answerQuery rt env query options h o.trace
  else answerQuery rt env query options o.history o.trace

/-! ## Values of any type -/

/-- A JavaScript value as far as `typeof` and truthiness tell values apart.  Numbers are the
integers (`NaN`, a falsy number, is left out); `object` stands for every object that is not a
function. -/
inductive JsValue where
  | undefined
  | null
  | bool (b : Bool)
  | number (n : Int)
  | string (s : String)
  | function
  | object
  deriving DecidableEq

/-- The result of `typeof value`. -/
def JsValue.typeof : JsValue → String
  | .undefined => "undefined"
  | .null => "object"
  | .bool _ => "boolean"
  | .number _ => "number"
  | .string _ => "string"
  | .function => "function"
  | .object => "object"

/-- Truthiness: what `!value` negates. -/
def JsValue.truthy : JsValue → Bool
  | .undefined => false
  | .null => false
  | .bool b => b
  | .number n => n != 0
  | .string s => jsTruthy s
  | .function => true
  | .object => true

/-- Model of `s.endsWith(t)`. -/
def jsEndsWith (s t : String) : Bool := List.isSuffixOf t.data s.data

/-! ## The error tables (`errorHandler.js` lines 5-38) -/

/-- The object literal `ERROR_CATEGORIES`. -/
def ERROR_CATEGORIES.table : List (String × String) :=
  [("API", "API Error"), ("VALIDATION", "Validation Error"), ("CONFIG", "Configuration Error"),
   ("NETWORK", "Network Error"), ("SYSTEM", "System Error"), ("UNKNOWN", "Unknown Error")]

/-- The object literal `ERROR_CODES`. -/
def ERROR_CODES.table : List (String × Nat) :=
  [("API_CONNECTION_FAILED", 1001), ("API_RATE_LIMIT_EXCEEDED", 1002),
   ("API_INVALID_RESPONSE", 1003), ("INVALID_INPUT", 2001), ("MISSING_REQUIRED_FIELD", 2002),
   ("MISSING_API_KEY", 3001), ("INVALID_CONFIG", 3002), ("NETWORK_TIMEOUT", 4001),
   ("NETWORK_UNAVAILABLE", 4002), ("FILE_SYSTEM_ERROR", 5001), ("MEMORY_LIMIT_EXCEEDED", 5002),
   ("UNKNOWN_ERROR", 9999)]

/-- The value of `ERROR_CATEGORIES.<name>`; `none` is `undefined`, what reading a property the
object does not have yields. -/
def ERROR_CATEGORIES.property (name : String) : Option String :=
  (ERROR_CATEGORIES.table.find? (fun p => p.1 == name)).map Prod.snd

/-- The value of `ERROR_CODES.<name>`; `none` is `undefined`. -/
def ERROR_CODES.property (name : String) : Option Nat :=
  (ERROR_CODES.table.find? (fun p => p.1 == name)).map Prod.snd

/-- The `Error` object `ErrorHandler.createError` builds (lines 117-122); `none` is
`undefined`. -/
structure AppError where
  message : String
  code : Option Nat
  category : Option String
  deriving DecidableEq

/-- Model of `ErrorHandler.createError(message, code, category)`. -/
def ErrorHandler.createError (message : String) (code : Option Nat) (category : Option String) :
    AppError :=
  { message := message, code := code, category := category }

/-! ## The configuration validator (`configValidator.js`) -/

/-- A configuration object: the value of `config[key]` for every key, `undefined` for a key the
object does not have. -/
abbrev Config := String → JsValue

/-- The object after the assignment `config[key] = value`. -/
def Config.set (config : Config) (key : String) (value : JsValue) : Config :=
  fun k => if k = key then value else config k

/-- The character class `[a-f0-9]` under the flag `i`. -/
def isHexDigit (c : Char) : Bool :=
  let n := c.toNat
  (48 ≤ n && n ≤ 57) || (97 ≤ n && n ≤ 102) || (65 ≤ n && n ≤ 70)

/-- The character class `[A-Za-z0-9]`. -/
def isAsciiAlnum (c : Char) : Bool :=
  let n := c.toNat
  (48 ≤ n && n ≤ 57) || (97 ≤ n && n ≤ 122) || (65 ≤ n && n ≤ 90)

/-- Whether `value.match(/^[a-f0-9]{32,}$/i)` finds a match. -/
def matchesHexKey (value : String) : Bool :=
  decide (32 ≤ value.data.length) && value.data.all isHexDigit

/-- Whether `value.match(/^sk-[A-Za-z0-9]{32,}$/)` finds a match. -/
def matchesOpenAiKey (value : String) : Bool :=
  List.isPrefixOf "sk-".data value.data && decide (32 ≤ (value.data.drop 3).length) &&
    (value.data.drop 3).all isAsciiAlnum

/-- Whether `value.match(/^[A-Za-z0-9]{32,}$/)` finds a match. -/
def matchesAlnumKey (value : String) : Bool :=
  decide (32 ≤ value.data.length) && value.data.all isAsciiAlnum

/-- One entry of `CONFIG_SCHEMA`; `validate` is the truthiness of what the entry's function
returns on a string. -/
structure Schema where
  type : String
  required : Bool
  minLength : Nat
  validate : String → Bool

/-- The table `CONFIG_SCHEMA` (lines 3-34), in the order `Object.entries` lists it. -/
def CONFIG_SCHEMA : List (String × Schema) :=
  [("serperApiKey",
      { type := "string", required := true, minLength := 32, validate := matchesHexKey }),
   ("llamaApiKey",
      { type := "string", required := true, minLength := 32, validate := matchesHexKey }),
   ("openaiApiKey",
      { type := "string", required := true, minLength := 32, validate := matchesOpenAiKey }),
   ("claudeApiKey",
      { type := "string", required := false, minLength := 32,
        validate := fun value => if jsTruthy value then matchesAlnumKey value else true }),
   ("bardApiKey",
      { type := "string", required := false, minLength := 32,
        validate := fun value => if jsTruthy value then matchesAlnumKey value else true })]

/-- An item of `errors` or `warnings`: `{ field, message }`. -/
structure Issue where
  field : String
  message : String
  deriving DecidableEq

/-- An item of `fixes`: `{ field, message, fix }`. -/
structure Fix where
  field : String
  message : String
  fix : String
  deriving DecidableEq

/-- The three arrays `validate` fills. -/
structure Findings where
  errors : List Issue
  warnings : List Issue
  fixes : List Fix
  deriving DecidableEq

/-- The arrays after further items were pushed. -/
def Findings.push (a b : Findings) : Findings :=
  { errors := a.errors ++ b.errors, warnings := a.warnings ++ b.warnings,
    fixes := a.fixes ++ b.fixes }

/-- What `checkCommonIssues(key, value, warnings, fixes)` pushes for a string `value`
(lines 96-129). -/
def checkCommonIssues (key value : String) : Findings :=
  let whitespace : Findings :=
    if jsTruthy value && (jsStartsWith value " " || jsEndsWith value " ") then
      { errors := []
        warnings := [{ field := key, message := key ++ " contains leading or trailing whitespace" }]
        fixes := [{ field := key, message := "Remove whitespace", fix := jsTrim value }] }
    else { errors := [], warnings := [], fixes := [] }
  let unresolved : Findings :=
    if jsTruthy value && jsIncludes value "$\x7b" then
      { errors := []
        warnings := [{ field := key, message := key ++ " contains unresolved environment variable" }]
        fixes := [] }
    else { errors := [], warnings := [], fixes := [] }
  let development : Findings :=
    if jsTruthy value &&
        (jsIncludes value "test" || jsIncludes value "dev" || jsIncludes value "dummy") then
      { errors := []
        warnings := [{ field := key, message := key ++ " appears to be a development/test key" }]
        fixes := [] }
    else { errors := [], warnings := [], fixes := [] }
  (whitespace.push unresolved).push development

/-- What one round of the loop of `validate` pushes (lines 43-85), for the schema entry `key`
and `value = config[key]`.  A value that passes the type check is a string for every entry of
`CONFIG_SCHEMA`, whose types are all `'string'`. -/
def checkEntry (key : String) (schema : Schema) (value : JsValue) : Findings :=
  if schema.required && !value.truthy then
    { errors := [{ field := key, message := key ++ " is required" }], warnings := [], fixes := [] }
  else if !schema.required && !value.truthy then
    { errors := [], warnings := [], fixes := [] }
  else if value.typeof != schema.type then
    { errors := [{ field := key, message := key ++ " must be a " ++ schema.type }]
      warnings := [], fixes := [] }
  else
    match value with
    | .string s =>
      let length : Findings :=
        if schema.minLength != 0 && decide (jsLength s < schema.minLength) then
          { errors :=
              [{ field := key
                 message :=
                   key ++ " must be at least " ++ toString schema.minLength ++ " characters long" }]
            warnings := []
            fixes := [] }
        else { errors := [], warnings := [], fixes := [] }
      let format : Findings :=
        if !schema.validate s then
          { errors := [{ field := key, message := key ++ " has invalid format" }]
            warnings := [], fixes := [] }
        else { errors := [], warnings := [], fixes := [] }
      (length.push format).push (checkCommonIssues key s)
    | _ => { errors := [], warnings := [], fixes := [] }

/-- The object `validate` returns: `{ isValid, errors, warnings, fixes }`. -/
structure Validation where
  isValid : Bool
  errors : List Issue
  warnings : List Issue
  fixes : List Fix
  deriving DecidableEq

/-- Model of `ConfigValidator.validate(config)` (lines 37-94). -/
def ConfigValidator.validate (config : Config) : Validation :=
  let found : Findings := CONFIG_SCHEMA.foldl
    (fun (acc : Findings) entry => acc.push (checkEntry entry.1 entry.2 (config entry.1)))
    { errors := [], warnings := [], fixes := [] }
  { isValid := found.errors.length == 0, errors := found.errors, warnings := found.warnings,
    fixes := found.fixes }

/-- The object a successful `repair` returns; `appliedFixes` is `none` where the object has no
such property. -/
structure RepairResult where
  success : Bool
  message : String
  config : Config
  appliedFixes : Option (List Fix)

/-- What `repair` throws: the object `ErrorHandler.createError` built, or the `TypeError` of
reading a property of an `ERROR_CODES` the loader left undefined. -/
inductive RepairFailure where
  | appError (e : AppError)
  | typeError (message : String)
  deriving DecidableEq

/-- The loop `for (const fix of fixes) repairedConfig[fix.field] = fix.fix` on a copy of
`config`. -/
def applyFixes (config : Config) (fixes : List Fix) : Config :=
  fixes.foldl (fun c fix => c.set fix.field (.string fix.fix)) config

/-- The `catch` block of `repair` (lines 163-169) for a caught error with message `message`:
the arguments of `createError` are evaluated in order, and the second reads
`ERROR_CODES.CONFIG_REPAIR_FAILED`. -/
def ConfigValidator.repairFailure (rt : Runtime) (message : String) : RepairFailure :=
  if rt.errorTablesBound then
    .appError (ErrorHandler.createError ("Failed to repair configuration: " ++ message)
      (ERROR_CODES.property "CONFIG_REPAIR_FAILED") (ERROR_CATEGORIES.property "CONFIG"))
  else .typeError "Cannot read properties of undefined (reading 'CONFIG_REPAIR_FAILED')"

/-- Model of `ConfigValidator.repair(config)` (lines 131-170). -/
def ConfigValidator.repair (rt : Runtime) (config : Config) : Except RepairFailure RepairResult :=
  let validationResult := ConfigValidator.validate config
  if validationResult.isValid && validationResult.fixes.length == 0 then
    .ok { success := true, message := "Configuration is valid, no repairs needed",
          config := config, appliedFixes := none }
  else
    let repairedConfig := applyFixes config validationResult.fixes
    let finalValidation := ConfigValidator.validate repairedConfig
    if finalValidation.isValid then
      .ok { success := true, message := "Configuration repaired successfully",
            config := repairedConfig, appliedFixes := some validationResult.fixes }
    else
      .error (ConfigValidator.repairFailure rt
        "Configuration could not be automatically repaired")

/-! ## The plugin manager (`pluginManager.js`) -/

/-- A truthy value passed as `plugin`: the value of `plugin[name]` for every property name. -/
abbrev Plugin := String → JsValue

/-- Model of `validatePlugin(plugin)` (lines 58-79); `none` is a falsy argument (`undefined`,
`null`, `false`, `0`, `''`). -/
def validatePlugin (plugin : Option Plugin) : Bool :=
  let requiredMethods := ["initialize", "execute"]
  let requiredProperties := ["name", "version", "description"]
  match plugin with
  | none => false
  | some p =>
    requiredMethods.all (fun method => (p method).typeof == "function") &&
      requiredProperties.all (fun prop => (p prop).truthy)

/-! ## Notions used to state the properties -/

/-- The model names on which `generateResponse` was called, in order of the calls. -/
def invokedModels (trace : List Event) : List String :=
  trace.filterMap (fun e => match e with
    | .generate model _ => some model
    | _ => none)

/-- The queries passed to the search collaborator, in order of the calls. -/
def searchCalls (trace : List Event) : List String :=
  trace.filterMap (fun e => match e with
    | .search query => some query
    | _ => none)

/-- Whether the service of `model` answers the prompt `context` without raising. -/
def succeedsOn (env : Env) (context model : String) : Bool :=
  match providerOf env model with
  | some generate =>
    match generate context with
    | .ok _ => true
    | .error _ => false
  | none => false

/-- The call is not served from the cache: quick mode is off, or the lookup returns nothing. -/
def cacheMiss (env : Env) (query : String) (options : Options) (o : Orchestrator) : Prop :=
  options.quick = false ∨ (getCachedResponse env.lookupTime query o.history).1 = none

instance (env : Env) (query : String) (options : Options) (o : Orchestrator) :
    Decidable (cacheMiss env query options o) := by
  unfold cacheMiss; infer_instance

/-- The store a call of `processQuery` works on after its cache lookup, if it makes one. -/
def afterLookup (env : Env) (query : String) (options : Options) (o : Orchestrator) :
    HistoryManager :=
  if options.quick then (getCachedResponse env.lookupTime query o.history).2 else o.history

/-- The text `processQuery` answers with on the non-cache path when search returned `sr`. -/
def freshAnswer (rt : Runtime) (env : Env) (query : String) (options : Options) (sr : String) :
    String :=
  formatResponse rt (tryModels env (createPrompt query sr options) modelPriority []).1 sr query

/-- The value `compressedData.length` that `saveHistory` computes when `addToHistory` has just
pushed `entry` onto the history of `m`. -/
def blobLengthWith (rt : Runtime) (m : HistoryManager) (entry : HistoryEntry) : Nat :=
  (rt.gzip (rt.jsonStringify (m.history ++ [entry])
    { m.historyStats with totalEntries := m.historyStats.totalEntries + 1 })).length

/-- A blank line: every character is white space. -/
def isBlank (line : String) : Bool := line.data.all isJsWhiteSpace

/-- The lines of the search text that are not blank, in their order. -/
def nonBlankLines (searchResults : String) : List String :=
  (jsSplitLines searchResults).filter (fun line => !isBlank line)

/-- A line qualifies as main line of the answer when, both lowered, it contains the query, or
when it begins with `1.` and is not a URL line (its lowered form does not contain `url:`). -/
def qualifies (rt : Runtime) (query line : String) : Bool :=
  jsIncludes (rt.toLowerCase line) (rt.toLowerCase query) ||
  (jsStartsWith line "1." && !jsIncludes (rt.toLowerCase line) "url:")

/-- The text a history entry stands for: the decoded and decompressed answer of an entry
flagged `compressed`, the stored answer of any other; `none` when decoding fails. -/
def originalAnswer (rt : Runtime) (entry : HistoryEntry) : Option String :=
  if entry.compressed then rt.gunzip (rt.fromBase64 entry.answer) else some entry.answer

/-- The text the service of `model` returns for the prompt `context`, when it answers. -/
def answerOf (env : Env) (context model : String) : Option String :=
  match providerOf env model with
  | some generate =>
    match generate context with
    | .ok text => some text
    | .error _ => none
  | none => none

/-- One call on a `HistoryManager` that can change the history: `addToHistory`,
`clearOldHistory`, `cleanupHistory` or `saveHistory`, with the clock reading and the outcome
of the file write of that call. -/
inductive HistoryOp where
  | addToHistory (now : Int) (writeOk : Bool) (question answer : String)
  | clearOldHistory (now : Int) (writeOk : Bool) (days : Option Int)
  | cleanupHistory
  | saveHistory (writeOk : Bool)

/-- The manager after one history call, whether or not the call raised. -/
def HistoryOp.run (rt : Runtime) : HistoryOp → HistoryManager → HistoryManager
  | .addToHistory now writeOk question answer, m =>
    (SmartAiCli.addToHistory rt now writeOk question answer m).2
  | .clearOldHistory now writeOk days, m => (SmartAiCli.clearOldHistory rt now writeOk days m).2
  | .cleanupHistory, m => SmartAiCli.cleanupHistory m
  | .saveHistory writeOk, m => (SmartAiCli.saveHistory rt writeOk m).2

/-- The manager after a sequence of history calls, made one after the other. -/
def runHistoryOps (rt : Runtime) (ops : List HistoryOp) (m : HistoryManager) : HistoryManager :=
  ops.foldl (fun s op => op.run rt s) m

/-- One call on the cache of a `HistoryManager`: `cacheResponse`, `getCachedResponse` or
`clearCache`, with the clock reading and the outcome of the file write of that call. -/
inductive CacheOp where
  | cacheResponse (now : Int) (writeOk : Bool) (question response : String)
  | getCachedResponse (now : Int) (question : String)
  | clearCache (writeOk : Bool)

/-- The manager after one cache call, whether or not the call raised. -/
def CacheOp.run : CacheOp → HistoryManager → HistoryManager
  | .cacheResponse now writeOk question response, m =>
    (SmartAiCli.cacheResponse now writeOk question response m).2
  | .getCachedResponse now question, m => (SmartAiCli.getCachedResponse now question m).2
  | .clearCache writeOk, m => (SmartAiCli.clearCache writeOk m).2

/-- The manager after a sequence of cache calls, made one after the other. -/
def runCacheOps (ops : List CacheOp) (m : HistoryManager) : HistoryManager :=
  ops.foldl (fun s op => op.run s) m

/-- The string an entry with an answer string in general stands for: the decoded and
decompressed answer of an entry flagged `compressed`, the stored answer of any other. -/
def originalAnswerOf (rt : Runtime) (entry : RawEntry) : Option JsString :=
  if entry.compressed then
    (rt.gunzip (rt.fromBase64 (JsString.toWellFormed entry.answer))).map JsString.ofString
  else some entry.answer

/-! ## A concrete runtime and a concrete world for the examples -/

/-- Three bytes holding the code point of a character, most significant first. -/
def charBytes (c : Char) : Buffer :=
  [⟨c.toNat / 65536 % 256, Nat.mod_lt _ (by decide)⟩,
   ⟨c.toNat / 256 % 256, Nat.mod_lt _ (by decide)⟩,
   ⟨c.toNat % 256, Nat.mod_lt _ (by decide)⟩]

/-- Reading back the characters written by `charBytes`; `none` on any other byte sequence. -/
def bytesChars : Buffer → Option (List Char)
  | [] => some []
  | a :: b :: c :: rest =>
    let n := a.val * 65536 + b.val * 256 + c.val
    if charBytes (Char.ofNat n) = [a, b, c] then
      (bytesChars rest).map (fun cs => Char.ofNat n :: cs)
    else none
  | _ => none

/-- A runtime for the examples.  Lower-casing is that of the ASCII letters; the
serialiser writes the entries one after the other; the byte codec (three bytes per
character) and the text codec (one character per byte) stand in for gzip and base64 and,
like them, are undone by their inverses.  The process runs in UTC, and the error tables are
bound as if `errorHandler.js` exported them; `moduleRuntime` is the same runtime with the
tables unbound, as the repository has them. -/
def sampleRuntime : Runtime :=
  { toLowerCase := fun s => String.mk (s.data.map Char.toLower)
    jsonStringify := fun entries _ =>
      String.mk (entries.flatMap (fun e => e.question.data ++ ':' :: e.answer.data ++ [';']))
    gzip := fun s => s.data.flatMap charBytes
    gunzip := fun b => (bytesChars b).map String.mk
    toBase64 := fun b => String.mk (b.map (fun x => Char.ofNat x.val))
    fromBase64 := fun s => s.data.map (fun c => ⟨c.toNat % 256, Nat.mod_lt _ (by decide)⟩)
    errorTablesBound := true
    localTZA := fun _ _ => 0
    jsonParseHistory := fun _ => none
    jsonParseCache := fun _ => none }

/-- A world in which search answers, `openai` and `claude` fail, `bard` and `llama` answer,
and both files can be written. -/
def sampleEnv : Env :=
  { startTime := 1000
    lookupTime := 1001
    cacheTime := 1002
    historyTime := 1003
    search := fun _ => .ok "1. Four\nurl: example.org"
    openai := fun _ => .error "openai unavailable"
    claude := fun _ => .error "claude unavailable"
    bard := fun _ => .ok "The answer is 4."
    llama := fun _ => .ok "Four."
    cacheWriteOk := true
    historyWriteOk := true }

/-- A freshly constructed orchestrator that has made no call yet. -/
def Orchestrator.fresh : Orchestrator := { history := HistoryManager.fresh, trace := [] }

/-- An orchestrator whose cache holds one entry, written at instant 1000, for `"What is 2+2?"`. -/
def Orchestrator.warm : Orchestrator :=
  { history := { HistoryManager.fresh with
      cache := [("What is 2+2?", { response := "The answer is 4.", timestamp := 1000 })]
      cacheStats := { hits := 0, misses := 0, evictions := 0, size := 1, maxSize := 1000 } }
    trace := [] }

/-- A cache of `n` entries with keys `k`, `kk`, `kkk`, ... written at the instants
`0, 1, 2, ...` in that order. -/
def cacheOfSize (n : Nat) : List (String × CacheEntry) :=
  (List.range n).map (fun i =>
    (String.mk (List.replicate (i + 1) 'k'), { response := "r", timestamp := (i : Int) }))

/-- A manager whose cache is `cacheOfSize n`, everything else as constructed (`maxSize` 1000). -/
def managerWithCache (n : Nat) : HistoryManager :=
  { HistoryManager.fresh with
    cache := cacheOfSize n
    cacheStats := { hits := 0, misses := 0, evictions := 0, size := n, maxSize := 1000 } }

/-- The world of `sampleEnv` one minute later. -/
def sampleEnvLater : Env :=
  { sampleEnv with
    startTime := 61000
    lookupTime := 61001
    cacheTime := 61002
    historyTime := 61003 }

/-- A manager as `loadHistory` leaves it after reading a blob of two entries whose stats set
`maxEntries` to 2. -/
def twoEntryManager : HistoryManager :=
  { HistoryManager.fresh with
    history :=
      [{ timestamp := 1000, question := "q1", answer := "a1", compressed := false },
       { timestamp := 2000, question := "q2", answer := "a2", compressed := false }]
    historyStats := { totalEntries := 2, compressedSize := 40, maxEntries := 2, maxSizeMB := 100 } }

/-- An answer of 1025 letters. -/
def longAnswer : String := String.mk (List.replicate 1025 'a')

/-- An answer of 342 euro signs: 342 UTF-16 code units, 1026 bytes of UTF-8. -/
def euroAnswer : String := String.mk (List.replicate 342 '€')

/-- A manager whose history holds one entry written at instant 1 000 000 000. -/
def dayOldManager : HistoryManager :=
  { HistoryManager.fresh with
    history := [{ timestamp := 1000000000, question := "q", answer := "a", compressed := false }]
    historyStats := { totalEntries := 1, compressedSize := 12, maxEntries := 10000, maxSizeMB := 100 } }

/-- A world in which search raises `network down`, read one hour after instant 1000. -/
def sampleEnvDown : Env :=
  { sampleEnv with
    startTime := 3601000
    lookupTime := 3601000
    cacheTime := 3601001
    historyTime := 3601002
    search := fun _ => .error "network down" }

/-- The world of `sampleEnv` with all four providers failing. -/
def sampleEnvNoProvider : Env :=
  { sampleEnv with
    bard := fun _ => .error "bard unavailable"
    llama := fun _ => .error "llama unavailable" }

/-- The world of `sampleEnv` with `openai` answering with the empty string. -/
def sampleEnvEmptyText : Env :=
  { sampleEnv with openai := fun _ => .ok "" }

/-- The world of `sampleEnv` on a disk that cannot be written. -/
def sampleEnvReadOnly : Env :=
  { sampleEnv with cacheWriteOk := false, historyWriteOk := false }

/-- An answer of 1025 euro signs. -/
def euroLongAnswer : String := String.mk (List.replicate 1025 '€')

/-- A stored answer of 400 000 characters. -/
def bulkyAnswer : String := String.mk (List.replicate 400000 'A')

/-- A manager whose stats set `maxSizeMB` to 1 and whose history holds an entry with the given
stored answer followed by a small entry. -/
def managerWithAnswer (answer : String) : HistoryManager :=
  { HistoryManager.fresh with
    history :=
      [{ timestamp := 1000, question := "q1", answer := answer, compressed := true },
       { timestamp := 2000, question := "q2", answer := "a2", compressed := false }]
    historyStats := { totalEntries := 2, compressedSize := 0, maxEntries := 10000, maxSizeMB := 1 } }

/-- The manager of `managerWithAnswer` for the bulky answer. -/
def bulkyManager : HistoryManager := managerWithAnswer bulkyAnswer

/-- Three history entries in chronological order. -/
def threeEntries : List HistoryEntry :=
  [{ timestamp := 1000, question := "q1", answer := "a1", compressed := false },
   { timestamp := 2000, question := "q2", answer := "a2", compressed := false },
   { timestamp := 3000, question := "q3", answer := "a3", compressed := false }]

/-- The runtime of the examples with a parser that reads the document `three entries` as the
history `threeEntries` with stats setting `maxEntries` to 2, and rejects every other text. -/
def loadingRuntime : Runtime :=
  { sampleRuntime with
    jsonParseHistory := fun text =>
      if text = "three entries" then
        some (threeEntries,
          some { totalEntries := 3, compressedSize := 39, maxEntries := 2, maxSizeMB := 100 })
      else none }

/-- A manager whose history holds an entry written at instant 1 000 000 000 and one written a
millisecond later. -/
def twoAgesManager : HistoryManager :=
  { HistoryManager.fresh with
    history :=
      [{ timestamp := 1000000000, question := "old", answer := "a", compressed := false },
       { timestamp := 1000000001, question := "new", answer := "b", compressed := false }]
    historyStats := { totalEntries := 2, compressedSize := 24, maxEntries := 10000, maxSizeMB := 100 } }

/-- The reference configuration `TEST_CONFIG` of the test suite (`testHelpers.js` lines 5-11). -/
def TEST_CONFIG : Config := fun key =>
  if key = "serperApiKey" then .string "test-serper-key-32chars-exactly-here"
  else if key = "llamaApiKey" then .string "test-llama-key-32chars-exactly-here"
  else if key = "openaiApiKey" then .string "sk-test-openai-key-32chars-exactly"
  else if key = "claudeApiKey" then .string "test-claude-key-32chars-exactly-here"
  else if key = "bardApiKey" then .string "test-bard-key-32chars-exactly-here-ok"
  else .undefined

/-- The object after `delete config[key]`: reading the key yields `undefined`. -/
def Config.delete (config : Config) (key : String) : Config := config.set key .undefined

/-- A configuration whose three required keys have the shapes `CONFIG_SCHEMA` asks for and
whose optional keys are absent. -/
def hexConfig : Config := fun key =>
  if key = "serperApiKey" then .string "0123456789abcdef0123456789abcdef"
  else if key = "llamaApiKey" then .string "ABCDEF0123456789abcdef0123456789"
  else if key = "openaiApiKey" then .string "sk-abcdefghijklmnopqrstuvwxyz012345"
  else .undefined

/-- The object `createTestPlugin(name)` of the test suite (`testHelpers.js` lines 67-73). -/
def createTestPlugin (name : String) : Plugin := fun property =>
  if property = "name" then .string name
  else if property = "version" then .string "1.0.0"
  else if property = "description" then .string "Test plugin for unit tests"
  else if property = "initialize" then .function
  else if property = "execute" then .function
  else .undefined

/-- The object `{ name: 'invalid-plugin' }` of the plugin tests. -/
def invalidPlugin : Plugin := fun property =>
  if property = "name" then .string "invalid-plugin" else .undefined

/-- The object `{ ...testPlugin, execute: 'not a function' }` of the plugin tests. -/
def invalidMethodPlugin : Plugin := fun property =>
  if property = "execute" then .string "not a function"
  else createTestPlugin "test-plugin" property

/-- The runtime of the examples in a time zone that moved its clocks forward by one hour at
the instant 1 000 000 000: the offset is 0 before and 3 600 000 ms from then on; a local time
counts as after the change from 1 003 600 000 on. -/
def clockChangeRuntime : Runtime :=
  { sampleRuntime with
    localTZA := fun t isUTC =>
      if isUTC then (if t < 1000000000 then 0 else 3600000)
      else (if t < 1003600000 then 0 else 3600000) }

/-- The runtime of the examples with the names `ERROR_CODES` and `ERROR_CATEGORIES` as the
repository leaves them: not bound. -/
def moduleRuntime : Runtime := { sampleRuntime with errorTablesBound := false }

/-- The world of `sampleEnvNoProvider` on a disk that cannot be written. -/
def sampleEnvNoProviderReadOnly : Env :=
  { sampleEnvNoProvider with cacheWriteOk := false, historyWriteOk := false }

/-- The answer `'\uD83D'.repeat(1025)`: 1025 high surrogates, none followed by a low one. -/
def loneSurrogates : JsString := List.replicate 1025 (JsUnit.unpaired 0xD83D)

/-- The text of 1025 replacement characters U+FFFD. -/
def replacementText : String := String.mk (List.replicate 1025 (Char.ofNat 0xFFFD))

/-! ## Basic facts -/

theorem invokedModels_append (a b : List Event) :
    invokedModels (a ++ b) = invokedModels a ++ invokedModels b := by
  simp [invokedModels, List.filterMap_append]

theorem searchCalls_append (a b : List Event) :
    searchCalls (a ++ b) = searchCalls a ++ searchCalls b := by
  simp [searchCalls, List.filterMap_append]

theorem sortedEntries_perm (c : List (String × CacheEntry)) : (sortedEntries c).Perm c :=
  List.perm_insertionSort _ c

theorem sortedEntries_ne_nil {c : List (String × CacheEntry)} (h : c ≠ []) :
    sortedEntries c ≠ [] := by
  intro hs
  have := (sortedEntries_perm c).length_eq
  rw [hs] at this
  exact h (List.length_eq_zero.mp this.symm)

/-- With a positive `maxSize` and a working file system, `cacheResponse` does not throw. -/
theorem cacheResponse_ok (now : Int) (q r : String) (m : HistoryManager)
    (hmax : 0 < m.cacheStats.maxSize) : (cacheResponse now true q r m).1 = .ok () := by
  unfold cacheResponse
  by_cases hfull : m.cache.length ≥ m.cacheStats.maxSize
  · have hne : m.cache ≠ [] := by
      intro h0
      rw [h0] at hfull
      simp at hfull
      omega
    have hs := sortedEntries_ne_nil hne
    cases hsort : sortedEntries m.cache with
    | nil => exact absurd hsort hs
    | cons a t => simp [hfull, saveCache]
  · simp [hfull, saveCache]

/-- With a working file system, `saveHistory` does not throw. -/
theorem saveHistory_ok (rt : Runtime) (m : HistoryManager) :
    (saveHistory rt true m).1 = .ok () := by
  simp [saveHistory]

/-- With a working file system, `addToHistory` does not throw. -/
theorem addToHistory_ok (rt : Runtime) (now : Int) (q a : String) (m : HistoryManager) :
    (addToHistory rt now true q a m).1 = .ok () := by
  simp [addToHistory, saveHistory]

/-- The fallback loop stops at the first model that answers: `usedModel` is that model and
the models called are exactly those up to and including it. -/
theorem tryModels_spec (env : Env) (context : String) :
    ∀ (models : List String) (trace : List Event),
      (∀ model ∈ models, (providerOf env model).isSome = true) →
      (tryModels env context models trace).2.1 = models.find? (succeedsOn env context) ∧
      invokedModels (tryModels env context models trace).2.2 =
        invokedModels trace ++ models.takeWhile (fun model => !succeedsOn env context model) ++
          (models.find? (succeedsOn env context)).toList ∧
      searchCalls (tryModels env context models trace).2.2 = searchCalls trace := by
  intro models
  induction models with
  | nil => intro trace _; simp [tryModels]
  | cons model rest ih =>
    intro trace hprov
    have hm := hprov model (List.mem_cons_self _ _)
    have hrest : ∀ x ∈ rest, (providerOf env x).isSome = true :=
      fun x hx => hprov x (List.mem_cons_of_mem _ hx)
    cases hp : providerOf env model with
    | none => simp [hp] at hm
    | some generate =>
      cases hg : generate context with
      | ok text =>
        have hs : succeedsOn env context model = true := by simp [succeedsOn, hp, hg]
        simp [tryModels, hp, hg, hs, invokedModels_append, searchCalls_append, invokedModels,
          searchCalls]
      | error message =>
        have hs : succeedsOn env context model = false := by simp [succeedsOn, hp, hg]
        obtain ⟨h1, h2, h3⟩ := ih (trace ++ [.generate model context, .warn model message]) hrest
        simp only [tryModels, hp, hg]
        refine ⟨?_, ?_, ?_⟩
        · rw [h1]; simp [List.find?, hs]
        · rw [h2]; simp [List.find?, List.takeWhile, hs, invokedModels_append, invokedModels]
        · rw [h3]; simp [searchCalls_append, searchCalls]

theorem modelPriority_providers (env : Env) :
    ∀ model ∈ modelPriority, (providerOf env model).isSome = true := by
  intro model hm
  simp only [modelPriority, List.mem_cons, List.mem_singleton, List.not_mem_nil, or_false] at hm
  rcases hm with h | h | h | h <;> subst h <;> simp [providerOf]

/-- The answer, the store and the record of calls of `answerQuery` when search answers and
both files can be written. -/
theorem answerQuery_ok (rt : Runtime) (env : Env) (query : String) (options : Options)
    (h : HistoryManager) (trace : List Event) (sr : String)
    (hsearch : env.search query = .ok sr) (hcw : env.cacheWriteOk = true)
    (hhw : env.historyWriteOk = true) (hmax : 0 < h.cacheStats.maxSize) :
    answerQuery rt env query options h trace =
      (.ok { response := formatResponse rt
               (tryModels env (createPrompt query sr options) modelPriority
                 (trace ++ [.search query])).1 sr query
             source := ((tryModels env (createPrompt query sr options) modelPriority
                 (trace ++ [.search query])).2.1.filter jsTruthy).getD "search"
             timestamp := none
             searchResults := some sr
             usedModel := (tryModels env (createPrompt query sr options) modelPriority
                 (trace ++ [.search query])).2.1 },
        { history := (addToHistory rt env.historyTime true query
              (formatResponse rt (tryModels env (createPrompt query sr options) modelPriority
                 (trace ++ [.search query])).1 sr query)
              (cacheResponse env.cacheTime true query
                (formatResponse rt (tryModels env (createPrompt query sr options) modelPriority
                 (trace ++ [.search query])).1 sr query) h).2).2
          trace := (tryModels env (createPrompt query sr options) modelPriority
                 (trace ++ [.search query])).2.2 ++ [.trackQuery env.startTime] }) := by
  unfold answerQuery
  rw [hsearch, hcw, hhw]
  simp only
  generalize formatResponse rt (tryModels env (createPrompt query sr options) modelPriority
    (trace ++ [.search query])).1 sr query = formatted
  have hc : cacheResponse env.cacheTime true query formatted h =
      (.ok (), (cacheResponse env.cacheTime true query formatted h).2) :=
    Prod.ext (cacheResponse_ok _ _ _ _ hmax) rfl
  generalize (cacheResponse env.cacheTime true query formatted h).2 = h1 at hc
  rw [hc]
  simp only
  have ha : addToHistory rt env.historyTime true query formatted h1 =
      (.ok (), (addToHistory rt env.historyTime true query formatted h1).2) :=
    Prod.ext (addToHistory_ok _ _ _ _ _) rfl
  generalize (addToHistory rt env.historyTime true query formatted h1).2 = h2 at ha
  rw [ha]

/-- On a cache miss `processQuery` is `answerQuery` on the store the lookup leaves. -/
theorem processQuery_of_miss (rt : Runtime) (env : Env) (query : String) (options : Options)
    (o : Orchestrator) (hmiss : cacheMiss env query options o) :
    processQuery rt env query options o =
      answerQuery rt env query options
        (if options.quick then (getCachedResponse env.lookupTime query o.history).2 else o.history)
        o.trace := by
  unfold processQuery
  cases hq : options.quick with
  | false => simp
  | true =>
    rcases hmiss with h | h
    · rw [hq] at h; cases h
    · simp only [if_true]
      cases hg : getCachedResponse env.lookupTime query o.history with
      | mk c hm =>
        rw [hg] at h
        simp only at h
        subst h
        rfl

/-- The lookup `getCachedResponse` never changes `maxSize`. -/
theorem getCachedResponse_maxSize (now : Int) (q : String) (m : HistoryManager) :
    (getCachedResponse now q m).2.cacheStats.maxSize = m.cacheStats.maxSize := by
  unfold getCachedResponse
  cases mapGet m.cache q with
  | none => rfl
  | some c => by_cases h : now - c.timestamp < ttl <;> simp [h]

/-- The lookup `getCachedResponse` never touches the history. -/
theorem getCachedResponse_history (now : Int) (q : String) (m : HistoryManager) :
    (getCachedResponse now q m).2.history = m.history ∧
    (getCachedResponse now q m).2.historyStats = m.historyStats := by
  unfold getCachedResponse
  cases mapGet m.cache q with
  | none => exact ⟨rfl, rfl⟩
  | some c => by_cases h : now - c.timestamp < ttl <;> simp [h]

/-! ## C1: provider fallback order -/

/-- C1. On the non-cache path with a successful search (and working persistence),
`processQuery` returns a result whose `usedModel` is the first model of
`openai, claude, bard, llama` whose service answers, and the services called are exactly
the models before it, once each and in that order, followed by it; no later one is called. -/
theorem processQuery_provider_order (rt : Runtime) (env : Env) (query : String)
    (options : Options) (o : Orchestrator) (sr : String)
    (hmiss : cacheMiss env query options o)
    (hsearch : env.search query = .ok sr)
    (hcw : env.cacheWriteOk = true) (hhw : env.historyWriteOk = true)
    (hmax : 0 < o.history.cacheStats.maxSize) :
    ∃ r, (processQuery rt env query options o).1 = .ok r ∧
      r.usedModel =
        ["openai", "claude", "bard", "llama"].find?
          (succeedsOn env (createPrompt query sr options)) ∧
      invokedModels (processQuery rt env query options o).2.trace =
        invokedModels o.trace ++
          ["openai", "claude", "bard", "llama"].takeWhile
            (fun model => !succeedsOn env (createPrompt query sr options) model) ++
          (["openai", "claude", "bard", "llama"].find?
            (succeedsOn env (createPrompt query sr options))).toList := by
  have hmax2 : 0 < (if options.quick then (getCachedResponse env.lookupTime query o.history).2
      else o.history).cacheStats.maxSize := by
    split
    · rw [getCachedResponse_maxSize]; exact hmax
    · exact hmax
  rw [processQuery_of_miss rt env query options o hmiss,
    answerQuery_ok rt env query options _ o.trace sr hsearch hcw hhw hmax2]
  obtain ⟨h1, h2, _⟩ := tryModels_spec env (createPrompt query sr options) modelPriority
    (o.trace ++ [.search query]) (modelPriority_providers env)
  refine ⟨_, rfl, ?_, ?_⟩
  · exact h1
  · simp only [invokedModels_append, h2]
    simp [invokedModels, modelPriority]

/-- C1, instance: with `openai` and `claude` failing and `bard` answering, `usedModel` is
`bard` and `llama` is never called. -/
theorem processQuery_provider_order_witness :
    ∃ r, (processQuery sampleRuntime sampleEnv "What is 2+2?" ⟨false, false⟩
        Orchestrator.fresh).1 = .ok r ∧
      r.usedModel = some "bard" ∧
      invokedModels (processQuery sampleRuntime sampleEnv "What is 2+2?" ⟨false, false⟩
        Orchestrator.fresh).2.trace = ["openai", "claude", "bard"] := by
  obtain ⟨r, h1, h2, h3⟩ := processQuery_provider_order sampleRuntime sampleEnv "What is 2+2?"
    ⟨false, false⟩ Orchestrator.fresh "1. Four\nurl: example.org" (Or.inl rfl) rfl rfl rfl
    (by decide)
  refine ⟨r, h1, ?_, ?_⟩
  · rw [h2]; decide
  · rw [h3]; decide

/-! ## C2: the cache path -/

/-- C2. When quick mode is set and the cache holds an entry for the query that is younger
than one hour, `processQuery` returns exactly `{response, source: "cache", timestamp}` of
that entry, makes no call at all to search or to a provider, and leaves the history, its
statistics and the cache mapping as they were. -/
theorem processQuery_cache_hit (rt : Runtime) (env : Env) (query : String) (options : Options)
    (o : Orchestrator) (entry : CacheEntry)
    (hquick : options.quick = true)
    (hentry : mapGet o.history.cache query = some entry)
    (hlive : env.lookupTime - entry.timestamp < 60 * 60 * 1000) :
    (processQuery rt env query options o).1 =
      .ok { response := entry.response, source := "cache", timestamp := some entry.timestamp,
            searchResults := none, usedModel := none } ∧
    (processQuery rt env query options o).2.trace = o.trace ∧
    (processQuery rt env query options o).2.history.history = o.history.history ∧
    (processQuery rt env query options o).2.history.historyStats = o.history.historyStats ∧
    (processQuery rt env query options o).2.history.cache = o.history.cache := by
  have hlive2 : env.lookupTime - entry.timestamp < ttl := hlive
  simp [processQuery, hquick, getCachedResponse, hentry, hlive2]

/-- C2, instance: a lookup 500 ms after the entry was written. -/
theorem processQuery_cache_hit_witness :
    (processQuery sampleRuntime sampleEnv "What is 2+2?" ⟨true, false⟩ Orchestrator.warm).1 =
      .ok { response := "The answer is 4.", source := "cache", timestamp := some 1000,
            searchResults := none, usedModel := none } ∧
    (processQuery sampleRuntime sampleEnv "What is 2+2?" ⟨true, false⟩ Orchestrator.warm).2.trace
      = [] :=
  have h := processQuery_cache_hit sampleRuntime sampleEnv "What is 2+2?" ⟨true, false⟩
    Orchestrator.warm { response := "The answer is 4.", timestamp := 1000 } rfl (by decide)
    (by decide)
  ⟨h.1, h.2.1⟩

/-! ## The non-cache path, step by step -/

/-- The answer and the model chosen by the fallback loop do not depend on the calls recorded
before it. -/
theorem tryModels_trace_indep (env : Env) (context : String) :
    ∀ (models : List String) (trace : List Event),
      (tryModels env context models trace).1 = (tryModels env context models []).1 ∧
      (tryModels env context models trace).2.1 = (tryModels env context models []).2.1 := by
  intro models
  induction models with
  | nil => intro trace; simp [tryModels]
  | cons model rest ih =>
    intro trace
    cases hp : providerOf env model with
    | none => simp [tryModels, hp]
    | some generate =>
      cases hg : generate context with
      | ok text => simp [tryModels, hp, hg]
      | error message =>
        simp only [tryModels, hp, hg]
        have h1 := ih (trace ++ [.generate model context, .warn model message])
        have h2 := ih ([] ++ [.generate model context, .warn model message])
        exact ⟨h1.1.trans h2.1.symm, h1.2.trans h2.2.symm⟩

theorem mapGet_mapSet_self (c : List (String × CacheEntry)) (k : String) (v : CacheEntry) :
    mapGet (mapSet c k v) k = some v := by
  induction c with
  | nil => simp [mapSet, mapGet]
  | cons p rest ih =>
    by_cases h : p.1 = k
    · simp [mapSet, mapGet, h]
    · have ih2 : Option.map Prod.snd (List.find? (fun p => p.1 == k) (mapSet rest k v)) = some v :=
        ih
      simp [mapSet, mapGet, h, ih2]

/-- The method `cacheResponse` never touches the history or its statistics. -/
theorem cacheResponse_history (now : Int) (w : Bool) (q r : String) (m : HistoryManager) :
    (cacheResponse now w q r m).2.history = m.history ∧
    (cacheResponse now w q r m).2.historyStats = m.historyStats := by
  unfold cacheResponse
  by_cases hfull : m.cache.length ≥ m.cacheStats.maxSize
  · cases hsort : sortedEntries m.cache with
    | nil => simp [hfull]
    | cons a t => simp [hfull]
  · simp [hfull]

/-- After a `cacheResponse` that does not hit the empty-array case, the cache maps the
question to the response and the instant of the call. -/
theorem cacheResponse_get (now : Int) (w : Bool) (q r : String) (m : HistoryManager)
    (hmax : 0 < m.cacheStats.maxSize) :
    mapGet (cacheResponse now w q r m).2.cache q = some { response := r, timestamp := now } := by
  unfold cacheResponse
  by_cases hfull : m.cache.length ≥ m.cacheStats.maxSize
  · have hne : m.cache ≠ [] := by
      intro h0
      rw [h0] at hfull
      simp at hfull
      omega
    have hs := sortedEntries_ne_nil hne
    cases hsort : sortedEntries m.cache with
    | nil => exact absurd hsort hs
    | cons a t => simp [hfull, mapGet_mapSet_self]
  · simp [hfull, mapGet_mapSet_self]

/-- The method `saveHistory` never touches the cache or its statistics. -/
theorem saveHistory_cache (rt : Runtime) (w : Bool) (m : HistoryManager) :
    (saveHistory rt w m).2.cache = m.cache ∧ (saveHistory rt w m).2.cacheStats = m.cacheStats := by
  unfold saveHistory
  cases w <;> simp

/-- When the blob fits, `saveHistory` keeps every entry and `totalEntries`. -/
theorem saveHistory_fits (rt : Runtime) (w : Bool) (m : HistoryManager)
    (hfit : blobLength rt m ≤ sizeLimit m) :
    (saveHistory rt w m).2.history = m.history ∧
    (saveHistory rt w m).2.historyStats.totalEntries = m.historyStats.totalEntries := by
  unfold saveHistory
  have h : ¬ blobLength rt m > sizeLimit m := by omega
  cases w <;> simp [h]

/-- When the blob with the new entry fits, `addToHistory` appends exactly that entry and
adds one to `totalEntries`. -/
theorem addToHistory_fits (rt : Runtime) (now : Int) (w : Bool) (q a : String)
    (m : HistoryManager)
    (hfit : blobLengthWith rt m (newEntry rt now q a) ≤ sizeLimit m) :
    (addToHistory rt now w q a m).2.history = m.history ++ [newEntry rt now q a] ∧
    (addToHistory rt now w q a m).2.historyStats.totalEntries =
      m.historyStats.totalEntries + 1 := by
  unfold addToHistory
  exact saveHistory_fits rt w _ hfit

/-- The method `addToHistory` never touches the cache. -/
theorem addToHistory_cache (rt : Runtime) (now : Int) (w : Bool) (q a : String)
    (m : HistoryManager) :
    (addToHistory rt now w q a m).2.cache = m.cache ∧
    (addToHistory rt now w q a m).2.cacheStats = m.cacheStats := by
  unfold addToHistory
  exact saveHistory_cache rt w _

theorem afterLookup_history (env : Env) (query : String) (options : Options) (o : Orchestrator) :
    (afterLookup env query options o).history = o.history.history ∧
    (afterLookup env query options o).historyStats = o.history.historyStats ∧
    (afterLookup env query options o).cacheStats.maxSize = o.history.cacheStats.maxSize := by
  unfold afterLookup
  split
  · exact ⟨(getCachedResponse_history _ _ _).1, (getCachedResponse_history _ _ _).2,
      getCachedResponse_maxSize _ _ _⟩
  · exact ⟨rfl, rfl, rfl⟩

/-- The whole of `processQuery` on the non-cache path when search answers and both files can
be written: the result object, the store and the record of calls. -/
theorem processQuery_fresh (rt : Runtime) (env : Env) (query : String) (options : Options)
    (o : Orchestrator) (sr : String)
    (hmiss : cacheMiss env query options o)
    (hsearch : env.search query = .ok sr)
    (hcw : env.cacheWriteOk = true) (hhw : env.historyWriteOk = true)
    (hmax : 0 < o.history.cacheStats.maxSize) :
    processQuery rt env query options o =
      (.ok { response := freshAnswer rt env query options sr
             source := ((tryModels env (createPrompt query sr options) modelPriority
                 []).2.1.filter jsTruthy).getD "search"
             timestamp := none
             searchResults := some sr
             usedModel := (tryModels env (createPrompt query sr options) modelPriority []).2.1 },
        { history := (addToHistory rt env.historyTime true query
              (freshAnswer rt env query options sr)
              (cacheResponse env.cacheTime true query (freshAnswer rt env query options sr)
                (afterLookup env query options o)).2).2
          trace := (tryModels env (createPrompt query sr options) modelPriority
                 (o.trace ++ [.search query])).2.2 ++ [.trackQuery env.startTime] }) := by
  have hmax2 : 0 < (afterLookup env query options o).cacheStats.maxSize := by
    rw [(afterLookup_history env query options o).2.2]; exact hmax
  rw [processQuery_of_miss rt env query options o hmiss]
  have := answerQuery_ok rt env query options (afterLookup env query options o) o.trace sr
    hsearch hcw hhw hmax2
  unfold afterLookup at this ⊢
  rw [this]
  obtain ⟨h1, h2⟩ := tryModels_trace_indep env (createPrompt query sr options) modelPriority
    (o.trace ++ [.search query])
  unfold freshAnswer
  rw [h1, h2]

/-! ## C3: what a completed call leaves in the cache and the history -/

/-- C3, counterexample. A call served from the cache completes successfully, yet the history
holds no entry for the query afterwards and `totalEntries` is what it was (0), not one more. -/
theorem quick_hit_leaves_history_untouched :
    (processQuery sampleRuntime sampleEnv "What is 2+2?" ⟨true, false⟩ Orchestrator.warm).1 =
      .ok { response := "The answer is 4.", source := "cache", timestamp := some 1000,
            searchResults := none, usedModel := none } ∧
    Orchestrator.warm.history.historyStats.totalEntries = 0 ∧
    (processQuery sampleRuntime sampleEnv "What is 2+2?" ⟨true, false⟩
      Orchestrator.warm).2.history.historyStats.totalEntries = 0 ∧
    (processQuery sampleRuntime sampleEnv "What is 2+2?" ⟨true, false⟩
      Orchestrator.warm).2.history.history = [] := by
  refine ⟨?_, ?_, ?_, ?_⟩ <;> rfl

/-- C3, amended. When `processQuery` is not served from the cache, search answers, both files
can be written and the history blob including the new entry is within `maxSizeMB`, the call
returns a result, the cache maps the exact query string to the returned response, the history
is the former history followed by one entry whose question is the query, and `totalEntries`
is exactly one greater than before. -/
theorem processQuery_records_query (rt : Runtime) (env : Env) (query : String)
    (options : Options) (o : Orchestrator) (sr : String)
    (hmiss : cacheMiss env query options o)
    (hsearch : env.search query = .ok sr)
    (hcw : env.cacheWriteOk = true) (hhw : env.historyWriteOk = true)
    (hmax : 0 < o.history.cacheStats.maxSize)
    (hfit : blobLengthWith rt o.history
        (newEntry rt env.historyTime query (freshAnswer rt env query options sr)) ≤
      o.history.historyStats.maxSizeMB * 1024 * 1024) :
    ∃ r, (processQuery rt env query options o).1 = .ok r ∧
      mapGet (processQuery rt env query options o).2.history.cache query =
        some { response := r.response, timestamp := env.cacheTime } ∧
      (processQuery rt env query options o).2.history.history =
        o.history.history ++ [newEntry rt env.historyTime query r.response] ∧
      (∃ e ∈ (processQuery rt env query options o).2.history.history, e.question = query) ∧
      (processQuery rt env query options o).2.history.historyStats.totalEntries =
        o.history.historyStats.totalEntries + 1 := by
  rw [processQuery_fresh rt env query options o sr hmiss hsearch hcw hhw hmax]
  obtain ⟨hl1, hl2, hl3⟩ := afterLookup_history env query options o
  have hmax2 : 0 < (afterLookup env query options o).cacheStats.maxSize := by rw [hl3]; exact hmax
  obtain ⟨hc1, hc2⟩ := cacheResponse_history env.cacheTime true query
    (freshAnswer rt env query options sr) (afterLookup env query options o)
  have hfit2 : blobLengthWith rt
      (cacheResponse env.cacheTime true query (freshAnswer rt env query options sr)
        (afterLookup env query options o)).2
      (newEntry rt env.historyTime query (freshAnswer rt env query options sr)) ≤
      sizeLimit (cacheResponse env.cacheTime true query (freshAnswer rt env query options sr)
        (afterLookup env query options o)).2 := by
    unfold blobLengthWith sizeLimit
    rw [hc1, hc2, hl1, hl2]
    exact hfit
  obtain ⟨ha1, ha2⟩ := addToHistory_fits rt env.historyTime true query
    (freshAnswer rt env query options sr) _ hfit2
  have hhist : (addToHistory rt env.historyTime true query (freshAnswer rt env query options sr)
      (cacheResponse env.cacheTime true query (freshAnswer rt env query options sr)
        (afterLookup env query options o)).2).2.history =
      o.history.history ++ [newEntry rt env.historyTime query
        (freshAnswer rt env query options sr)] := by
    rw [ha1, hc1, hl1]
  refine ⟨_, rfl, ?_, hhist, ?_, ?_⟩
  · rw [(addToHistory_cache _ _ _ _ _ _).1]
    exact cacheResponse_get _ _ _ _ _ hmax2
  · refine ⟨newEntry rt env.historyTime query (freshAnswer rt env query options sr), ?_, ?_⟩
    · show _ ∈ (addToHistory _ _ _ _ _ _).2.history
      rw [hhist]; simp
    · unfold newEntry; split <;> rfl
  · show (addToHistory _ _ _ _ _ _).2.historyStats.totalEntries = _
    rw [ha2, hc2, hl2]

/-- C3, amended, instance: a first question put to a fresh orchestrator. -/
theorem processQuery_records_query_witness :
    ∃ r, (processQuery sampleRuntime sampleEnv "What is 2+2?" ⟨false, false⟩
        Orchestrator.fresh).1 = .ok r ∧
      mapGet (processQuery sampleRuntime sampleEnv "What is 2+2?" ⟨false, false⟩
        Orchestrator.fresh).2.history.cache "What is 2+2?" =
        some { response := r.response, timestamp := 1002 } ∧
      (processQuery sampleRuntime sampleEnv "What is 2+2?" ⟨false, false⟩
        Orchestrator.fresh).2.history.historyStats.totalEntries = 0 + 1 := by
  obtain ⟨r, h1, h2, _, _, h5⟩ := processQuery_records_query sampleRuntime sampleEnv
    "What is 2+2?" ⟨false, false⟩ Orchestrator.fresh "1. Four\nurl: example.org" (Or.inl rfl)
    rfl rfl rfl (by decide) (by decide)
  exact ⟨r, h1, h2, h5⟩

/-! ## C4: eviction in `cacheResponse` -/

/-- The first element of the sorted array is an entry of the cache with the least timestamp. -/
theorem sortedEntries_head_oldest (c : List (String × CacheEntry)) (a : String × CacheEntry)
    (t : List (String × CacheEntry)) (h : sortedEntries c = a :: t) :
    a ∈ c ∧ ∀ p ∈ c, a.2.timestamp ≤ p.2.timestamp := by
  have hperm := sortedEntries_perm c
  have hsorted : List.Sorted olderOrEqual (sortedEntries c) := List.sorted_insertionSort _ c
  rw [h] at hperm hsorted
  refine ⟨hperm.subset (List.mem_cons_self _ _), ?_⟩
  intro p hp
  have hp2 : p ∈ a :: t := hperm.symm.subset hp
  rcases List.mem_cons.mp hp2 with heq | hmem
  · rw [heq]
  · exact List.rel_of_sorted_cons hsorted p hmem

theorem length_mapSet_le (c : List (String × CacheEntry)) (k : String) (v : CacheEntry) :
    (mapSet c k v).length ≤ c.length + 1 := by
  induction c with
  | nil => simp [mapSet]
  | cons p rest ih =>
    by_cases h : p.1 = k
    · simp [mapSet, h]
    · simp [mapSet, h]; omega

theorem length_mapDelete_le (c : List (String × CacheEntry)) (k : String) :
    (mapDelete c k).length ≤ c.length := by
  unfold mapDelete
  exact List.length_filter_le _ _

/-- Deleting the key of an entry that is present removes at least that entry. -/
theorem length_mapDelete_lt (c : List (String × CacheEntry)) (p : String × CacheEntry)
    (hp : p ∈ c) : (mapDelete c p.1).length < c.length := by
  induction c with
  | nil => cases hp
  | cons x rest ih =>
    by_cases hx : x.1 = p.1
    · have : (mapDelete (x :: rest) p.1) = mapDelete rest p.1 := by simp [mapDelete, hx]
      rw [this]
      have := length_mapDelete_le rest p.1
      simp only [List.length_cons]
      omega
    · have hp2 : p ∈ rest := by
        rcases List.mem_cons.mp hp with h | h
        · exact absurd (by rw [h]) hx
        · exact h
      have : (mapDelete (x :: rest) p.1) = x :: mapDelete rest p.1 := by simp [mapDelete, hx]
      rw [this]
      have := ih hp2
      simp only [List.length_cons]
      omega

/-- In a map (keys pairwise distinct), deleting the key of a present entry removes exactly one
entry. -/
theorem length_mapDelete_nodup (c : List (String × CacheEntry)) (p : String × CacheEntry)
    (hp : p ∈ c) (hnodup : (c.map Prod.fst).Nodup) :
    (mapDelete c p.1).length + 1 = c.length := by
  induction c with
  | nil => cases hp
  | cons x rest ih =>
    rw [List.map_cons, List.nodup_cons] at hnodup
    by_cases hx : x.1 = p.1
    · have hnot : ∀ y ∈ rest, (y.1 != p.1) = true := by
        intro y hy
        have : y.1 ≠ x.1 := fun h => hnodup.1 (h ▸ List.mem_map_of_mem Prod.fst hy)
        simpa [hx] using this
      have : mapDelete (x :: rest) p.1 = rest := by
        simp only [mapDelete, List.filter_cons, hx, bne_self_eq_false, Bool.false_eq_true,
          if_false]
        exact List.filter_eq_self.mpr hnot
      rw [this]; rfl
    · have hp2 : p ∈ rest := by
        rcases List.mem_cons.mp hp with h | h
        · exact absurd (by rw [h]) hx
        · exact h
      have : (mapDelete (x :: rest) p.1) = x :: mapDelete rest p.1 := by simp [mapDelete, hx]
      rw [this]
      have := ih hp2 hnodup.2
      simp only [List.length_cons]
      omega

/-- A `cacheResponse` on a cache of at most `maxSize` entries leaves at most `maxSize`. -/
theorem cacheResponse_length_le (now : Int) (w : Bool) (q r : String) (m : HistoryManager)
    (hle : m.cache.length ≤ m.cacheStats.maxSize) :
    (cacheResponse now w q r m).2.cache.length ≤ m.cacheStats.maxSize := by
  unfold cacheResponse
  by_cases hfull : m.cache.length ≥ m.cacheStats.maxSize
  · cases hsort : sortedEntries m.cache with
    | nil => simpa [hfull] using hle
    | cons a t =>
      have ha := (sortedEntries_head_oldest m.cache a t hsort).1
      have h1 := length_mapDelete_lt m.cache a ha
      have h2 := length_mapSet_le (mapDelete m.cache a.1) q { response := r, timestamp := now }
      simp only [hfull, if_true]
      show (mapSet (mapDelete m.cache a.1) q { response := r, timestamp := now }).length ≤ _
      omega
  · have h2 := length_mapSet_le m.cache q { response := r, timestamp := now }
    simp only [hfull, if_false]
    show (mapSet m.cache q { response := r, timestamp := now }).length ≤ _
    omega

theorem cacheOfSize_length (n : Nat) : (cacheOfSize n).length = n := by
  simp [cacheOfSize]

theorem cacheOfSize_nodup (n : Nat) : ((cacheOfSize n).map Prod.fst).Nodup := by
  unfold cacheOfSize
  rw [List.map_map]
  refine List.Nodup.map ?_ (List.nodup_range n)
  intro i j hij
  have h := congrArg (fun s : String => s.data.length) hij
  simpa using h

set_option maxRecDepth 100000 in
/-- C4, counterexample. A cache holding 1001 entries (as `loadCache` builds from a file of 1001
pairs; `maxSize` is 1000) still holds 1001 entries after a `cacheResponse` for a new question. -/
theorem cacheResponse_oversize :
    (managerWithCache 1001).cacheStats.maxSize = 1000 ∧
    (cacheResponse 5000 true "new" "answer" (managerWithCache 1001)).1 = .ok () ∧
    (cacheResponse 5000 true "new" "answer" (managerWithCache 1001)).2.cache.length = 1001 := by
  refine ⟨rfl, ?_, ?_⟩
  · exact cacheResponse_ok _ _ _ _ (by decide)
  · decide

/-- C4, amended. For a cache (keys pairwise distinct) holding at most `maxSize` entries,
`maxSize` positive: after `cacheResponse` the cache holds at most `maxSize` entries and maps
the question to the new entry; and if it held exactly `maxSize` entries, `cacheResponse`
removed exactly one entry, one whose timestamp is the least of the whole cache, counted one
eviction, and then set the new entry. -/
theorem cacheResponse_eviction (now : Int) (w : Bool) (q r : String) (m : HistoryManager)
    (hmax : 0 < m.cacheStats.maxSize)
    (hnodup : (m.cache.map Prod.fst).Nodup)
    (hle : m.cache.length ≤ m.cacheStats.maxSize) :
    (cacheResponse now w q r m).2.cache.length ≤ m.cacheStats.maxSize ∧
    mapGet (cacheResponse now w q r m).2.cache q = some { response := r, timestamp := now } ∧
    (m.cache.length = m.cacheStats.maxSize →
      ∃ oldest ∈ m.cache,
        (∀ p ∈ m.cache, oldest.2.timestamp ≤ p.2.timestamp) ∧
        (mapDelete m.cache oldest.1).length + 1 = m.cache.length ∧
        (∀ p ∈ m.cache, p.1 ≠ oldest.1 → p ∈ mapDelete m.cache oldest.1) ∧
        (cacheResponse now w q r m).2.cache =
          mapSet (mapDelete m.cache oldest.1) q { response := r, timestamp := now } ∧
        (cacheResponse now w q r m).2.cacheStats.evictions = m.cacheStats.evictions + 1) := by
  refine ⟨cacheResponse_length_le now w q r m hle, cacheResponse_get now w q r m hmax, ?_⟩
  intro hfull
  have hge : m.cache.length ≥ m.cacheStats.maxSize := by omega
  have hne : m.cache ≠ [] := by
    intro h0
    rw [h0] at hfull
    simp at hfull
    omega
  cases hsort : sortedEntries m.cache with
  | nil => exact absurd hsort (sortedEntries_ne_nil hne)
  | cons a t =>
    obtain ⟨ha, hmin⟩ := sortedEntries_head_oldest m.cache a t hsort
    refine ⟨a, ha, hmin, length_mapDelete_nodup m.cache a ha hnodup, ?_, ?_, ?_⟩
    · intro p hp hne2
      simp [mapDelete, hp, hne2]
    · simp [cacheResponse, hge, hsort]
    · simp [cacheResponse, hge, hsort]

/-- C4, amended, instance: a cache of exactly 1000 entries; the entry written at instant 0
is evicted and the cache holds 1000 entries afterwards. -/
theorem cacheResponse_eviction_witness :
    (managerWithCache 1000).cache.length = (managerWithCache 1000).cacheStats.maxSize ∧
    (cacheResponse 5000 true "new" "answer" (managerWithCache 1000)).2.cache.length ≤ 1000 ∧
    ∃ oldest ∈ (managerWithCache 1000).cache,
      (∀ p ∈ (managerWithCache 1000).cache, oldest.2.timestamp ≤ p.2.timestamp) ∧
      (cacheResponse 5000 true "new" "answer" (managerWithCache 1000)).2.cache =
        mapSet (mapDelete (managerWithCache 1000).cache oldest.1) "new"
          { response := "answer", timestamp := 5000 } := by
  have hlen : (managerWithCache 1000).cache.length = (managerWithCache 1000).cacheStats.maxSize := by
    simp only [managerWithCache, cacheOfSize_length]
  have hpos : 0 < (managerWithCache 1000).cacheStats.maxSize := by
    simp only [managerWithCache]; decide
  have hnodup : ((managerWithCache 1000).cache.map Prod.fst).Nodup := by
    simp only [managerWithCache]; exact cacheOfSize_nodup 1000
  obtain ⟨h1, _, h3⟩ := cacheResponse_eviction 5000 true "new" "answer" (managerWithCache 1000)
    hpos hnodup (le_of_eq hlen)
  obtain ⟨oldest, hmem, hmin, _, _, hcache, _⟩ := h3 hlen
  exact ⟨hlen, h1, oldest, hmem, hmin, hcache⟩

/-! ## C5: ask twice in quick mode -/

/-- The whole of `processQuery` when quick mode finds a live entry. -/
theorem processQuery_of_hit (rt : Runtime) (env : Env) (query : String) (options : Options)
    (o : Orchestrator) (entry : CacheEntry)
    (hquick : options.quick = true)
    (hentry : mapGet o.history.cache query = some entry)
    (hlive : env.lookupTime - entry.timestamp < ttl) :
    processQuery rt env query options o =
      (.ok { response := entry.response, source := "cache", timestamp := some entry.timestamp,
             searchResults := none, usedModel := none },
        { o with history := { o.history with
            cacheStats := { o.history.cacheStats with hits := o.history.cacheStats.hits + 1 } } }) := by
  simp [processQuery, hquick, getCachedResponse, hentry, hlive]

/-- The method `cacheResponse` never changes the counters `hits` and `misses`. -/
theorem cacheResponse_counters (now : Int) (w : Bool) (q r : String) (m : HistoryManager) :
    (cacheResponse now w q r m).2.cacheStats.hits = m.cacheStats.hits ∧
    (cacheResponse now w q r m).2.cacheStats.misses = m.cacheStats.misses := by
  unfold cacheResponse
  by_cases hfull : m.cache.length ≥ m.cacheStats.maxSize
  · cases hsort : sortedEntries m.cache with
    | nil => simp [hfull]
    | cons a t => simp [hfull]
  · simp [hfull]

/-- C5. Starting from an empty cache, with search answering and both files writable: a first
`processQuery` in quick mode counts a cache miss, calls search once with the query, calls the
providers in order up to the first that answers, reports that one as `usedModel`, and caches
its response under the query; a second `processQuery` for the same query in quick mode whose
lookup happens less than one hour after the entry was written returns `source = "cache"`
with the same response text and makes no further call to search or to any provider. -/
theorem processQuery_twice_quick (rt : Runtime) (env1 env2 : Env) (query : String)
    (detailed1 detailed2 : Bool) (o : Orchestrator) (sr : String)
    (hempty : o.history.cache = [])
    (hmax : 0 < o.history.cacheStats.maxSize)
    (hsearch : env1.search query = .ok sr)
    (hcw : env1.cacheWriteOk = true) (hhw : env1.historyWriteOk = true)
    (hsoon : env2.lookupTime - env1.cacheTime < 60 * 60 * 1000) :
    ∃ r1 r2,
      (processQuery rt env1 query ⟨true, detailed1⟩ o).1 = .ok r1 ∧
      (processQuery rt env1 query ⟨true, detailed1⟩ o).2.history.cacheStats.misses =
        o.history.cacheStats.misses + 1 ∧
      searchCalls (processQuery rt env1 query ⟨true, detailed1⟩ o).2.trace =
        searchCalls o.trace ++ [query] ∧
      invokedModels (processQuery rt env1 query ⟨true, detailed1⟩ o).2.trace =
        invokedModels o.trace ++
          ["openai", "claude", "bard", "llama"].takeWhile
            (fun model => !succeedsOn env1 (createPrompt query sr ⟨true, detailed1⟩) model) ++
          (["openai", "claude", "bard", "llama"].find?
            (succeedsOn env1 (createPrompt query sr ⟨true, detailed1⟩))).toList ∧
      r1.usedModel = ["openai", "claude", "bard", "llama"].find?
        (succeedsOn env1 (createPrompt query sr ⟨true, detailed1⟩)) ∧
      r1.searchResults = some sr ∧
      mapGet (processQuery rt env1 query ⟨true, detailed1⟩ o).2.history.cache query =
        some { response := r1.response, timestamp := env1.cacheTime } ∧
      (processQuery rt env2 query ⟨true, detailed2⟩
        (processQuery rt env1 query ⟨true, detailed1⟩ o).2).1 = .ok r2 ∧
      r2.source = "cache" ∧
      r2.response = r1.response ∧
      (processQuery rt env2 query ⟨true, detailed2⟩
        (processQuery rt env1 query ⟨true, detailed1⟩ o).2).2.trace =
        (processQuery rt env1 query ⟨true, detailed1⟩ o).2.trace := by
  have hlook : getCachedResponse env1.lookupTime query o.history =
      (none, { o.history with cacheStats := { o.history.cacheStats with
        misses := o.history.cacheStats.misses + 1 } }) := by
    simp [getCachedResponse, hempty, mapGet]
  have hmiss : cacheMiss env1 query ⟨true, detailed1⟩ o := Or.inr (by rw [hlook])
  have hfirst := processQuery_fresh rt env1 query ⟨true, detailed1⟩ o sr hmiss hsearch hcw hhw hmax
  obtain ⟨_, _, hl3⟩ := afterLookup_history env1 query ⟨true, detailed1⟩ o
  have hmax2 : 0 < (afterLookup env1 query ⟨true, detailed1⟩ o).cacheStats.maxSize := by
    rw [hl3]; exact hmax
  have hmisses : (afterLookup env1 query ⟨true, detailed1⟩ o).cacheStats.misses =
      o.history.cacheStats.misses + 1 := by
    simp [afterLookup, hlook]
  obtain ⟨ht1, ht2, ht3⟩ := tryModels_spec env1 (createPrompt query sr ⟨true, detailed1⟩)
    modelPriority (o.trace ++ [.search query]) (modelPriority_providers env1)
  obtain ⟨_, hi2⟩ := tryModels_trace_indep env1 (createPrompt query sr ⟨true, detailed1⟩)
    modelPriority (o.trace ++ [.search query])
  have hcached : mapGet (processQuery rt env1 query ⟨true, detailed1⟩ o).2.history.cache query =
      some { response := freshAnswer rt env1 query ⟨true, detailed1⟩ sr,
             timestamp := env1.cacheTime } := by
    rw [hfirst]
    show mapGet (addToHistory _ _ _ _ _ _).2.cache query = _
    rw [(addToHistory_cache _ _ _ _ _ _).1]
    exact cacheResponse_get _ _ _ _ _ hmax2
  have hsecond := processQuery_of_hit rt env2 query ⟨true, detailed2⟩
    (processQuery rt env1 query ⟨true, detailed1⟩ o).2 _ rfl hcached hsoon
  refine ⟨{ response := freshAnswer rt env1 query ⟨true, detailed1⟩ sr
            source := ((tryModels env1 (createPrompt query sr ⟨true, detailed1⟩) modelPriority
              []).2.1.filter jsTruthy).getD "search"
            timestamp := none
            searchResults := some sr
            usedModel := (tryModels env1 (createPrompt query sr ⟨true, detailed1⟩) modelPriority
              []).2.1 },
          { response := freshAnswer rt env1 query ⟨true, detailed1⟩ sr
            source := "cache"
            timestamp := some env1.cacheTime
            searchResults := none
            usedModel := none },
          by rw [hfirst], ?_, ?_, ?_, ?_, rfl, ?_, by rw [hsecond], rfl, rfl, by rw [hsecond]⟩
  · rw [hfirst]
    show (addToHistory _ _ _ _ _ _).2.cacheStats.misses = _
    rw [(addToHistory_cache _ _ _ _ _ _).2, (cacheResponse_counters _ _ _ _ _).2, hmisses]
  · rw [hfirst]
    simp only [searchCalls_append, ht3]
    simp [searchCalls]
  · rw [hfirst]
    simp only [invokedModels_append, ht2]
    simp [invokedModels, modelPriority]
  · show (tryModels _ _ _ _).2.1 = _
    rw [← hi2, ht1]; rfl
  · exact hcached

/-- C5, instance: the question "What is 2+2?" asked twice, one minute apart, of a fresh
orchestrator. -/
theorem processQuery_twice_quick_witness :
    ∃ r1 r2,
      (processQuery sampleRuntime sampleEnv "What is 2+2?" ⟨true, false⟩ Orchestrator.fresh).1 =
        .ok r1 ∧
      r1.usedModel = some "bard" ∧
      (processQuery sampleRuntime sampleEnvLater "What is 2+2?" ⟨true, false⟩
        (processQuery sampleRuntime sampleEnv "What is 2+2?" ⟨true, false⟩
          Orchestrator.fresh).2).1 = .ok r2 ∧
      r2.source = "cache" ∧
      r2.response = r1.response ∧
      (processQuery sampleRuntime sampleEnvLater "What is 2+2?" ⟨true, false⟩
        (processQuery sampleRuntime sampleEnv "What is 2+2?" ⟨true, false⟩
          Orchestrator.fresh).2).2.trace =
        (processQuery sampleRuntime sampleEnv "What is 2+2?" ⟨true, false⟩
          Orchestrator.fresh).2.trace := by
  obtain ⟨r1, r2, h1, _, _, _, h5, _, _, h8, h9, h10, h11⟩ :=
    processQuery_twice_quick sampleRuntime sampleEnv sampleEnvLater "What is 2+2?" false false
      Orchestrator.fresh "1. Four\nurl: example.org" rfl (by decide) rfl rfl rfl (by decide)
  refine ⟨r1, r2, h1, ?_, h8, h9, h10, h11⟩
  rw [h5]; decide

/-! ## C6: appending to a history at its `maxEntries` bound -/

set_option maxRecDepth 100000 in
/-- C6, the code at the failing input. With `maxEntries = 2` and two entries stored,
`addToHistory` leaves three entries, the first still the oldest one; only `cleanupHistory`,
which `addToHistory` does not call, brings the history back to the two most recent. -/
theorem addToHistory_exceeds_maxEntries :
    twoEntryManager.historyStats.maxEntries = 2 ∧
    (addToHistory sampleRuntime 3000 true "q3" "a3" twoEntryManager).1 = .ok () ∧
    (addToHistory sampleRuntime 3000 true "q3" "a3" twoEntryManager).2.history =
      [{ timestamp := 1000, question := "q1", answer := "a1", compressed := false },
       { timestamp := 2000, question := "q2", answer := "a2", compressed := false },
       { timestamp := 3000, question := "q3", answer := "a3", compressed := false }] ∧
    (cleanupHistory (addToHistory sampleRuntime 3000 true "q3" "a3" twoEntryManager).2).history =
      [{ timestamp := 2000, question := "q2", answer := "a2", compressed := false },
       { timestamp := 3000, question := "q3", answer := "a3", compressed := false }] := by
  refine ⟨rfl, rfl, ?_, ?_⟩ <;> decide

/-! ## C7 and C8: compression of long answers -/

theorem toNat_ofNat_byte (n : Nat) (h : n < 256) : (Char.ofNat n).toNat = n := by
  have hv : n.isValidChar := Or.inl (by omega)
  simp [Char.ofNat, hv, Char.ofNatAux, Char.toNat, UInt32.toNat]

theorem char_toNat_lt (c : Char) : c.toNat < 1114112 := by
  have := c.valid
  simp [UInt32.isValidChar, Nat.isValidChar] at this
  simp [Char.toNat]
  omega

theorem bytesChars_cons (c : Char) (tail : Buffer) :
    bytesChars (charBytes c ++ tail) = (bytesChars tail).map (fun cs => c :: cs) := by
  have hlt := char_toNat_lt c
  have hn : c.toNat / 65536 % 256 * 65536 + c.toNat / 256 % 256 * 256 + c.toNat % 256 =
      c.toNat := by omega
  have hc : Char.ofNat (c.toNat / 65536 % 256 * 65536 + c.toNat / 256 % 256 * 256 +
      c.toNat % 256) = c := by rw [hn, Char.ofNat_toNat]
  simp only [charBytes, List.cons_append, List.nil_append, bytesChars, hc]
  simp only [if_true]
  rfl

theorem bytesChars_charBytes (cs : List Char) : bytesChars (cs.flatMap charBytes) = some cs := by
  induction cs with
  | nil => rfl
  | cons c rest ih => rw [List.flatMap_cons, bytesChars_cons, ih]; rfl

/-- The byte codec of `sampleRuntime` is undone by its inverse, as gzip is by gunzip. -/
theorem sampleRuntime_gunzip_gzip (s : String) :
    sampleRuntime.gunzip (sampleRuntime.gzip s) = some s := by
  show (bytesChars (s.data.flatMap charBytes)).map String.mk = some s
  rw [bytesChars_charBytes]
  rfl

/-- The text codec of `sampleRuntime` is undone by its inverse, as base64 encoding is. -/
theorem sampleRuntime_fromBase64_toBase64 (b : Buffer) :
    sampleRuntime.fromBase64 (sampleRuntime.toBase64 b) = b := by
  show List.map _ (List.map _ b) = b
  rw [List.map_map]
  conv_rhs => rw [← List.map_id b]
  apply List.map_congr_left
  intro x _
  apply Fin.ext
  show (Char.ofNat x.val).toNat % 256 = x.val
  rw [toNat_ofNat_byte _ x.isLt]
  exact Nat.mod_eq_of_lt x.isLt

theorem units_ofString (s : String) : JsString.units (JsString.ofString s) = jsLength s := by
  unfold JsString.units JsString.ofString jsLength
  rw [List.map_map]
  rfl

theorem toWellFormed_ofString (s : String) : JsString.toWellFormed (JsString.ofString s) = s := by
  unfold JsString.toWellFormed JsString.ofString
  rw [List.map_map]
  show String.mk (List.map id s.data) = s
  rw [List.map_id]

theorem isWellFormed_iff (a : JsString) :
    JsString.isWellFormed a = true ↔ JsString.ofString (JsString.toWellFormed a) = a := by
  unfold JsString.isWellFormed JsString.ofString JsString.toWellFormed
  induction a with
  | nil => simp
  | cons u us ih =>
    cases u with
    | scalar c => simpa using ih
    | unpaired n => simp

/-- On an answer without unpaired surrogates the entry built for an answer in general is the
entry `newEntry` builds. -/
theorem newEntryOf_ofString (rt : Runtime) (now : Int) (question answer : String) :
    newEntryOf rt now question (JsString.ofString answer) =
      RawEntry.ofEntry (newEntry rt now question answer) := by
  unfold newEntryOf newEntry
  rw [units_ofString, toWellFormed_ofString]
  split <;> rfl

/-- What the entry built for an answer stands for, given that gunzip undoes gzip and that
base64 decoding undoes base64 encoding: an answer of at most 1024 code units is stored as it
is; a longer one comes back with every unpaired surrogate replaced by U+FFFD, so it is
recovered exactly if and only if it has no unpaired surrogate. -/
theorem newEntryOf_recovered (rt : Runtime) (now : Int) (question : String) (answer : JsString)
    (hgzip : ∀ s, rt.gunzip (rt.gzip s) = some s)
    (hbase64 : ∀ b, rt.fromBase64 (rt.toBase64 b) = b) :
    ((newEntryOf rt now question answer).compressed = true ↔ JsString.units answer > 1024) ∧
    (JsString.units answer ≤ 1024 →
      originalAnswerOf rt (newEntryOf rt now question answer) = some answer) ∧
    (JsString.units answer > 1024 →
      originalAnswerOf rt (newEntryOf rt now question answer) =
        some (JsString.ofString (JsString.toWellFormed answer)) ∧
      (originalAnswerOf rt (newEntryOf rt now question answer) = some answer ↔
        JsString.isWellFormed answer = true)) := by
  have hlong : JsString.units answer > 1024 →
      originalAnswerOf rt (newEntryOf rt now question answer) =
        some (JsString.ofString (JsString.toWellFormed answer)) := by
    intro h
    unfold newEntryOf originalAnswerOf
    rw [if_pos h]
    simp only [if_true, toWellFormed_ofString, hbase64, hgzip, Option.map_some']
  refine ⟨?_, ?_, fun h => ⟨hlong h, ?_⟩⟩
  · unfold newEntryOf
    split <;> simp [*]
  · intro h
    have h2 : ¬ JsString.units answer > 1024 := by omega
    unfold newEntryOf originalAnswerOf
    rw [if_neg h2]
    rfl
  · rw [hlong h, isWellFormed_iff]
    simp

theorem units_replicate_unpaired (n u : Nat) :
    JsString.units (List.replicate n (JsUnit.unpaired u)) = n := by
  unfold JsString.units
  rw [List.map_replicate, List.sum_replicate]
  simp

theorem toWellFormed_replicate_unpaired (n u : Nat) :
    JsString.toWellFormed (List.replicate n (JsUnit.unpaired u)) =
      String.mk (List.replicate n (Char.ofNat 0xFFFD)) := by
  unfold JsString.toWellFormed
  rw [List.map_replicate]

theorem ofString_replicate_ne (n u : Nat) (c : Char) :
    JsString.ofString (String.mk (List.replicate (n + 1) c)) ≠
      List.replicate (n + 1) (JsUnit.unpaired u) := by
  unfold JsString.ofString
  intro h
  simp only [List.replicate_succ, List.map_cons, List.cons.injEq] at h
  cases h.1

/-- C7, counterexample. For the answer of 1025 unpaired high surrogates the entry is flagged
compressed, and base64-decoding and decompressing its stored answer yields 1025 replacement
characters U+FFFD, not the original string. -/
theorem unpaired_surrogates_not_recovered :
    JsString.units loneSurrogates = 1025 ∧
    (newEntryOf sampleRuntime 3000 "q" loneSurrogates).compressed = true ∧
    originalAnswerOf sampleRuntime (newEntryOf sampleRuntime 3000 "q" loneSurrogates) =
      some (JsString.ofString replacementText) ∧
    originalAnswerOf sampleRuntime (newEntryOf sampleRuntime 3000 "q" loneSurrogates) ≠
      some loneSurrogates := by
  have hlen : JsString.units loneSurrogates = 1025 := units_replicate_unpaired 1025 0xD83D
  have hwf : JsString.toWellFormed loneSurrogates = replacementText :=
    toWellFormed_replicate_unpaired 1025 0xD83D
  obtain ⟨h1, _, h3⟩ := newEntryOf_recovered sampleRuntime 3000 "q" loneSurrogates
    sampleRuntime_gunzip_gzip sampleRuntime_fromBase64_toBase64
  have hgt : JsString.units loneSurrogates > 1024 := by rw [hlen]; decide
  have hrec := (h3 hgt).1
  rw [hwf] at hrec
  refine ⟨hlen, h1.mpr hgt, hrec, ?_⟩
  rw [hrec]
  intro h
  exact ofString_replicate_ne 1024 0xD83D (Char.ofNat 0xFFFD) (Option.some.inj h)

/-- C7, amended. For every answer string without unpaired surrogates (a `String`, as a string
in general `JsString.ofString answer`), given that gunzip undoes gzip and that base64 decoding
undoes base64 encoding, and the history blob with the new entry within `maxSizeMB`:
`addToHistory` appends one entry, the one built for the answer; if it is flagged compressed,
base64-decoding and decompressing its stored answer yields the original string exactly; if it
is not flagged, its stored answer is the original string verbatim; either way the string the
entry stands for is the original answer. -/
theorem addToHistory_answer_recoverable (rt : Runtime) (now : Int) (w : Bool)
    (question answer : String) (m : HistoryManager)
    (hgzip : ∀ s, rt.gunzip (rt.gzip s) = some s)
    (hbase64 : ∀ b, rt.fromBase64 (rt.toBase64 b) = b)
    (hfit : blobLengthWith rt m (newEntry rt now question answer) ≤ sizeLimit m) :
    ∃ e, (addToHistory rt now w question answer m).2.history = m.history ++ [e] ∧
      (e.compressed = true → rt.gunzip (rt.fromBase64 e.answer) = some answer) ∧
      (e.compressed = false → e.answer = answer) ∧
      RawEntry.ofEntry e = newEntryOf rt now question (JsString.ofString answer) ∧
      originalAnswerOf rt (RawEntry.ofEntry e) = some (JsString.ofString answer) := by
  refine ⟨newEntry rt now question answer, (addToHistory_fits rt now w question answer m hfit).1,
    ?_, ?_, (newEntryOf_ofString rt now question answer).symm, ?_⟩
  · intro hc
    unfold newEntry at hc ⊢
    split at hc
    · simp only [↓reduceIte, *]
    · cases hc
  · intro hc
    unfold newEntry at hc ⊢
    split at hc
    · cases hc
    · simp only [↓reduceIte, *]
  · rw [← newEntryOf_ofString]
    obtain ⟨_, hshort, hlong⟩ := newEntryOf_recovered rt now question (JsString.ofString answer)
      hgzip hbase64
    by_cases h : JsString.units (JsString.ofString answer) > 1024
    · rw [(hlong h).1, toWellFormed_ofString]
    · exact hshort (by omega)

theorem jsLength_replicate (n : Nat) (c : Char) :
    jsLength (String.mk (List.replicate n c)) = n * utf16Units c := by
  simp [jsLength, List.map_replicate, List.sum_replicate]

theorem utf8Length_replicate (n : Nat) (c : Char) :
    utf8Length (String.mk (List.replicate n c)) = n * utf8Units c := by
  simp [utf8Length, List.map_replicate, List.sum_replicate]

theorem length_flatMap_charBytes (cs : List Char) :
    (cs.flatMap charBytes).length = 3 * cs.length := by
  induction cs with
  | nil => rfl
  | cons c rest ih =>
    rw [List.flatMap_cons, List.length_append, ih]
    simp [charBytes]
    omega

/-- The length of the blob `sampleRuntime` produces for a history with one more entry. -/
theorem sample_blobLengthWith (m : HistoryManager) (e : HistoryEntry) :
    blobLengthWith sampleRuntime m e =
      3 * ((m.history ++ [e]).flatMap
        (fun e => e.question.data ++ ':' :: e.answer.data ++ [';'])).length := by
  show (List.flatMap _ charBytes).length = _
  rw [length_flatMap_charBytes]
  rfl

theorem sample_gzip_length (t : String) : (sampleRuntime.gzip t).length = 3 * t.data.length :=
  length_flatMap_charBytes t.data

theorem sample_toBase64_length (b : Buffer) : (sampleRuntime.toBase64 b).data.length = b.length := by
  show (List.map _ b).length = b.length
  rw [List.length_map]

/-- The history blob of a fresh manager with one long compressed entry fits. -/
theorem longAnswer_fits : blobLengthWith sampleRuntime HistoryManager.fresh
    (newEntry sampleRuntime 3000 "q" longAnswer) ≤ sizeLimit HistoryManager.fresh := by
  have hlong : jsLength longAnswer > 1024 := by
    rw [longAnswer, jsLength_replicate]; decide
  have hdata : longAnswer.data.length = 1025 := by
    rw [longAnswer]; exact List.length_replicate _ _
  have hlimit : sizeLimit HistoryManager.fresh = 104857600 := rfl
  have hq : ("q" : String).data.length = 1 := rfl
  rw [sample_blobLengthWith, hlimit]
  simp only [newEntry, hlong, if_true]
  have hhist : HistoryManager.fresh.history = [] := rfl
  rw [hhist]
  simp only [List.nil_append, List.flatMap_cons, List.flatMap_nil, List.append_nil,
    List.length_append, List.length_cons, List.length_nil, sample_toBase64_length,
    sample_gzip_length, hdata, hq]
  decide

/-- C7, amended, instance: an answer of 1025 letters is stored compressed and is recovered by
decoding and decompressing the stored text. -/
theorem addToHistory_answer_recoverable_witness :
    ∃ e, (addToHistory sampleRuntime 3000 true "q" longAnswer HistoryManager.fresh).2.history =
        [e] ∧
      e.compressed = true ∧
      sampleRuntime.gunzip (sampleRuntime.fromBase64 e.answer) = some longAnswer := by
  obtain ⟨e, h1, h2, _⟩ := addToHistory_answer_recoverable sampleRuntime 3000 true "q"
    longAnswer HistoryManager.fresh sampleRuntime_gunzip_gzip sampleRuntime_fromBase64_toBase64
    longAnswer_fits
  have h0 := (addToHistory_fits sampleRuntime 3000 true "q" longAnswer HistoryManager.fresh
    longAnswer_fits).1
  have he : e = newEntry sampleRuntime 3000 "q" longAnswer := by
    rw [h1] at h0
    simpa using h0
  have hc : e.compressed = true := by
    rw [he]
    have hlong : jsLength longAnswer > 1024 := by
      rw [longAnswer, jsLength_replicate]; decide
    simp [newEntry, hlong]
  exact ⟨e, h1, hc, h2 hc⟩

theorem euroAnswer_jsLength : jsLength euroAnswer = 342 := by
  rw [euroAnswer, jsLength_replicate]; decide

/-- C8, counterexample. An answer of 342 euro signs is 1026 bytes of UTF-8 text, more than
1024, and `addToHistory` stores it verbatim with `compressed = false`: the test is on
`answer.length`, which is 342. -/
theorem addToHistory_long_utf8_not_compressed :
    utf8Length euroAnswer = 1026 ∧
    jsLength euroAnswer = 342 ∧
    (addToHistory sampleRuntime 3000 true "q" euroAnswer HistoryManager.fresh).2.history =
      [{ timestamp := 3000, question := "q", answer := euroAnswer, compressed := false }] := by
  have hjs : ¬ jsLength euroAnswer > 1024 := by rw [euroAnswer_jsLength]; decide
  have hnew : newEntry sampleRuntime 3000 "q" euroAnswer =
      { timestamp := 3000, question := "q", answer := euroAnswer, compressed := false } := by
    simp only [newEntry, hjs, if_false]
  have hdata : euroAnswer.data.length = 342 := by
    rw [euroAnswer]; exact List.length_replicate _ _
  have hfit : blobLengthWith sampleRuntime HistoryManager.fresh
      (newEntry sampleRuntime 3000 "q" euroAnswer) ≤ sizeLimit HistoryManager.fresh := by
    have hlimit : sizeLimit HistoryManager.fresh = 104857600 := rfl
    have hq : ("q" : String).data.length = 1 := rfl
    have hhist : HistoryManager.fresh.history = [] := rfl
    rw [sample_blobLengthWith, hlimit, hnew, hhist]
    simp only [List.nil_append, List.flatMap_cons, List.flatMap_nil, List.append_nil,
      List.length_append, List.length_cons, List.length_nil, hdata, hq]
    decide
  refine ⟨?_, euroAnswer_jsLength, ?_⟩
  · rw [euroAnswer, utf8Length_replicate]; decide
  · rw [(addToHistory_fits sampleRuntime 3000 true "q" euroAnswer HistoryManager.fresh hfit).1,
      hnew]
    rfl

/-- C8, amended. For every answer string (the history blob with the new entry within
`maxSizeMB`), `addToHistory` stores the entry with `compressed = true` exactly when
`answer.length`, the number of UTF-16 code units of the answer, exceeds 1024, and with
`compressed = false` exactly when it is 1024 or fewer. -/
theorem addToHistory_compressed_iff (rt : Runtime) (now : Int) (w : Bool)
    (question answer : String) (m : HistoryManager)
    (hfit : blobLengthWith rt m (newEntry rt now question answer) ≤ sizeLimit m) :
    ∃ e, (addToHistory rt now w question answer m).2.history = m.history ++ [e] ∧
      e.question = question ∧
      (e.compressed = true ↔ 1024 < jsLength answer) ∧
      (e.compressed = false ↔ jsLength answer ≤ 1024) := by
  refine ⟨newEntry rt now question answer, (addToHistory_fits rt now w question answer m hfit).1,
    ?_, ?_, ?_⟩
  · unfold newEntry; split <;> rfl
  · unfold newEntry
    by_cases h : jsLength answer > 1024
    · simp [h]
    · simp [h]
  · unfold newEntry
    by_cases h : jsLength answer > 1024
    · simp [h]
    · simp [h]; omega

set_option maxRecDepth 100000 in
/-- C8, amended, instance: a two-letter answer is stored uncompressed. -/
theorem addToHistory_compressed_iff_witness :
    ∃ e, (addToHistory sampleRuntime 3000 true "q3" "a3" twoEntryManager).2.history =
        twoEntryManager.history ++ [e] ∧
      (e.compressed = false ↔ jsLength "a3" ≤ 1024) := by
  obtain ⟨e, h1, _, _, h4⟩ := addToHistory_compressed_iff sampleRuntime 3000 true "q3" "a3"
    twoEntryManager (by decide)
  exact ⟨e, h1, h4⟩

/-! ## C9: `clearOldHistory` twice -/

theorem trimLoop_of_gt (size limit : Nat) (h : size > limit) :
    ∀ (l : List HistoryEntry) (total : Int), trimLoop size limit l total = ([], total - l.length) := by
  intro l
  induction l with
  | nil => intro total; simp [trimLoop]
  | cons e es ih =>
    intro total
    simp only [trimLoop, h, if_true, ih, List.length_cons]
    congr 1
    push_cast
    omega

theorem trimLoop_of_le (size limit : Nat) (h : ¬ size > limit) (l : List HistoryEntry)
    (total : Int) : trimLoop size limit l total = (l, total) := by
  cases l with
  | nil => rfl
  | cons e es => simp [trimLoop, h]

/-- What `saveHistory` leaves: everything when the blob fits, nothing when it does not. -/
theorem saveHistory_history (rt : Runtime) (w : Bool) (m : HistoryManager) :
    ((saveHistory rt w m).2.history = m.history ∧
      (saveHistory rt w m).2.historyStats.totalEntries = m.historyStats.totalEntries) ∨
    ((saveHistory rt w m).2.history = [] ∧
      (saveHistory rt w m).2.historyStats.totalEntries =
        m.historyStats.totalEntries - m.history.length) := by
  by_cases h : blobLength rt m > sizeLimit m
  · right
    unfold saveHistory
    cases w <;> simp [h, trimLoop_of_gt _ _ h]
  · left
    exact saveHistory_fits rt w m (by omega)

/-- After `clearOldHistory` every entry left is one of the former entries and is later than the
cutoff, and `totalEntries` is the number of entries left. -/
theorem clearOldHistory_kept (rt : Runtime) (now : Int) (w : Bool) (days : Option Int)
    (m : HistoryManager) :
    (∀ e ∈ (clearOldHistory rt now w days m).2.history,
      e ∈ m.history ∧ laterThan e.timestamp (cutoffDate rt now days) = true) ∧
    (clearOldHistory rt now w days m).2.historyStats.totalEntries =
      (clearOldHistory rt now w days m).2.history.length := by
  unfold clearOldHistory
  rcases saveHistory_history rt w
    { m with
      history := m.history.filter (fun entry => laterThan entry.timestamp (cutoffDate rt now days))
      historyStats := { m.historyStats with
        totalEntries := (m.history.filter
          (fun entry => laterThan entry.timestamp (cutoffDate rt now days))).length } }
    with ⟨h1, h2⟩ | ⟨h1, h2⟩
  · rw [h1, h2]
    refine ⟨?_, rfl⟩
    intro e he
    simpa using he
  · rw [h1, h2]
    refine ⟨fun e he => absurd he (List.not_mem_nil e), ?_⟩
    simp

/-- C9, counterexample. An entry written at instant 1 000 000 000 survives
`clearOldHistory(1)` called one millisecond less than a day later, and the same call repeated
one millisecond after that removes it: the second call is not a no-op. -/
theorem clearOldHistory_twice_differs :
    (clearOldHistory sampleRuntime 1086399999 true (some 1) dayOldManager).2.history =
      [{ timestamp := 1000000000, question := "q", answer := "a", compressed := false }] ∧
    (clearOldHistory sampleRuntime 1086400000 true (some 1)
      (clearOldHistory sampleRuntime 1086399999 true (some 1) dayOldManager).2).2.history = [] ∧
    (clearOldHistory sampleRuntime 1086399999 true (some 1)
      dayOldManager).2.historyStats.totalEntries = 1 ∧
    (clearOldHistory sampleRuntime 1086400000 true (some 1)
      (clearOldHistory sampleRuntime 1086399999 true (some 1)
        dayOldManager).2).2.historyStats.totalEntries = 0 := by
  refine ⟨?_, ?_, ?_, ?_⟩ <;> decide

/-- C9, amended. For every history and every `days`: when every entry that is later than the
cutoff of the first call is also later than the cutoff of the second call (as when both calls
read the same clock instant), and the history blob of what the first call left is within
`maxSizeMB`, the second `clearOldHistory(days)` leaves the entry sequence and `totalEntries`
exactly as the first call left them. -/
theorem clearOldHistory_idempotent (rt : Runtime) (now1 now2 : Int) (w1 w2 : Bool) (days : Option Int)
    (m : HistoryManager)
    (hkeep : ∀ e ∈ m.history,
      laterThan e.timestamp (cutoffDate rt now1 days) = true →
      laterThan e.timestamp (cutoffDate rt now2 days) = true)
    (hfit : blobLength rt (clearOldHistory rt now1 w1 days m).2 ≤
      sizeLimit (clearOldHistory rt now1 w1 days m).2) :
    (clearOldHistory rt now2 w2 days (clearOldHistory rt now1 w1 days m).2).2.history =
      (clearOldHistory rt now1 w1 days m).2.history ∧
    (clearOldHistory rt now2 w2 days
      (clearOldHistory rt now1 w1 days m).2).2.historyStats.totalEntries =
      (clearOldHistory rt now1 w1 days m).2.historyStats.totalEntries := by
  obtain ⟨hall, htotal⟩ := clearOldHistory_kept rt now1 w1 days m
  generalize (clearOldHistory rt now1 w1 days m).2 = s1 at hall htotal hfit ⊢
  have hfilter : s1.history.filter (fun entry => laterThan entry.timestamp (cutoffDate rt now2 days)) =
      s1.history := by
    rw [List.filter_eq_self]
    intro e he
    exact hkeep e (hall e he).1 (hall e he).2
  have hstate : ({ s1 with
      history := s1.history.filter (fun entry => laterThan entry.timestamp (cutoffDate rt now2 days))
      historyStats := { s1.historyStats with
        totalEntries := (s1.history.filter
          (fun entry => laterThan entry.timestamp (cutoffDate rt now2 days))).length } } :
      HistoryManager) = s1 := by
    rw [hfilter, ← htotal]
  have hcall : clearOldHistory rt now2 w2 days s1 = saveHistory rt w2 s1 :=
    congrArg (saveHistory rt w2) hstate
  rw [hcall]
  exact saveHistory_fits rt w2 s1 hfit

/-- C9, amended, instance: both calls read the clock at the same instant. -/
theorem clearOldHistory_idempotent_witness :
    (clearOldHistory sampleRuntime 1086399999 true (some 1)
      (clearOldHistory sampleRuntime 1086399999 true (some 1) dayOldManager).2).2.history =
      (clearOldHistory sampleRuntime 1086399999 true (some 1) dayOldManager).2.history ∧
    (clearOldHistory sampleRuntime 1086399999 true (some 1)
      (clearOldHistory sampleRuntime 1086399999 true (some 1)
        dayOldManager).2).2.historyStats.totalEntries =
      (clearOldHistory sampleRuntime 1086399999 true (some 1)
        dayOldManager).2.historyStats.totalEntries :=
  clearOldHistory_idempotent sampleRuntime 1086399999 1086399999 true true (some 1) dayOldManager
    (fun _ _ h => h) (by decide)

/-! ## C10: search failure -/

theorem mapDelete_of_mapGet_none (c : List (String × CacheEntry)) (q : String)
    (h : mapGet c q = none) : mapDelete c q = c := by
  unfold mapDelete
  rw [List.filter_eq_self]
  intro p hp
  unfold mapGet at h
  rw [Option.map_eq_none', List.find?_eq_none] at h
  simpa using h p hp

/-- A lookup that returns nothing leaves the cache without an entry for the question and
with every other entry in place. -/
theorem getCachedResponse_miss_cache (now : Int) (q : String) (m : HistoryManager)
    (h : (getCachedResponse now q m).1 = none) :
    (getCachedResponse now q m).2.cache = mapDelete m.cache q := by
  unfold getCachedResponse at h ⊢
  cases hget : mapGet m.cache q with
  | none => simp [mapDelete_of_mapGet_none _ _ hget]
  | some c =>
    rw [hget] at h
    by_cases hlive : now - c.timestamp < ttl
    · simp [hlive] at h
    · simp [hlive]

/-- A call that is served from the cache returns a result. -/
theorem processQuery_ok_of_hit (rt : Runtime) (env : Env) (query : String) (options : Options)
    (o : Orchestrator) (h : ¬ cacheMiss env query options o) :
    ∃ r, (processQuery rt env query options o).1 = .ok r := by
  unfold cacheMiss at h
  push_neg at h
  obtain ⟨hq, hc⟩ := h
  have hq2 : options.quick = true := by simpa using hq
  unfold processQuery
  cases hg : getCachedResponse env.lookupTime query o.history with
  | mk c hm =>
    rw [hg] at hc
    cases c with
    | none => exact absurd rfl hc
    | some entry => simp [hq2]

/-- What the `catch` block of `processQuery` does. -/
theorem rethrow_spec (rt : Runtime) (e : JsError) (query : String) (h : HistoryManager)
    (trace : List Event) :
    (∃ e2, (rethrow rt e query h trace).1 = .error e2) ∧
    (rt.errorTablesBound = true →
      (rethrow rt e query h trace).1 = .error e ∧
      (rethrow rt e query h trace).2.trace =
        trace ++ [.errorLog ("Failed to process query: " ++ e.message)
          ERROR_CODES.API_INVALID_RESPONSE ERROR_CATEGORIES.API query]) ∧
    searchCalls (rethrow rt e query h trace).2.trace = searchCalls trace ∧
    invokedModels (rethrow rt e query h trace).2.trace = invokedModels trace ∧
    (rethrow rt e query h trace).2.history = h := by
  unfold rethrow
  cases rt.errorTablesBound with
  | true => simp [searchCalls_append, invokedModels_append, searchCalls, invokedModels]
  | false => simp

/-- What a failing search leaves behind, whether or not the error tables are bound. If
`processQuery` is not served from the cache and the search collaborator fails, `processQuery`
fails; with an `errorHandler.js` that exported its tables the error would be the one search
raised, reported with the query as context first. Search is the only collaborator called (no
provider is invoked); the history and its statistics are not modified; and the cache mapping
is not modified except that in quick mode the preceding lookup has removed the (expired) entry
of the query, if there was one. Conversely, when search answers and both files can be written,
`processQuery` returns a result whatever the providers do. -/
theorem processQuery_search_failure (rt : Runtime) (env : Env) (query : String)
    (options : Options) (o : Orchestrator)
    (hmax : 0 < o.history.cacheStats.maxSize) :
    (∀ message, env.search query = .error message → cacheMiss env query options o →
      (∃ e, (processQuery rt env query options o).1 = .error e) ∧
      (rt.errorTablesBound = true →
        (processQuery rt env query options o).1 = .error (.thrown message) ∧
        (processQuery rt env query options o).2.trace =
          o.trace ++ [.search query,
            .errorLog ("Failed to process query: " ++ message) 1003 "API Error" query]) ∧
      searchCalls (processQuery rt env query options o).2.trace = searchCalls o.trace ++ [query] ∧
      invokedModels (processQuery rt env query options o).2.trace = invokedModels o.trace ∧
      (processQuery rt env query options o).2.history.history = o.history.history ∧
      (processQuery rt env query options o).2.history.historyStats = o.history.historyStats ∧
      (processQuery rt env query options o).2.history.cache =
        (if options.quick then mapDelete o.history.cache query else o.history.cache) ∧
      (options.quick = false ∨ mapGet o.history.cache query = none →
        (processQuery rt env query options o).2.history.cache = o.history.cache)) ∧
    (∀ sr, env.search query = .ok sr → env.cacheWriteOk = true → env.historyWriteOk = true →
      ∃ r, (processQuery rt env query options o).1 = .ok r) := by
  constructor
  · intro message hsearch hmiss
    have hrun : processQuery rt env query options o =
        rethrow rt (.thrown message) query (afterLookup env query options o)
          (o.trace ++ [.search query]) := by
      rw [processQuery_of_miss rt env query options o hmiss]
      simp [answerQuery, hsearch, afterLookup]
    have hcache : (afterLookup env query options o).cache =
        (if options.quick then mapDelete o.history.cache query else o.history.cache) := by
      unfold afterLookup
      cases hq : options.quick with
      | false => simp
      | true =>
        simp only [if_true]
        rcases hmiss with h | h
        · rw [hq] at h; cases h
        · exact getCachedResponse_miss_cache _ _ _ h
    obtain ⟨hl1, hl2, _⟩ := afterLookup_history env query options o
    have hcache2 : options.quick = false ∨ mapGet o.history.cache query = none →
        (afterLookup env query options o).cache = o.history.cache := by
      intro hcase
      rw [hcache]
      rcases hcase with h | h
      · simp [h]
      · rw [mapDelete_of_mapGet_none _ _ h]; simp
    obtain ⟨hr1, hr2, hr3, hr4, hr5⟩ := rethrow_spec rt (.thrown message) query
      (afterLookup env query options o) (o.trace ++ [.search query])
    rw [hrun]
    refine ⟨hr1, ?_, ?_, ?_, ?_, ?_, ?_, ?_⟩
    · intro hb
      refine ⟨(hr2 hb).1, ?_⟩
      rw [(hr2 hb).2]
      simp [JsError.message, ERROR_CODES.API_INVALID_RESPONSE, ERROR_CATEGORIES.API]
    · rw [hr3]; simp [searchCalls]
    · rw [hr4]; simp [invokedModels]
    · rw [hr5]; exact hl1
    · rw [hr5]; exact hl2
    · rw [hr5]; exact hcache
    · rw [hr5]; exact hcache2
  · intro sr hsearch hcw hhw
    by_cases hmiss : cacheMiss env query options o
    · rw [processQuery_fresh rt env query options o sr hmiss hsearch hcw hhw hmax]
      exact ⟨_, rfl⟩
    · exact processQuery_ok_of_hit rt env query options o hmiss

/-- The `catch` block of `processQuery` where `ERROR_CODES` is not bound: the read of
`ERROR_CODES.API_INVALID_RESPONSE` raises, the caught error is lost and nothing is reported. -/
theorem rethrow_unbound (rt : Runtime) (e : JsError) (query : String) (h : HistoryManager)
    (trace : List Event) (hunbound : rt.errorTablesBound = false) :
    rethrow rt e query h trace =
      (.error (.typeError "Cannot read properties of undefined (reading 'API_INVALID_RESPONSE')"),
        { history := h, trace := trace }) := by
  unfold rethrow
  simp [hunbound]

/-- What the `catch` block of `processQuery` throws. -/
theorem rethrow_result (rt : Runtime) (e : JsError) (query : String) (h : HistoryManager)
    (trace : List Event) :
    (rethrow rt e query h trace).1 =
      .error (if rt.errorTablesBound then e
        else .typeError "Cannot read properties of undefined (reading 'API_INVALID_RESPONSE')") := by
  unfold rethrow
  cases rt.errorTablesBound <;> rfl

/-- C10. With `ERROR_CODES` not bound in `orchestrator.js`, as in the repository: when
`processQuery` is not served from the cache and the search collaborator fails with `message`,
`processQuery` fails, but with the `TypeError` raised inside its own `catch` block and not with
the error search raised, and nothing has been logged: the trace of outgoing calls is the former
trace followed by the search call alone (no report, no provider call). The history and its
statistics are as before. -/
theorem processQuery_search_failure_unreported (rt : Runtime) (env : Env) (query : String)
    (options : Options) (o : Orchestrator) (message : String)
    (hunbound : rt.errorTablesBound = false)
    (hsearch : env.search query = .error message)
    (hmiss : cacheMiss env query options o) :
    (processQuery rt env query options o).1 =
      .error (.typeError "Cannot read properties of undefined (reading 'API_INVALID_RESPONSE')") ∧
    (processQuery rt env query options o).1 ≠ .error (.thrown message) ∧
    (processQuery rt env query options o).2.trace = o.trace ++ [.search query] ∧
    (processQuery rt env query options o).2.history.history = o.history.history ∧
    (processQuery rt env query options o).2.history.historyStats = o.history.historyStats := by
  have hrun : processQuery rt env query options o =
      rethrow rt (.thrown message) query (afterLookup env query options o)
        (o.trace ++ [.search query]) := by
    rw [processQuery_of_miss rt env query options o hmiss]
    simp [answerQuery, hsearch, afterLookup]
  obtain ⟨hl1, hl2, _⟩ := afterLookup_history env query options o
  rw [hrun, rethrow_unbound _ _ _ _ _ hunbound]
  refine ⟨rfl, ?_, rfl, hl1, hl2⟩
  intro h
  cases h

/-- C10, the failing input: search raises `network down`; what `processQuery` fails with is
the `TypeError` of its `catch` block, and the trace holds no report. -/
theorem processQuery_search_failure_unreported_witness :
    (processQuery moduleRuntime sampleEnvDown "What is 2+2?" ⟨false, false⟩
      Orchestrator.warm).1 =
      .error (.typeError "Cannot read properties of undefined (reading 'API_INVALID_RESPONSE')") ∧
    (processQuery moduleRuntime sampleEnvDown "What is 2+2?" ⟨false, false⟩
      Orchestrator.warm).2.trace = [.search "What is 2+2?"] := by
  obtain ⟨h1, _, h3, _⟩ := processQuery_search_failure_unreported moduleRuntime sampleEnvDown
    "What is 2+2?" ⟨false, false⟩ Orchestrator.warm "network down" rfl rfl (Or.inl rfl)
  exact ⟨h1, h3⟩

/-! ## C11 and C12: where the response comes from -/

/-- The text the fallback loop returns is the answer of the first model that answers. -/
theorem tryModels_text (env : Env) (context : String) :
    ∀ (models : List String) (trace : List Event),
      (∀ model ∈ models, (providerOf env model).isSome = true) →
      (tryModels env context models trace).1 =
        (models.find? (succeedsOn env context)).bind (answerOf env context) := by
  intro models
  induction models with
  | nil => intro trace _; simp [tryModels]
  | cons model rest ih =>
    intro trace hprov
    have hm := hprov model (List.mem_cons_self _ _)
    have hrest : ∀ x ∈ rest, (providerOf env x).isSome = true :=
      fun x hx => hprov x (List.mem_cons_of_mem _ hx)
    cases hp : providerOf env model with
    | none => simp [hp] at hm
    | some generate =>
      cases hg : generate context with
      | ok text =>
        have hs : succeedsOn env context model = true := by simp [succeedsOn, hp, hg]
        simp [tryModels, hp, hg, hs, answerOf]
      | error message =>
        have hs : succeedsOn env context model = false := by simp [succeedsOn, hp, hg]
        simp only [tryModels, hp, hg]
        rw [ih _ hrest]
        simp [List.find?, hs]

/-- A `null` response and an empty response are formatted alike. -/
theorem formatResponse_empty (rt : Runtime) (sr query : String) :
    formatResponse rt (some "") sr query = formatResponse rt none sr query := by
  unfold formatResponse
  rfl

/-- A non-empty response is returned verbatim. -/
theorem formatResponse_text (rt : Runtime) (text sr query : String) (h : text ≠ "") :
    formatResponse rt (some text) sr query = text := by
  unfold formatResponse
  have : jsTruthy text = true := by simp [jsTruthy, h]
  simp [Option.filter, this]

/-- The search-only result. When `processQuery` is not served from the cache, search answers,
all four providers fail and both files can be written (the history blob with the new entry
within `maxSizeMB`):
the call returns a result with `source = "search"`, `usedModel` null, `searchResults` the raw
search text and `response` the answer `formatResponse` derives from the search text alone,
after calling each of the four providers once; the cache maps the query to that response and
the history ends with the entry made of that response. -/
theorem processQuery_all_providers_fail (rt : Runtime) (env : Env) (query : String)
    (options : Options) (o : Orchestrator) (sr : String)
    (hmiss : cacheMiss env query options o)
    (hsearch : env.search query = .ok sr)
    (hfail : ∀ model ∈ ["openai", "claude", "bard", "llama"],
      succeedsOn env (createPrompt query sr options) model = false)
    (hcw : env.cacheWriteOk = true) (hhw : env.historyWriteOk = true)
    (hmax : 0 < o.history.cacheStats.maxSize)
    (hfit : blobLengthWith rt o.history
        (newEntry rt env.historyTime query (formatResponse rt none sr query)) ≤
      o.history.historyStats.maxSizeMB * 1024 * 1024) :
    (processQuery rt env query options o).1 =
      .ok { response := formatResponse rt none sr query
            source := "search"
            timestamp := none
            searchResults := some sr
            usedModel := none } ∧
    invokedModels (processQuery rt env query options o).2.trace =
      invokedModels o.trace ++ ["openai", "claude", "bard", "llama"] ∧
    mapGet (processQuery rt env query options o).2.history.cache query =
      some { response := formatResponse rt none sr query, timestamp := env.cacheTime } ∧
    (processQuery rt env query options o).2.history.history =
      o.history.history ++ [newEntry rt env.historyTime query (formatResponse rt none sr query)] := by
  have hnone : modelPriority.find? (succeedsOn env (createPrompt query sr options)) = none := by
    rw [List.find?_eq_none]
    intro x hx
    simp [hfail x hx]
  have htake : modelPriority.takeWhile
      (fun model => !succeedsOn env (createPrompt query sr options) model) = modelPriority := by
    rw [List.takeWhile_eq_self_iff]
    intro x hx
    simp [hfail x hx]
  have htext := tryModels_text env (createPrompt query sr options) modelPriority []
    (modelPriority_providers env)
  obtain ⟨hused, _, _⟩ := tryModels_spec env (createPrompt query sr options) modelPriority []
    (modelPriority_providers env)
  obtain ⟨_, htrace, _⟩ := tryModels_spec env (createPrompt query sr options) modelPriority
    (o.trace ++ [.search query]) (modelPriority_providers env)
  rw [hnone] at htext hused
  rw [hnone, htake] at htrace
  have hanswer : freshAnswer rt env query options sr = formatResponse rt none sr query := by
    unfold freshAnswer
    rw [htext]
    rfl
  rw [processQuery_fresh rt env query options o sr hmiss hsearch hcw hhw hmax, hanswer, hused]
  obtain ⟨hl1, hl2, hl3⟩ := afterLookup_history env query options o
  have hmax2 : 0 < (afterLookup env query options o).cacheStats.maxSize := by rw [hl3]; exact hmax
  obtain ⟨hc1, hc2⟩ := cacheResponse_history env.cacheTime true query
    (formatResponse rt none sr query) (afterLookup env query options o)
  have hfit2 : blobLengthWith rt
      (cacheResponse env.cacheTime true query (formatResponse rt none sr query)
        (afterLookup env query options o)).2
      (newEntry rt env.historyTime query (formatResponse rt none sr query)) ≤
      sizeLimit (cacheResponse env.cacheTime true query (formatResponse rt none sr query)
        (afterLookup env query options o)).2 := by
    unfold blobLengthWith sizeLimit
    rw [hc1, hc2, hl1, hl2]
    exact hfit
  refine ⟨rfl, ?_, ?_, ?_⟩
  · simp only [invokedModels_append, htrace]
    simp [invokedModels, modelPriority]
  · show mapGet (addToHistory _ _ _ _ _ _).2.cache query = _
    rw [(addToHistory_cache _ _ _ _ _ _).1]
    exact cacheResponse_get _ _ _ _ _ hmax2
  · show (addToHistory _ _ _ _ _ _).2.history = _
    rw [(addToHistory_fits rt env.historyTime true query _ _ hfit2).1, hc1, hl1]

/-- An instance of the search-only result: with all four providers down and a writable disk
the answer to "What is 2+2?" is the first numbered search line. -/
theorem processQuery_all_providers_fail_example :
    (processQuery sampleRuntime sampleEnvNoProvider "What is 2+2?" ⟨false, false⟩
      Orchestrator.fresh).1 =
      .ok { response := "1. Four"
            source := "search"
            timestamp := none
            searchResults := some "1. Four\nurl: example.org"
            usedModel := none } ∧
    (processQuery sampleRuntime sampleEnvNoProvider "What is 2+2?" ⟨false, false⟩
      Orchestrator.fresh).2.history.history =
      [{ timestamp := 1003, question := "What is 2+2?", answer := "1. Four",
         compressed := false }] := by
  obtain ⟨h1, _, _, h4⟩ := processQuery_all_providers_fail sampleRuntime sampleEnvNoProvider
    "What is 2+2?" ⟨false, false⟩ Orchestrator.fresh "1. Four\nurl: example.org" (Or.inl rfl)
    rfl (by decide) rfl rfl (by decide) (by decide)
  refine ⟨?_, ?_⟩
  · rw [h1]; rfl
  · rw [h4]; rfl

/-- C12, counterexample. `openai` succeeds with the empty string: `source` and `usedModel`
name `openai`, yet the response is not the text it returned but the first numbered line of
the search results. -/
theorem processQuery_empty_text_not_verbatim :
    sampleEnvEmptyText.openai
      (createPrompt "What is 2+2?" "1. Four\nurl: example.org" ⟨false, false⟩) = .ok "" ∧
    (processQuery sampleRuntime sampleEnvEmptyText "What is 2+2?" ⟨false, false⟩
      Orchestrator.fresh).1 =
      .ok { response := "1. Four"
            source := "openai"
            timestamp := none
            searchResults := some "1. Four\nurl: example.org"
            usedModel := some "openai" } := by
  refine ⟨rfl, ?_⟩
  rfl

/-- C12, amended. Whenever some provider succeeds in `processQuery` (not served from the cache,
search answering, both files writable), `source` and `usedModel` both equal the name of the
first provider that succeeded, for every text it can return; and whenever that text is not
the empty string, the returned response is exactly that text, used verbatim. -/
theorem processQuery_uses_provider_text (rt : Runtime) (env : Env) (query : String)
    (options : Options) (o : Orchestrator) (sr model text : String)
    (hmiss : cacheMiss env query options o)
    (hsearch : env.search query = .ok sr)
    (hcw : env.cacheWriteOk = true) (hhw : env.historyWriteOk = true)
    (hmax : 0 < o.history.cacheStats.maxSize)
    (hfirst : ["openai", "claude", "bard", "llama"].find?
      (succeedsOn env (createPrompt query sr options)) = some model)
    (htext : answerOf env (createPrompt query sr options) model = some text) :
    ∃ r, (processQuery rt env query options o).1 = .ok r ∧
      r.usedModel = some model ∧
      r.source = model ∧
      (text ≠ "" → r.response = text) := by
  have hfirst2 : modelPriority.find? (succeedsOn env (createPrompt query sr options)) =
      some model := hfirst
  have htry := tryModels_text env (createPrompt query sr options) modelPriority []
    (modelPriority_providers env)
  obtain ⟨hused, _, _⟩ := tryModels_spec env (createPrompt query sr options) modelPriority []
    (modelPriority_providers env)
  rw [hfirst2] at htry hused
  have htry2 : (tryModels env (createPrompt query sr options) modelPriority []).1 = some text := by
    rw [htry]; exact htext
  have hmem : model ∈ modelPriority := List.mem_of_find?_eq_some hfirst2
  have htruthy : jsTruthy model = true := by
    simp only [modelPriority, List.mem_cons, List.mem_singleton, List.not_mem_nil, or_false] at hmem
    rcases hmem with h | h | h | h <;> subst h <;> decide
  rw [processQuery_fresh rt env query options o sr hmiss hsearch hcw hhw hmax]
  refine ⟨_, rfl, hused, ?_, ?_⟩
  · show ((tryModels _ _ _ _).2.1.filter jsTruthy).getD "search" = model
    rw [hused]
    simp [Option.filter, htruthy]
  · intro hne
    show freshAnswer rt env query options sr = text
    unfold freshAnswer
    rw [htry2]
    exact formatResponse_text rt text sr query hne

/-- C12, amended, instance: `bard` is the first provider to answer and its text is the
response. -/
theorem processQuery_uses_provider_text_witness :
    ∃ r, (processQuery sampleRuntime sampleEnv "What is 2+2?" ⟨false, false⟩
        Orchestrator.fresh).1 = .ok r ∧
      r.usedModel = some "bard" ∧
      r.source = "bard" ∧
      r.response = "The answer is 4." := by
  obtain ⟨r, h1, h2, h3, h4⟩ := processQuery_uses_provider_text sampleRuntime sampleEnv
    "What is 2+2?" ⟨false, false⟩ Orchestrator.fresh "1. Four\nurl: example.org" "bard"
    "The answer is 4." (Or.inl rfl) rfl rfl rfl (by decide) (by decide) rfl
  exact ⟨r, h1, h2, h3, h4 (by decide)⟩

/-! ## C13: a failing write -/

/-- With a positive `maxSize`, a `cacheResponse` whose write fails throws the
`ReferenceError` of its `catch` block. -/
theorem cacheResponse_write_fails (now : Int) (q r : String) (m : HistoryManager)
    (hmax : 0 < m.cacheStats.maxSize) :
    (cacheResponse now false q r m).1 = .error (.referenceError "ErrorHandler") := by
  unfold cacheResponse
  by_cases hfull : m.cache.length ≥ m.cacheStats.maxSize
  · have hne : m.cache ≠ [] := by
      intro h0
      rw [h0] at hfull
      simp at hfull
      omega
    have hs := sortedEntries_ne_nil hne
    cases hsort : sortedEntries m.cache with
    | nil => exact absurd hsort hs
    | cons a t => simp [hfull, saveCache]
  · simp [hfull, saveCache]

/-- An `addToHistory` whose write fails throws the `ReferenceError` of the `catch` block of
`saveHistory`. -/
theorem addToHistory_write_fails (rt : Runtime) (now : Int) (q a : String) (m : HistoryManager) :
    (addToHistory rt now false q a m).1 = .error (.referenceError "ErrorHandler") := by
  simp [addToHistory, saveHistory]

/-- When the cache file cannot be written, `answerQuery` ends in its `catch` block right after
`cacheResponse`. -/
theorem answerQuery_cache_write_fails (rt : Runtime) (env : Env) (query : String)
    (options : Options) (h : HistoryManager) (trace : List Event) (sr : String)
    (hsearch : env.search query = .ok sr) (hcw : env.cacheWriteOk = false)
    (hmax : 0 < h.cacheStats.maxSize) :
    answerQuery rt env query options h trace =
      rethrow rt (.referenceError "ErrorHandler") query
        (cacheResponse env.cacheTime false query
          (formatResponse rt (tryModels env (createPrompt query sr options) modelPriority
            (trace ++ [.search query])).1 sr query) h).2
        (tryModels env (createPrompt query sr options) modelPriority
          (trace ++ [.search query])).2.2 := by
  unfold answerQuery
  rw [hsearch, hcw]
  simp only
  generalize formatResponse rt (tryModels env (createPrompt query sr options) modelPriority
    (trace ++ [.search query])).1 sr query = formatted
  have hc : cacheResponse env.cacheTime false query formatted h =
      (.error (.referenceError "ErrorHandler"),
        (cacheResponse env.cacheTime false query formatted h).2) :=
    Prod.ext (cacheResponse_write_fails _ _ _ _ hmax) rfl
  generalize (cacheResponse env.cacheTime false query formatted h).2 = h1 at hc
  rw [hc]

/-- When only the history file cannot be written, `answerQuery` ends in its `catch` block
right after `addToHistory`. -/
theorem answerQuery_history_write_fails (rt : Runtime) (env : Env) (query : String)
    (options : Options) (h : HistoryManager) (trace : List Event) (sr : String)
    (hsearch : env.search query = .ok sr) (hcw : env.cacheWriteOk = true)
    (hhw : env.historyWriteOk = false) (hmax : 0 < h.cacheStats.maxSize) :
    answerQuery rt env query options h trace =
      rethrow rt (.referenceError "ErrorHandler") query
        (addToHistory rt env.historyTime false query
          (formatResponse rt (tryModels env (createPrompt query sr options) modelPriority
            (trace ++ [.search query])).1 sr query)
          (cacheResponse env.cacheTime true query
            (formatResponse rt (tryModels env (createPrompt query sr options) modelPriority
              (trace ++ [.search query])).1 sr query) h).2).2
        (tryModels env (createPrompt query sr options) modelPriority
          (trace ++ [.search query])).2.2 := by
  unfold answerQuery
  rw [hsearch, hcw, hhw]
  simp only
  generalize formatResponse rt (tryModels env (createPrompt query sr options) modelPriority
    (trace ++ [.search query])).1 sr query = formatted
  have hc : cacheResponse env.cacheTime true query formatted h =
      (.ok (), (cacheResponse env.cacheTime true query formatted h).2) :=
    Prod.ext (cacheResponse_ok _ _ _ _ hmax) rfl
  generalize (cacheResponse env.cacheTime true query formatted h).2 = h1 at hc
  rw [hc]
  simp only
  have ha : addToHistory rt env.historyTime false query formatted h1 =
      (.error (.referenceError "ErrorHandler"),
        (addToHistory rt env.historyTime false query formatted h1).2) :=
    Prod.ext (addToHistory_write_fails _ _ _ _ _) rfl
  generalize (addToHistory rt env.historyTime false query formatted h1).2 = h2 at ha
  rw [ha]

/-- C13, the code when a write fails. When `processQuery` is not served from the cache, search
answers, and the write of the cache file or of the history file raises, `processQuery` does
not return a result: it fails (where the error tables are bound, with the `ReferenceError`
for `ErrorHandler` raised inside the `catch` block of `saveCache` / `saveHistory`); and when
it is the cache write that fails, the history never receives the new entry. -/
theorem processQuery_write_failure (rt : Runtime) (env : Env) (query : String)
    (options : Options) (o : Orchestrator) (sr : String)
    (hmiss : cacheMiss env query options o)
    (hsearch : env.search query = .ok sr)
    (hmax : 0 < o.history.cacheStats.maxSize)
    (hwrite : env.cacheWriteOk = false ∨ env.historyWriteOk = false) :
    (∃ e, (processQuery rt env query options o).1 = .error e) ∧
    (rt.errorTablesBound = true →
      (processQuery rt env query options o).1 = .error (.referenceError "ErrorHandler")) ∧
    (env.cacheWriteOk = false →
      (processQuery rt env query options o).2.history.history = o.history.history) := by
  obtain ⟨hl1, _, hl3⟩ := afterLookup_history env query options o
  have hmax2 : 0 < (afterLookup env query options o).cacheStats.maxSize := by rw [hl3]; exact hmax
  have hrun := processQuery_of_miss rt env query options o hmiss
  cases hcw : env.cacheWriteOk with
  | false =>
    have hq := answerQuery_cache_write_fails rt env query options
      (afterLookup env query options o) o.trace sr hsearch hcw hmax2
    unfold afterLookup at hq hl1
    rw [hrun, hq]
    obtain ⟨hr1, hr2, _, _, hr5⟩ := rethrow_spec rt (.referenceError "ErrorHandler") query
      (cacheResponse env.cacheTime false query
        (formatResponse rt (tryModels env (createPrompt query sr options) modelPriority
          (o.trace ++ [.search query])).1 sr query)
        (if options.quick = true then (getCachedResponse env.lookupTime query o.history).2
          else o.history)).2
      (tryModels env (createPrompt query sr options) modelPriority
        (o.trace ++ [.search query])).2.2
    refine ⟨hr1, fun hb => (hr2 hb).1, fun _ => ?_⟩
    rw [hr5, (cacheResponse_history _ _ _ _ _).1]
    exact hl1
  | true =>
    have hhw : env.historyWriteOk = false := by
      rcases hwrite with h | h
      · rw [hcw] at h; cases h
      · exact h
    have hq := answerQuery_history_write_fails rt env query options
      (afterLookup env query options o) o.trace sr hsearch hcw hhw hmax2
    unfold afterLookup at hq
    rw [hrun, hq]
    obtain ⟨hr1, hr2, _, _, _⟩ := rethrow_spec rt (.referenceError "ErrorHandler") query
      (addToHistory rt env.historyTime false query
        (formatResponse rt (tryModels env (createPrompt query sr options) modelPriority
          (o.trace ++ [.search query])).1 sr query)
        (cacheResponse env.cacheTime true query
          (formatResponse rt (tryModels env (createPrompt query sr options) modelPriority
            (o.trace ++ [.search query])).1 sr query)
          (if options.quick = true then (getCachedResponse env.lookupTime query o.history).2
            else o.history)).2).2
      (tryModels env (createPrompt query sr options) modelPriority
        (o.trace ++ [.search query])).2.2
    exact ⟨hr1, fun hb => (hr2 hb).1, fun h => by cases h⟩

/-- C13, the failing input: search and `bard` answer, the disk cannot be written;
`processQuery` fails with `ReferenceError: ErrorHandler is not defined` and the history stays
empty. -/
theorem processQuery_write_failure_witness :
    (processQuery sampleRuntime sampleEnvReadOnly "What is 2+2?" ⟨false, false⟩
      Orchestrator.fresh).1 = .error (.referenceError "ErrorHandler") ∧
    (processQuery sampleRuntime sampleEnvReadOnly "What is 2+2?" ⟨false, false⟩
      Orchestrator.fresh).2.history.history = [] := by
  obtain ⟨_, h2, h3⟩ := processQuery_write_failure sampleRuntime sampleEnvReadOnly
    "What is 2+2?" ⟨false, false⟩ Orchestrator.fresh "1. Four\nurl: example.org" (Or.inl rfl)
    rfl (by decide) (Or.inl rfl)
  exact ⟨h2 rfl, h3 rfl⟩

/-! ## C11: all providers failing, then a failing write -/

/-- C11. When `processQuery` is not served from the cache, search answers, all four providers
fail and the write of the cache file or of the history file raises, `processQuery` does not
return the search-only result: after calling each of the four providers once it fails, with the
`TypeError` of its own `catch` block where `ERROR_CODES` is not bound (as in the repository)
and with the `ReferenceError` for `ErrorHandler` otherwise; and when it is the cache write that
fails, the response is not written to the history. -/
theorem processQuery_all_providers_fail_write_raises (rt : Runtime) (env : Env)
    (query : String) (options : Options) (o : Orchestrator) (sr : String)
    (hmiss : cacheMiss env query options o)
    (hsearch : env.search query = .ok sr)
    (hfail : ∀ model ∈ ["openai", "claude", "bard", "llama"],
      succeedsOn env (createPrompt query sr options) model = false)
    (hmax : 0 < o.history.cacheStats.maxSize)
    (hwrite : env.cacheWriteOk = false ∨ env.historyWriteOk = false) :
    (processQuery rt env query options o).1 =
      .error (if rt.errorTablesBound then .referenceError "ErrorHandler"
        else .typeError "Cannot read properties of undefined (reading 'API_INVALID_RESPONSE')") ∧
    invokedModels (processQuery rt env query options o).2.trace =
      invokedModels o.trace ++ ["openai", "claude", "bard", "llama"] ∧
    (env.cacheWriteOk = false →
      (processQuery rt env query options o).2.history.history = o.history.history) := by
  have hnone : modelPriority.find? (succeedsOn env (createPrompt query sr options)) = none := by
    rw [List.find?_eq_none]
    intro x hx
    simp [hfail x hx]
  have htake : modelPriority.takeWhile
      (fun model => !succeedsOn env (createPrompt query sr options) model) = modelPriority := by
    rw [List.takeWhile_eq_self_iff]
    intro x hx
    simp [hfail x hx]
  obtain ⟨_, htrace, _⟩ := tryModels_spec env (createPrompt query sr options) modelPriority
    (o.trace ++ [.search query]) (modelPriority_providers env)
  rw [hnone, htake] at htrace
  have hmodels : invokedModels (tryModels env (createPrompt query sr options) modelPriority
      (o.trace ++ [.search query])).2.2 =
      invokedModels o.trace ++ ["openai", "claude", "bard", "llama"] := by
    rw [htrace]
    simp [invokedModels_append, invokedModels, modelPriority]
  obtain ⟨hl1, _, hl3⟩ := afterLookup_history env query options o
  have hmax2 : 0 < (afterLookup env query options o).cacheStats.maxSize := by rw [hl3]; exact hmax
  have hrun := processQuery_of_miss rt env query options o hmiss
  cases hcw : env.cacheWriteOk with
  | false =>
    have hq := answerQuery_cache_write_fails rt env query options
      (afterLookup env query options o) o.trace sr hsearch hcw hmax2
    unfold afterLookup at hq hl1
    rw [hrun, hq]
    obtain ⟨_, _, _, hr4, hr5⟩ := rethrow_spec rt (.referenceError "ErrorHandler") query
      (cacheResponse env.cacheTime false query
        (formatResponse rt (tryModels env (createPrompt query sr options) modelPriority
          (o.trace ++ [.search query])).1 sr query)
        (if options.quick = true then (getCachedResponse env.lookupTime query o.history).2
          else o.history)).2
      (tryModels env (createPrompt query sr options) modelPriority
        (o.trace ++ [.search query])).2.2
    refine ⟨rethrow_result _ _ _ _ _, hr4.trans hmodels, fun _ => ?_⟩
    rw [hr5, (cacheResponse_history _ _ _ _ _).1]
    exact hl1
  | true =>
    have hhw : env.historyWriteOk = false := by
      rcases hwrite with h | h
      · rw [hcw] at h; cases h
      · exact h
    have hq := answerQuery_history_write_fails rt env query options
      (afterLookup env query options o) o.trace sr hsearch hcw hhw hmax2
    unfold afterLookup at hq
    rw [hrun, hq]
    obtain ⟨_, _, _, hr4, _⟩ := rethrow_spec rt (.referenceError "ErrorHandler") query
      (addToHistory rt env.historyTime false query
        (formatResponse rt (tryModels env (createPrompt query sr options) modelPriority
          (o.trace ++ [.search query])).1 sr query)
        (cacheResponse env.cacheTime true query
          (formatResponse rt (tryModels env (createPrompt query sr options) modelPriority
            (o.trace ++ [.search query])).1 sr query)
          (if options.quick = true then (getCachedResponse env.lookupTime query o.history).2
            else o.history)).2).2
      (tryModels env (createPrompt query sr options) modelPriority
        (o.trace ++ [.search query])).2.2
    exact ⟨rethrow_result _ _ _ _ _, hr4.trans hmodels, fun h => by cases h⟩

/-- C11, the failing input: search answers, all four providers are down and the disk cannot be
written; `processQuery` fails and the history stays empty. -/
theorem processQuery_all_providers_fail_write_raises_witness :
    (processQuery moduleRuntime sampleEnvNoProviderReadOnly "What is 2+2?" ⟨false, false⟩
      Orchestrator.fresh).1 =
      .error (.typeError "Cannot read properties of undefined (reading 'API_INVALID_RESPONSE')") ∧
    invokedModels (processQuery moduleRuntime sampleEnvNoProviderReadOnly "What is 2+2?"
      ⟨false, false⟩ Orchestrator.fresh).2.trace = ["openai", "claude", "bard", "llama"] ∧
    (processQuery moduleRuntime sampleEnvNoProviderReadOnly "What is 2+2?" ⟨false, false⟩
      Orchestrator.fresh).2.history.history = [] := by
  obtain ⟨h1, h2, h3⟩ := processQuery_all_providers_fail_write_raises moduleRuntime
    sampleEnvNoProviderReadOnly "What is 2+2?" ⟨false, false⟩ Orchestrator.fresh
    "1. Four\nurl: example.org" (Or.inl rfl) rfl (by decide) (by decide) (Or.inl rfl)
  exact ⟨h1, h2, h3 rfl⟩

/-! ## C14: the three outcomes of `getCachedResponse` -/

/-- In a map (keys pairwise distinct) the lookup finds an entry exactly when the pair of the
question and that entry is in the map. -/
theorem mapGet_eq_some_iff (c : List (String × CacheEntry)) (q : String) (entry : CacheEntry)
    (hnodup : (c.map Prod.fst).Nodup) :
    mapGet c q = some entry ↔ (q, entry) ∈ c := by
  induction c with
  | nil => simp [mapGet]
  | cons p rest ih =>
    rw [List.map_cons, List.nodup_cons] at hnodup
    have ih2 := ih hnodup.2
    unfold mapGet at ih2 ⊢
    by_cases hp : p.1 = q
    · have hnot : ∀ e, (q, e) ∉ rest := by
        intro e he
        exact hnodup.1 (hp ▸ List.mem_map_of_mem Prod.fst he)
      simp only [List.find?_cons, hp, beq_self_eq_true, Option.map_some', Option.some.injEq,
        List.mem_cons, hnot, or_false]
      constructor
      · intro h; rw [← h, ← hp]
      · intro h; rw [← h]
    · have hne : (p.1 == q) = false := by simpa using hp
      have hne2 : (q, entry) ≠ p := fun h => hp (by rw [← h])
      simp only [List.find?_cons, hne, List.mem_cons, hne2, false_or]
      exact ih2

/-- C14. `getCachedResponse(question)` on a map (keys pairwise distinct) looks the exact
question string up and has three outcomes. An entry younger than one hour is returned, `hits`
grows by one and nothing else changes. An entry of age one hour or more is removed (it alone),
`evictions` and `misses` each grow by one, nothing else changes, and nothing is returned.
Without an entry `misses` grows by one, nothing else changes, and nothing is returned. -/
theorem getCachedResponse_outcomes (now : Int) (question : String) (m : HistoryManager)
    (hnodup : (m.cache.map Prod.fst).Nodup) :
    (∀ entry, mapGet m.cache question = some entry ↔ (question, entry) ∈ m.cache) ∧
    (∀ entry, (question, entry) ∈ m.cache → now - entry.timestamp < 60 * 60 * 1000 →
      getCachedResponse now question m =
        (some entry,
          { m with cacheStats := { m.cacheStats with hits := m.cacheStats.hits + 1 } })) ∧
    (∀ entry, (question, entry) ∈ m.cache → ¬ now - entry.timestamp < 60 * 60 * 1000 →
      getCachedResponse now question m =
        (none,
          { m with
            cache := m.cache.filter (fun p => decide (p ≠ (question, entry)))
            cacheStats := { m.cacheStats with
              evictions := m.cacheStats.evictions + 1
              misses := m.cacheStats.misses + 1 } }) ∧
      (m.cache.filter (fun p => decide (p ≠ (question, entry)))).length + 1 = m.cache.length) ∧
    ((∀ entry, (question, entry) ∉ m.cache) →
      getCachedResponse now question m =
        (none,
          { m with cacheStats := { m.cacheStats with misses := m.cacheStats.misses + 1 } })) := by
  have hiff := fun entry => mapGet_eq_some_iff m.cache question entry hnodup
  refine ⟨hiff, ?_, ?_, ?_⟩
  · intro entry hmem hlive
    have hget := (hiff entry).mpr hmem
    have hlive2 : now - entry.timestamp < ttl := hlive
    simp [getCachedResponse, hget, hlive2]
  · intro entry hmem hold
    have hget := (hiff entry).mpr hmem
    have hold2 : ¬ now - entry.timestamp < ttl := hold
    have hfilter : mapDelete m.cache question =
        m.cache.filter (fun p => decide (p ≠ (question, entry))) := by
      unfold mapDelete
      apply List.filter_congr
      intro p hp
      by_cases hk : p.1 = question
      · have hp2 : (question, p.2) ∈ m.cache := by rw [← hk]; exact hp
        have h1 := (hiff p.2).mpr hp2
        rw [hget] at h1
        have hpe : p = (question, entry) := by
          cases p with
          | mk a b =>
            simp only at hk h1
            rw [hk, Option.some.inj h1]
        simp [hpe]
      · have hne : p ≠ (question, entry) := fun h => hk (by rw [h])
        simp [hk, hne]
    refine ⟨?_, ?_⟩
    · simp [getCachedResponse, hget, hold2, hfilter]
    · rw [← hfilter]
      exact length_mapDelete_nodup m.cache (question, entry) hmem hnodup
  · intro hnone
    have hget : mapGet m.cache question = none := by
      cases h : mapGet m.cache question with
      | none => rfl
      | some entry => exact absurd ((hiff entry).mp h) (hnone entry)
    simp [getCachedResponse, hget]

/-- C14, instance: the warm cache read 500 ms after its entry was written, and again an hour
after. -/
theorem getCachedResponse_outcomes_witness :
    (getCachedResponse 1500 "What is 2+2?" Orchestrator.warm.history).1 =
      some { response := "The answer is 4.", timestamp := 1000 } ∧
    (getCachedResponse 3601000 "What is 2+2?" Orchestrator.warm.history).1 = none ∧
    (getCachedResponse 3601000 "What is 2+2?" Orchestrator.warm.history).2.cache = [] ∧
    (getCachedResponse 1500 "What is 3+3?" Orchestrator.warm.history).2.cacheStats.misses =
      1 := by
  have hnodup : (Orchestrator.warm.history.cache.map Prod.fst).Nodup := by decide
  have hmem : (("What is 2+2?", { response := "The answer is 4.", timestamp := 1000 }) :
      String × CacheEntry) ∈ Orchestrator.warm.history.cache := by decide
  obtain ⟨_, hlive, _, _⟩ := getCachedResponse_outcomes 1500 "What is 2+2?"
    Orchestrator.warm.history hnodup
  obtain ⟨_, _, hold, _⟩ := getCachedResponse_outcomes 3601000 "What is 2+2?"
    Orchestrator.warm.history hnodup
  obtain ⟨_, _, _, habsent⟩ := getCachedResponse_outcomes 1500 "What is 3+3?"
    Orchestrator.warm.history hnodup
  refine ⟨?_, ?_, ?_, ?_⟩
  · rw [hlive _ hmem (by decide)]
  · rw [(hold _ hmem (by decide)).1]
  · rw [(hold _ hmem (by decide)).1]; decide
  · have hno : ∀ entry : CacheEntry,
        ("What is 3+3?", entry) ∉ Orchestrator.warm.history.cache := by
      intro entry hin
      have hkey : "What is 3+3?" ∈ Orchestrator.warm.history.cache.map Prod.fst :=
        List.mem_map_of_mem Prod.fst hin
      exact absurd hkey (by decide)
    rw [habsent hno]; rfl

/-! ## C15: `searchHistory` and compressed entries -/

/-- C15, the code on a compressed entry. An entry that `addToHistory` stored compressed is
matched by `searchHistory` on its stored text, the base64 text of the gzip stream: when
neither the question nor that stored text contains the searched text (lowered), the entry is
not returned, whatever its original answer contains. -/
theorem searchHistory_skips_compressed (rt : Runtime) (now : Int) (question answer text : String)
    (m : HistoryManager)
    (hlong : 1024 < jsLength answer)
    (hquestion : jsIncludes (rt.toLowerCase question) (rt.toLowerCase text) = false)
    (hstored : jsIncludes (rt.toLowerCase (rt.toBase64 (rt.gzip answer)))
      (rt.toLowerCase text) = false) :
    (newEntry rt now question answer).compressed = true ∧
    searchHistory rt text { m with history := m.history ++ [newEntry rt now question answer] } =
      searchHistory rt text m := by
  have hnew : newEntry rt now question answer =
      { timestamp := now, question := question, answer := rt.toBase64 (rt.gzip answer),
        compressed := true } := by
    have : jsLength answer > 1024 := hlong
    simp [newEntry, this]
  refine ⟨by rw [hnew], ?_⟩
  unfold searchHistory
  rw [hnew]
  simp [List.filter_append, hquestion, hstored]

theorem toLower_toNat_lt (c : Char) (h : c.toNat < 256) : (Char.toLower c).toNat < 256 := by
  unfold Char.toLower
  simp only
  split
  · rename_i hcase
    rw [toNat_ofNat_byte _ (by omega)]
    omega
  · exact h

/-- The text codec of `sampleRuntime`, lowered, writes characters below 256 only. -/
theorem sample_stored_chars (b : Buffer) :
    ∀ c ∈ (sampleRuntime.toLowerCase (sampleRuntime.toBase64 b)).data, c.toNat < 256 := by
  intro c hc
  have hc2 : c ∈ (b.map (fun x => Char.ofNat x.val)).map Char.toLower := hc
  simp only [List.mem_map] at hc2
  obtain ⟨d, ⟨x, _, hx⟩, hd⟩ := hc2
  rw [← hd, ← hx]
  exact toLower_toNat_lt _ (by rw [toNat_ofNat_byte _ x.isLt]; exact x.isLt)

/-- C15, the failing input: an answer of 1025 euro signs is stored compressed; its original
text contains the euro sign, and a search for the euro sign returns nothing. -/
theorem searchHistory_skips_compressed_witness :
    originalAnswer sampleRuntime (newEntry sampleRuntime 3000 "price" euroLongAnswer) =
      some euroLongAnswer ∧
    jsIncludes (sampleRuntime.toLowerCase euroLongAnswer) (sampleRuntime.toLowerCase "€") =
      true ∧
    (addToHistory sampleRuntime 3000 true "price" euroLongAnswer HistoryManager.fresh).2.history =
      [newEntry sampleRuntime 3000 "price" euroLongAnswer] ∧
    searchHistory sampleRuntime "€"
      (addToHistory sampleRuntime 3000 true "price" euroLongAnswer HistoryManager.fresh).2 =
      [] := by
  have hlong : 1024 < jsLength euroLongAnswer := by
    rw [euroLongAnswer, jsLength_replicate]; decide
  have hlong2 : jsLength euroLongAnswer > 1024 := hlong
  have hdata : euroLongAnswer.data.length = 1025 := by
    rw [euroLongAnswer]; exact List.length_replicate _ _
  have hstored : jsIncludes (sampleRuntime.toLowerCase
      (sampleRuntime.toBase64 (sampleRuntime.gzip euroLongAnswer)))
      (sampleRuntime.toLowerCase "€") = false := by
    unfold jsIncludes
    rw [decide_eq_false_iff_not]
    intro hinfix
    have hmem : '€' ∈ (sampleRuntime.toLowerCase
        (sampleRuntime.toBase64 (sampleRuntime.gzip euroLongAnswer))).data :=
      hinfix.subset (by decide)
    have := sample_stored_chars _ _ hmem
    revert this
    decide
  obtain ⟨hc, hskip⟩ := searchHistory_skips_compressed sampleRuntime 3000 "price" euroLongAnswer
    "€" HistoryManager.fresh hlong (by decide) hstored
  have hfit : blobLengthWith sampleRuntime HistoryManager.fresh
      (newEntry sampleRuntime 3000 "price" euroLongAnswer) ≤ sizeLimit HistoryManager.fresh := by
    have hlimit : sizeLimit HistoryManager.fresh = 104857600 := rfl
    have hq : ("price" : String).data.length = 5 := rfl
    have hhist : HistoryManager.fresh.history = [] := rfl
    rw [sample_blobLengthWith, hlimit, hhist]
    simp only [newEntry, hlong2, if_true]
    simp only [List.nil_append, List.flatMap_cons, List.flatMap_nil, List.append_nil,
      List.length_append, List.length_cons, List.length_nil, sample_toBase64_length,
      sample_gzip_length, hdata, hq]
    decide
  have hhistory := (addToHistory_fits sampleRuntime 3000 true "price" euroLongAnswer
    HistoryManager.fresh hfit).1
  have hhistory2 : (addToHistory sampleRuntime 3000 true "price" euroLongAnswer
      HistoryManager.fresh).2.history = [newEntry sampleRuntime 3000 "price" euroLongAnswer] :=
    hhistory
  refine ⟨?_, ?_, hhistory2, ?_⟩
  · unfold originalAnswer
    rw [hc, if_pos rfl]
    unfold newEntry
    rw [if_pos hlong2]
    show sampleRuntime.gunzip (sampleRuntime.fromBase64
      (sampleRuntime.toBase64 (sampleRuntime.gzip euroLongAnswer))) = some euroLongAnswer
    rw [sampleRuntime_fromBase64_toBase64, sampleRuntime_gunzip_gzip]
  · unfold jsIncludes
    rw [decide_eq_true_iff]
    refine ⟨[], List.replicate 1024 '€', ?_⟩
    show [] ++ ['€'] ++ List.replicate 1024 '€' =
      (List.replicate 1025 '€').map Char.toLower
    rw [List.map_replicate]
    rfl
  · have hsub : searchHistory sampleRuntime "€"
        (addToHistory sampleRuntime 3000 true "price" euroLongAnswer HistoryManager.fresh).2 =
        searchHistory sampleRuntime "€"
          { HistoryManager.fresh with
            history := HistoryManager.fresh.history ++
              [newEntry sampleRuntime 3000 "price" euroLongAnswer] } := by
      unfold searchHistory
      rw [hhistory]
    rw [hsub, hskip]
    rfl

/-! ## C16: the trimming loop of `saveHistory` -/

/-- C16, the code on an oversize blob. When the serialized-and-compressed history exceeds
`maxSizeMB` at save time, `saveHistory` removes every entry, decrementing `totalEntries` once
for each: the size it tests is computed once, before the loop, so the loop stops only when
the sequence is empty. -/
theorem saveHistory_oversize_empties (rt : Runtime) (w : Bool) (m : HistoryManager)
    (hover : sizeLimit m < blobLength rt m) :
    (saveHistory rt w m).2.history = [] ∧
    (saveHistory rt w m).2.historyStats.totalEntries =
      m.historyStats.totalEntries - m.history.length := by
  have h : blobLength rt m > sizeLimit m := hover
  unfold saveHistory
  cases w <;> simp [h, trimLoop_of_gt _ _ h]

theorem sample_blobLength (m : HistoryManager) :
    blobLength sampleRuntime m =
      3 * (m.history.flatMap
        (fun e => e.question.data ++ ':' :: e.answer.data ++ [';'])).length := by
  show (List.flatMap _ charBytes).length = _
  rw [length_flatMap_charBytes]
  rfl

/-- With the stand-in codec a first answer of 400 000 characters puts the blob over 1 MiB,
while the blob of the second entry alone is 21 bytes. -/
theorem managerWithAnswer_sizes (answer : String) (h : answer.data.length = 400000) :
    sizeLimit (managerWithAnswer answer) < blobLength sampleRuntime (managerWithAnswer answer) ∧
    blobLength sampleRuntime
      { managerWithAnswer answer with
        history := [{ timestamp := 2000, question := "q2", answer := "a2", compressed := false }]
        historyStats := { (managerWithAnswer answer).historyStats with totalEntries := 1 } } ≤
      sizeLimit (managerWithAnswer answer) := by
  have hq1 : ("q1" : String).data.length = 2 := rfl
  have hq2 : ("q2" : String).data.length = 2 := rfl
  have ha2 : ("a2" : String).data.length = 2 := rfl
  have hlimit : sizeLimit (managerWithAnswer answer) = 1048576 := by
    simp only [sizeLimit, managerWithAnswer]
  constructor
  · rw [sample_blobLength, hlimit]
    simp only [managerWithAnswer, List.flatMap_cons, List.flatMap_nil, List.append_nil,
      List.length_append, List.length_cons, List.length_nil, h, hq1, hq2, ha2]
    decide
  · rw [sample_blobLength, hlimit]
    simp only [List.flatMap_cons, List.flatMap_nil, List.append_nil,
      List.length_append, List.length_cons, List.length_nil, hq2, ha2]
    decide

/-- C16, the failing input: the blob of the two entries exceeds 1 MiB, the blob of the last
entry alone would fit, and `saveHistory` keeps neither. -/
theorem saveHistory_oversize_empties_witness :
    sizeLimit bulkyManager < blobLength sampleRuntime bulkyManager ∧
    blobLength sampleRuntime
      { bulkyManager with
        history := [{ timestamp := 2000, question := "q2", answer := "a2", compressed := false }]
        historyStats := { bulkyManager.historyStats with totalEntries := 1 } } ≤
      sizeLimit bulkyManager ∧
    (saveHistory sampleRuntime true bulkyManager).2.history = [] ∧
    (saveHistory sampleRuntime true bulkyManager).2.historyStats.totalEntries =
      bulkyManager.historyStats.totalEntries - bulkyManager.history.length := by
  have hdata : bulkyAnswer.data.length = 400000 := by
    rw [bulkyAnswer]; exact List.length_replicate _ _
  obtain ⟨hover, hsuffix⟩ := managerWithAnswer_sizes bulkyAnswer hdata
  obtain ⟨h1, h2⟩ := saveHistory_oversize_empties sampleRuntime true bulkyManager hover
  exact ⟨hover, hsuffix, h1, h2⟩

/-! ## C17, C18 and C19: loading the persisted blobs -/

/-- What `cleanupHistory` leaves: the last `maxEntries` entries. -/
theorem cleanupHistory_spec (m : HistoryManager) :
    (cleanupHistory m).historyStats.maxEntries = m.historyStats.maxEntries ∧
    (cleanupHistory m).history.length ≤ m.historyStats.maxEntries ∧
    (m.historyStats.maxEntries < m.history.length →
      (cleanupHistory m).history = m.history.drop (m.history.length - m.historyStats.maxEntries) ∧
      (cleanupHistory m).history.length = m.historyStats.maxEntries ∧
      (cleanupHistory m).historyStats.totalEntries = (cleanupHistory m).history.length) ∧
    (m.history.length ≤ m.historyStats.maxEntries → cleanupHistory m = m) := by
  unfold cleanupHistory
  by_cases h : m.history.length > m.historyStats.maxEntries
  · rw [if_pos h]
    refine ⟨rfl, ?_, fun _ => ⟨rfl, ?_, rfl⟩, fun h2 => absurd h2 (by omega)⟩
    · simp only [List.length_drop]; omega
    · simp only [List.length_drop]; omega
  · rw [if_neg h]
    exact ⟨rfl, by omega, fun h2 => absurd h2 h, fun _ => rfl⟩

/-- C17. After `loadHistory` has read, decompressed and parsed a persisted blob, it has raised
nothing and the in-memory history holds at most `maxEntries` entries (the `maxEntries` of the
blob's stats, 10000 when the blob has none). When the blob held more, exactly the leading
surplus entries are removed, the remaining ones keep their order, and `totalEntries` is the
number of entries kept; when the blob held `maxEntries` or fewer, the entries are those of
the blob unchanged. -/
theorem loadHistory_trims (rt : Runtime) (bytes : Buffer) (text : String)
    (entries : List HistoryEntry) (stats : Option HistoryStats) (m : HistoryManager)
    (hgunzip : rt.gunzip bytes = some text)
    (hparse : rt.jsonParseHistory text = some (entries, stats)) :
    (loadHistory rt (some bytes) m).1 = .ok () ∧
    (loadHistory rt (some bytes) m).2.historyStats.maxEntries =
      (stats.map HistoryStats.maxEntries).getD 10000 ∧
    (loadHistory rt (some bytes) m).2.history.length ≤
      (loadHistory rt (some bytes) m).2.historyStats.maxEntries ∧
    ((loadHistory rt (some bytes) m).2.historyStats.maxEntries < entries.length →
      (∃ surplus, entries = surplus ++ (loadHistory rt (some bytes) m).2.history ∧
        surplus.length =
          entries.length - (loadHistory rt (some bytes) m).2.historyStats.maxEntries) ∧
      (loadHistory rt (some bytes) m).2.historyStats.totalEntries =
        (loadHistory rt (some bytes) m).2.history.length) ∧
    (entries.length ≤ (loadHistory rt (some bytes) m).2.historyStats.maxEntries →
      (loadHistory rt (some bytes) m).2.history = entries) := by
  have hrun : loadHistory rt (some bytes) m =
      (.ok (), cleanupHistory
        { m with
          history := entries
          historyStats := stats.getD
            { totalEntries := entries.length
              compressedSize := bytes.length
              maxEntries := 10000
              maxSizeMB := 100 } }) := by
    simp [loadHistory, hgunzip, hparse]
  have hmaxE : (stats.getD
      { totalEntries := entries.length
        compressedSize := bytes.length
        maxEntries := 10000
        maxSizeMB := 100 }).maxEntries =
      (stats.map HistoryStats.maxEntries).getD 10000 := by
    cases stats <;> rfl
  rw [hrun, ← hmaxE]
  generalize stats.getD
    { totalEntries := entries.length
      compressedSize := bytes.length
      maxEntries := 10000
      maxSizeMB := 100 } = st
  obtain ⟨hc1, hc2, hc3, hc4⟩ := cleanupHistory_spec
    { m with history := entries, historyStats := st }
  simp only at hc1 hc2 hc3 hc4 ⊢
  refine ⟨trivial, hc1, ?_, ?_, ?_⟩
  · rw [hc1]; exact hc2
  · rw [hc1]
    intro hmore
    obtain ⟨hd, hlen, htotal⟩ := hc3 hmore
    refine ⟨⟨entries.take (entries.length - st.maxEntries), ?_, ?_⟩, htotal⟩
    · rw [hd]; exact (List.take_append_drop _ _).symm
    · rw [List.length_take]; omega
  · rw [hc1]
    intro hfew
    rw [hc4 hfew]

/-- C17, instance: a blob of three entries whose stats set `maxEntries` to 2. -/
theorem loadHistory_trims_witness :
    (loadHistory loadingRuntime (some (loadingRuntime.gzip "three entries"))
      HistoryManager.fresh).2.history =
      [{ timestamp := 2000, question := "q2", answer := "a2", compressed := false },
       { timestamp := 3000, question := "q3", answer := "a3", compressed := false }] ∧
    (loadHistory loadingRuntime (some (loadingRuntime.gzip "three entries"))
      HistoryManager.fresh).2.historyStats.totalEntries = 2 := by
  have hgunzip : loadingRuntime.gunzip (loadingRuntime.gzip "three entries") =
      some "three entries" := sampleRuntime_gunzip_gzip "three entries"
  obtain ⟨_, hmax, _, hmore, _⟩ := loadHistory_trims loadingRuntime
    (loadingRuntime.gzip "three entries") "three entries" threeEntries
    (some { totalEntries := 3, compressedSize := 39, maxEntries := 2, maxSizeMB := 100 })
    HistoryManager.fresh hgunzip rfl
  have hmax2 : (loadHistory loadingRuntime (some (loadingRuntime.gzip "three entries"))
      HistoryManager.fresh).2.historyStats.maxEntries = 2 := hmax
  rw [hmax2] at hmore
  obtain ⟨⟨surplus, hsplit, hlen⟩, htotal⟩ := hmore (by decide)
  have hlen1 : surplus.length = 1 := hlen
  have hlist : (loadHistory loadingRuntime (some (loadingRuntime.gzip "three entries"))
      HistoryManager.fresh).2.history =
      [{ timestamp := 2000, question := "q2", answer := "a2", compressed := false },
       { timestamp := 3000, question := "q3", answer := "a3", compressed := false }] := by
    generalize (loadHistory loadingRuntime (some (loadingRuntime.gzip "three entries"))
      HistoryManager.fresh).2.history = kept at hsplit
    match surplus, hlen1 with
    | [x], _ =>
      simp only [threeEntries, List.singleton_append, List.cons.injEq] at hsplit
      exact hsplit.2.symm
  refine ⟨hlist, ?_⟩
  rw [htotal, hlist]
  rfl

/-- C18. If the persisted history blob is absent, cannot be decompressed, or cannot be parsed,
`loadHistory` raises nothing and leaves the history empty with the default stats
`{totalEntries: 0, compressedSize: 0, maxEntries: 10000, maxSizeMB: 100}`. -/
theorem loadHistory_unreadable (rt : Runtime) (file : Option Buffer) (m : HistoryManager)
    (hbad : file = none ∨
      (∃ bytes, file = some bytes ∧ rt.gunzip bytes = none) ∨
      (∃ bytes text, file = some bytes ∧ rt.gunzip bytes = some text ∧
        rt.jsonParseHistory text = none)) :
    (loadHistory rt file m).1 = .ok () ∧
    (loadHistory rt file m).2.history = [] ∧
    (loadHistory rt file m).2.historyStats =
      { totalEntries := 0, compressedSize := 0, maxEntries := 10000, maxSizeMB := 100 } := by
  rcases hbad with h | ⟨bytes, h, hg⟩ | ⟨bytes, text, h, hg, hp⟩
  · subst h; simp [loadHistory, defaultHistoryStats]
  · subst h; simp [loadHistory, hg, defaultHistoryStats]
  · subst h; simp [loadHistory, hg, hp, defaultHistoryStats]

/-- C18, instance: no file, and a file whose text is not a history document. -/
theorem loadHistory_unreadable_witness :
    (loadHistory loadingRuntime none twoEntryManager).2.history = [] ∧
    (loadHistory loadingRuntime (some (loadingRuntime.gzip "garbage")) twoEntryManager).2.history
      = [] ∧
    (loadHistory loadingRuntime (some (loadingRuntime.gzip "garbage"))
      twoEntryManager).2.historyStats.maxEntries = 10000 := by
  have h1 := loadHistory_unreadable loadingRuntime none twoEntryManager (Or.inl rfl)
  have h2 := loadHistory_unreadable loadingRuntime (some (loadingRuntime.gzip "garbage"))
    twoEntryManager
    (Or.inr (Or.inr ⟨_, "garbage", rfl, sampleRuntime_gunzip_gzip "garbage", by decide⟩))
  refine ⟨h1.2.1, h2.2.1, ?_⟩
  rw [h2.2.2]

/-- C19, the code on an unreadable cache file. If the persisted cache blob is absent or cannot
be parsed, `loadCache` raises the `ReferenceError` for `ErrorHandler` from its `catch` block;
the assignment of an empty map after it is not executed, so the object is left exactly as it
was. -/
theorem loadCache_unreadable_raises (rt : Runtime) (file : Option String) (m : HistoryManager)
    (hbad : file = none ∨ ∃ text, file = some text ∧ rt.jsonParseCache text = none) :
    (loadCache rt file m).1 = .error (.referenceError "ErrorHandler") ∧
    (loadCache rt file m).2 = m := by
  rcases hbad with h | ⟨text, h, hp⟩
  · subst h; simp [loadCache]
  · subst h; simp [loadCache, hp]

/-- C19, the failing input: the constructor's call on a first run, when no cache file
exists. -/
theorem loadCache_unreadable_raises_witness :
    (loadCache sampleRuntime none HistoryManager.fresh).1 =
      .error (.referenceError "ErrorHandler") ∧
    (loadCache sampleRuntime (some "not json") Orchestrator.warm.history).2.cache =
      [("What is 2+2?", { response := "The answer is 4.", timestamp := 1000 })] := by
  have h1 := loadCache_unreadable_raises sampleRuntime none HistoryManager.fresh (Or.inl rfl)
  have h2 := loadCache_unreadable_raises sampleRuntime (some "not json") Orchestrator.warm.history
    (Or.inr ⟨"not json", rfl, rfl⟩)
  refine ⟨h1.1, ?_⟩
  rw [h2.2]
  rfl

/-! ## C20: the answer built from the search text -/

theorem splitLines_ne_nil (cs : List Char) : splitLines cs ≠ [] := by
  cases cs with
  | nil => simp [splitLines]
  | cons c rest =>
    unfold splitLines
    split
    · simp
    · split <;> simp

/-- Joining the pieces of `splitLines` with line feeds gives the text back. -/
theorem splitLines_intercalate (cs : List Char) :
    List.intercalate ['\n'] (splitLines cs) = cs := by
  induction cs with
  | nil => simp [splitLines, List.intercalate]
  | cons c rest ih =>
    unfold splitLines
    by_cases hc : c = '\n'
    · rw [if_pos hc]
      cases hs : splitLines rest with
      | nil => exact absurd hs (splitLines_ne_nil rest)
      | cons l ls =>
        rw [hs] at ih
        have : List.intercalate ['\n'] ([] :: l :: ls) =
            '\n' :: List.intercalate ['\n'] (l :: ls) := by
          simp [List.intercalate]
        rw [this, ih, hc]
    · rw [if_neg hc]
      cases hs : splitLines rest with
      | nil => exact absurd hs (splitLines_ne_nil rest)
      | cons l ls =>
        rw [hs] at ih
        have : List.intercalate ['\n'] ((c :: l) :: ls) =
            c :: List.intercalate ['\n'] (l :: ls) := by
          cases ls <;> simp [List.intercalate]
        simp only [this, ih]

/-- No piece of `splitLines` contains a line feed. -/
theorem splitLines_no_newline (cs : List Char) : ∀ l ∈ splitLines cs, '\n' ∉ l := by
  induction cs with
  | nil => simp [splitLines]
  | cons c rest ih =>
    unfold splitLines
    by_cases hc : c = '\n'
    · rw [if_pos hc]
      intro l hl
      rcases List.mem_cons.mp hl with h | h
      · rw [h]; simp
      · exact ih l h
    · rw [if_neg hc]
      cases hs : splitLines rest with
      | nil => exact absurd hs (splitLines_ne_nil rest)
      | cons l ls =>
        rw [hs] at ih
        intro x hx
        rcases List.mem_cons.mp hx with h | h
        · rw [h]
          intro hmem
          rcases List.mem_cons.mp hmem with h2 | h2
          · exact hc h2.symm
          · exact ih l (List.mem_cons_self _ _) h2
        · exact ih x (List.mem_cons_of_mem _ h)

/-- A line survives `line.trim()` as a truthy string exactly when it is not blank. -/
theorem jsTruthy_jsTrim (line : String) : jsTruthy (jsTrim line) = !isBlank line := by
  have hne : ∀ l : List Char, (String.mk l != "") = !l.isEmpty := by
    intro l; cases l <;> rfl
  unfold jsTruthy jsTrim isBlank
  rw [hne]
  by_cases hall : ∀ x ∈ line.data, isJsWhiteSpace x = true
  · have h1 : line.data.dropWhile isJsWhiteSpace = [] := List.dropWhile_eq_nil_iff.mpr hall
    have h2 : line.data.all isJsWhiteSpace = true := List.all_eq_true.mpr hall
    simp [h1, h2]
  · have h2 : line.data.all isJsWhiteSpace = false := by
      rw [Bool.eq_false_iff, ne_eq, List.all_eq_true]
      exact hall
    have h1 : line.data.dropWhile isJsWhiteSpace ≠ [] := by
      rw [ne_eq, List.dropWhile_eq_nil_iff]
      exact hall
    have h3 : ((line.data.dropWhile isJsWhiteSpace).reverse.dropWhile isJsWhiteSpace) ≠ [] := by
      rw [ne_eq, List.dropWhile_eq_nil_iff]
      intro hrev
      cases hd : line.data.dropWhile isJsWhiteSpace with
      | nil => exact h1 hd
      | cons x t =>
        have hx : isJsWhiteSpace x = true := hrev x (by rw [hd]; simp)
        have hnot := List.head_dropWhile_not isJsWhiteSpace line.data h1
        simp only [hd, List.head_cons] at hnot
        rw [hx] at hnot
        exact absurd hnot (by simp)
    rw [h2]
    cases hr : ((line.data.dropWhile isJsWhiteSpace).reverse.dropWhile isJsWhiteSpace).reverse with
    | nil =>
      rw [List.reverse_eq_nil_iff] at hr
      exact absurd hr h3
    | cons x t => rfl

/-- The array `results` of `formatResponse` is the list of the non-blank lines. -/
theorem results_eq_nonBlankLines (sr : String) :
    (jsSplitLines sr).filter (fun line => jsTruthy (jsTrim line)) = nonBlankLines sr := by
  unfold nonBlankLines
  apply List.filter_congr
  intro line _
  exact jsTruthy_jsTrim line

/-- A non-blank line is a truthy string. -/
theorem jsTruthy_of_mem_nonBlankLines (sr line : String) (h : line ∈ nonBlankLines sr) :
    jsTruthy line = true := by
  have hnb : (!isBlank line) = true := (List.mem_filter.mp h).2
  unfold jsTruthy
  cases hl : line with
  | mk data =>
    cases data with
    | nil => rw [hl] at hnb; simp [isBlank] at hnb
    | cons c t => rfl

/-- The answer `formatResponse` gives when no response of a model is available, in terms of the
non-blank lines of the search text. -/
theorem formatResponse_search (rt : Runtime) (aiResponse : Option String) (sr query : String)
    (hnone : aiResponse = none ∨ aiResponse = some "") :
    formatResponse rt aiResponse sr query =
      match (nonBlankLines sr).find? (qualifies rt query) with
      | none => foundHeading ++ (nonBlankLines sr).head?.getD "undefined"
      | some main =>
        match ((nonBlankLines sr).find? (fun line =>
            !jsIncludes line main && !jsIncludes (rt.toLowerCase line) "url:" &&
            decide (jsLength (jsTrim line) > 0))).filter jsTruthy with
        | some info => jsTrim main ++ "\n\n" ++ jsTrim info
        | none => jsTrim main := by
  have hai : aiResponse.filter jsTruthy = none := by
    rcases hnone with h | h <;> subst h <;> rfl
  unfold formatResponse
  rw [hai]
  simp only [results_eq_nonBlankLines]
  have hq : (fun line => jsIncludes (rt.toLowerCase line) (rt.toLowerCase query) ||
      (jsStartsWith line "1." && !jsIncludes (rt.toLowerCase line) "url:")) =
      qualifies rt query := by
    funext line; rfl
  rw [hq]
  cases hfind : (nonBlankLines sr).find? (qualifies rt query) with
  | none => rfl
  | some main =>
    have hmem : main ∈ nonBlankLines sr := List.mem_of_find?_eq_some hfind
    have ht := jsTruthy_of_mem_nonBlankLines sr main hmem
    simp only [Option.filter, ht, if_true]

/-- With no non-blank line at all, the fallback prints the missing `results[0]`. -/
theorem formatResponse_blank_text (rt : Runtime) (sr query : String)
    (hblank : nonBlankLines sr = []) :
    formatResponse rt none sr query = foundHeading ++ "undefined" := by
  rw [formatResponse_search rt none sr query (Or.inl rfl), hblank]
  rfl

/-- C20. When no response of a model is available (`null` or the empty string),
`formatResponse` works on the lines of the search text: the pieces between line feeds, blank
ones discarded. If `main` is the first remaining line that qualifies (lowered, it contains the
lowered query, or it begins with `1.` and is not a URL line), the answer starts with `main`
trimmed. If no remaining line qualifies, the answer is the fixed heading followed by the first
remaining line and nothing else. -/
theorem formatResponse_main_line (rt : Runtime) (aiResponse : Option String) (sr query : String)
    (hnone : aiResponse = none ∨ aiResponse = some "") :
    (List.intercalate ['\n'] ((jsSplitLines sr).map String.data) = sr.data ∧
      (∀ line ∈ jsSplitLines sr, '\n' ∉ line.data) ∧
      nonBlankLines sr = (jsSplitLines sr).filter (fun line => !isBlank line)) ∧
    (∀ before main after, nonBlankLines sr = before ++ main :: after →
      (∀ line ∈ before, qualifies rt query line = false) → qualifies rt query main = true →
      ∃ rest, formatResponse rt aiResponse sr query = jsTrim main ++ rest) ∧
    (∀ first others, nonBlankLines sr = first :: others →
      (∀ line ∈ nonBlankLines sr, qualifies rt query line = false) →
      formatResponse rt aiResponse sr query = foundHeading ++ first) := by
  refine ⟨⟨?_, ?_, rfl⟩, ?_, ?_⟩
  · unfold jsSplitLines
    rw [List.map_map]
    have : (String.data ∘ String.mk) = id := by funext l; rfl
    rw [this, List.map_id]
    exact splitLines_intercalate sr.data
  · intro line hline
    unfold jsSplitLines at hline
    obtain ⟨l, hl, rfl⟩ := List.mem_map.mp hline
    exact splitLines_no_newline sr.data l hl
  · intro before main after hsplit hbefore hmain
    have hfind : (nonBlankLines sr).find? (qualifies rt query) = some main := by
      rw [List.find?_eq_some]
      exact ⟨hmain, before, after, hsplit, fun a ha => by simp [hbefore a ha]⟩
    rw [formatResponse_search rt aiResponse sr query hnone, hfind]
    simp only
    split
    · exact ⟨_, by rw [String.append_assoc]⟩
    · exact ⟨"", by simp⟩
  · intro first others hsplit hno
    have hfind : (nonBlankLines sr).find? (qualifies rt query) = none := by
      rw [List.find?_eq_none]
      intro x hx
      simp [hno x hx]
    rw [formatResponse_search rt aiResponse sr query hnone, hfind, hsplit]
    rfl

/-- C20, instance: the numbered line is chosen over the title and the URL line; and with
nothing qualifying the answer is the heading and the title. -/
theorem formatResponse_main_line_witness :
    formatResponse sampleRuntime none "Title\n\n1. Four\nurl: example.org" "zzz" =
      "1. Four\n\nTitle" ∧
    formatResponse sampleRuntime none "Title\n\nurl: example.org" "zzz" =
      "Based on the search results, here's what I found:\n\nTitle" := by
  obtain ⟨_, hmain, hfallback⟩ := formatResponse_main_line sampleRuntime none
    "Title\n\nurl: example.org" "zzz" (Or.inl rfl)
  refine ⟨by rfl, ?_⟩
  rw [hfallback "Title" ["url: example.org"] (by decide) (by decide)]
  rfl

/-! ## C21: what `clearOldHistory` keeps -/

/-- In a time zone whose offset is the same at `now` and at the local time `days` days
earlier, the cutoff is `now - days * 86400000`, when that is a valid time value. -/
theorem cutoffDate_fixed_offset (rt : Runtime) (now d : Int)
    (hzone : rt.localTZA (now + rt.localTZA now true - d * 86400000) false =
      rt.localTZA now true)
    (hrange : (now - d * 86400000).natAbs ≤ 8640000000000000) :
    cutoffDate rt now (some d) = some (now - d * 86400000) := by
  have hu : now + rt.localTZA now true - d * 86400000 -
      rt.localTZA (now + rt.localTZA now true - d * 86400000) false = now - d * 86400000 := by
    rw [hzone]
    omega
  simp only [cutoffDate, msPerDay, maxTimeValue, hu]
  rw [if_pos (by simpa using hrange)]

/-- A `days` that is not a finite number, or that puts the cutoff out of the range of time
values, makes `cutoffDate` the Invalid Date, and `clearOldHistory` then removes every entry. -/
theorem clearOldHistory_invalid_cutoff (rt : Runtime) (now : Int) (w : Bool)
    (days : Option Int) (m : HistoryManager) (h : cutoffDate rt now days = none) :
    (clearOldHistory rt now w days m).2.history = [] := by
  have hfilter : m.history.filter (fun entry => laterThan entry.timestamp none) = [] := by
    rw [List.filter_eq_nil_iff]
    intro e _
    simp [laterThan]
  unfold clearOldHistory
  simp only [h, hfilter]
  rcases saveHistory_history rt w
    { m with
      history := []
      historyStats := { m.historyStats with totalEntries := ([] : List HistoryEntry).length } }
    with ⟨h1, _⟩ | ⟨h1, _⟩
  · exact h1
  · exact h1

/-- For every history, clock reading and integer `days`, in a time zone whose offset is the
same at `now` and `days` days earlier, with the cutoff a valid time value and the history blob
of the kept entries within `maxSizeMB`: after `clearOldHistory(days)` the history is exactly
the former entries whose timestamp is later than `now - days * 86400000`, in their former
order, and `totalEntries` is their number. -/
theorem clearOldHistory_of_fit (rt : Runtime) (now : Int) (w : Bool) (d : Int)
    (m : HistoryManager)
    (hzone : rt.localTZA (now + rt.localTZA now true - d * 86400000) false =
      rt.localTZA now true)
    (hrange : (now - d * 86400000).natAbs ≤ 8640000000000000)
    (hfit : blobLength rt
      { m with
        history := m.history.filter (fun entry => decide (now - d * 86400000 < entry.timestamp))
        historyStats := { m.historyStats with
          totalEntries := (m.history.filter
            (fun entry => decide (now - d * 86400000 < entry.timestamp))).length } } ≤
      sizeLimit m) :
    (clearOldHistory rt now w (some d) m).2.history =
      m.history.filter (fun entry => decide (now - d * 86400000 < entry.timestamp)) ∧
    (clearOldHistory rt now w (some d) m).2.historyStats.totalEntries =
      ((m.history.filter
        (fun entry => decide (now - d * 86400000 < entry.timestamp))).length : Int) := by
  have hlater : (fun entry : HistoryEntry =>
      laterThan entry.timestamp (cutoffDate rt now (some d))) =
      (fun entry => decide (now - d * 86400000 < entry.timestamp)) := by
    funext entry
    rw [cutoffDate_fixed_offset rt now d hzone hrange]
    rfl
  unfold clearOldHistory
  simp only [hlater]
  exact saveHistory_fits rt w _ hfit

/-- An instance with `days = 2`: of an entry written exactly two days before the call and one
written a millisecond later, `clearOldHistory(2)` removes the first and keeps the second. -/
theorem clearOldHistory_of_fit_example :
    (clearOldHistory sampleRuntime 1172800000 true (some 2) twoAgesManager).2.history =
      [{ timestamp := 1000000001, question := "new", answer := "b", compressed := false }] ∧
    (clearOldHistory sampleRuntime 1172800000 true (some 2)
      twoAgesManager).2.historyStats.totalEntries = 1 := by
  obtain ⟨h1, h2⟩ := clearOldHistory_of_fit sampleRuntime 1172800000 true 2 twoAgesManager
    rfl (by decide) (by decide)
  exact ⟨h1.trans (by decide), h2.trans (by decide)⟩

/-- Across a clock change the cutoff is a local calendar day back, not 24 hours: ten hours
after the clocks moved forward, the cutoff of `clearOldHistory(1)` is 23 hours before the
call. -/
theorem cutoffDate_clock_change :
    cutoffDate clockChangeRuntime 1036000000 (some 1) = some (1036000000 - 82800000) ∧
    cutoffDate sampleRuntime 1036000000 (some 1) = some (1036000000 - 86400000) ∧
    cutoffDate sampleRuntime 1036000000 none = none ∧
    cutoffDate sampleRuntime 1036000000 (some 200000000) = none := by
  refine ⟨?_, ?_, ?_, ?_⟩ <;> decide

/-- On an oversize blob the loop of `saveHistory` runs until the history is empty. -/
theorem saveHistory_of_gt (rt : Runtime) (w : Bool) (m : HistoryManager)
    (h : blobLength rt m > sizeLimit m) :
    (saveHistory rt w m).2.history = [] ∧
    (saveHistory rt w m).2.historyStats.totalEntries =
      m.historyStats.totalEntries - m.history.length := by
  unfold saveHistory
  cases w <;> simp [h, trimLoop_of_gt _ _ h]

/-- C21. For every history, clock reading and `days`: when the serialized-and-compressed
history of the entries that are later than the cutoff exceeds `maxSizeMB`, `clearOldHistory`
keeps none of them: the history afterwards is empty and `totalEntries` is 0, whatever their
timestamps. -/
theorem clearOldHistory_oversize_keeps_nothing (rt : Runtime) (now : Int) (w : Bool)
    (days : Option Int) (m : HistoryManager)
    (hover : sizeLimit m < blobLength rt
      { m with
        history :=
          m.history.filter (fun entry => laterThan entry.timestamp (cutoffDate rt now days))
        historyStats := { m.historyStats with
          totalEntries := (m.history.filter
            (fun entry => laterThan entry.timestamp (cutoffDate rt now days))).length } }) :
    (clearOldHistory rt now w days m).2.history = [] ∧
    (clearOldHistory rt now w days m).2.historyStats.totalEntries = 0 := by
  obtain ⟨h1, h2⟩ := saveHistory_of_gt rt w
    { m with
      history :=
        m.history.filter (fun entry => laterThan entry.timestamp (cutoffDate rt now days))
      historyStats := { m.historyStats with
        totalEntries := (m.history.filter
          (fun entry => laterThan entry.timestamp (cutoffDate rt now days))).length } }
    hover
  refine ⟨h1, h2.trans ?_⟩
  simp

/-- The entries of `managerWithAnswer` are both later than the cutoff of
`clearOldHistory(2)` called at instant 172 800 500, so the blob of the kept entries is the blob
of the whole history. -/
theorem managerWithAnswer_kept (answer : String) :
    cutoffDate sampleRuntime 172800500 (some 2) = some 500 ∧
    blobLength sampleRuntime
      { managerWithAnswer answer with
        history := (managerWithAnswer answer).history.filter
          (fun entry => laterThan entry.timestamp (cutoffDate sampleRuntime 172800500 (some 2)))
        historyStats := { (managerWithAnswer answer).historyStats with
          totalEntries := ((managerWithAnswer answer).history.filter
            (fun entry =>
              laterThan entry.timestamp (cutoffDate sampleRuntime 172800500 (some 2)))).length } } =
      blobLength sampleRuntime (managerWithAnswer answer) := by
  have hc : cutoffDate sampleRuntime 172800500 (some 2) = some 500 := by decide
  have hf : (managerWithAnswer answer).history.filter
      (fun entry => laterThan entry.timestamp (some 500)) = (managerWithAnswer answer).history := by
    simp [managerWithAnswer, laterThan]
  refine ⟨hc, ?_⟩
  rw [sample_blobLength, sample_blobLength, hc]
  simp only [hf]

/-- C21, the failing input: both entries were written less than two days before the call,
their blob exceeds 1 MiB, and `clearOldHistory(2)` keeps neither. -/
theorem clearOldHistory_oversize_keeps_nothing_witness :
    cutoffDate sampleRuntime 172800500 (some 2) = some 500 ∧
    bulkyManager.history.map HistoryEntry.timestamp = [1000, 2000] ∧
    (clearOldHistory sampleRuntime 172800500 true (some 2) bulkyManager).2.history = [] ∧
    (clearOldHistory sampleRuntime 172800500 true (some 2)
      bulkyManager).2.historyStats.totalEntries = 0 := by
  have hdata : bulkyAnswer.data.length = 400000 := by
    rw [bulkyAnswer]; exact List.length_replicate _ _
  obtain ⟨hcut, hblob⟩ := managerWithAnswer_kept bulkyAnswer
  have hover := (managerWithAnswer_sizes bulkyAnswer hdata).1
  rw [← hblob] at hover
  have h := clearOldHistory_oversize_keeps_nothing sampleRuntime 172800500 true (some 2)
    bulkyManager hover
  exact ⟨hcut, rfl, h.1, h.2⟩

/-! ## C29 and C30: the counters against the containers -/

/-- The function `saveHistory` keeps `totalEntries` equal to the number of entries. -/
theorem saveHistory_keeps_count (rt : Runtime) (w : Bool) (m : HistoryManager)
    (h : m.historyStats.totalEntries = (m.history.length : Int)) :
    (saveHistory rt w m).2.historyStats.totalEntries =
      ((saveHistory rt w m).2.history.length : Int) := by
  rcases saveHistory_history rt w m with ⟨h1, h2⟩ | ⟨h1, h2⟩
  · rw [h1, h2, h]
  · rw [h1, h2, h]
    simp

/-- Each history call keeps `totalEntries` equal to the number of entries. -/
theorem HistoryOp.run_keeps_count (rt : Runtime) (op : HistoryOp) (m : HistoryManager)
    (h : m.historyStats.totalEntries = (m.history.length : Int)) :
    (op.run rt m).historyStats.totalEntries = ((op.run rt m).history.length : Int) := by
  cases op with
  | addToHistory now w q a =>
    apply saveHistory_keeps_count
    show m.historyStats.totalEntries + 1 =
      ((m.history ++ [newEntry rt now q a]).length : Int)
    rw [h]
    simp
  | clearOldHistory now w days =>
    apply saveHistory_keeps_count
    rfl
  | cleanupHistory =>
    show (SmartAiCli.cleanupHistory m).historyStats.totalEntries =
      ((SmartAiCli.cleanupHistory m).history.length : Int)
    unfold SmartAiCli.cleanupHistory
    split
    · rfl
    · exact h
  | saveHistory w => exact saveHistory_keeps_count rt w m h

/-- A sequence of history calls keeps `totalEntries` equal to the number of entries. -/
theorem runHistoryOps_keeps_count (rt : Runtime) (ops : List HistoryOp) (m : HistoryManager)
    (h : m.historyStats.totalEntries = (m.history.length : Int)) :
    (runHistoryOps rt ops m).historyStats.totalEntries =
      ((runHistoryOps rt ops m).history.length : Int) := by
  induction ops generalizing m with
  | nil => exact h
  | cons op ops ih => exact ih (op.run rt m) (HistoryOp.run_keeps_count rt op m h)

/-- C29. From the manager the constructor builds, after every finite sequence of
`addToHistory`, `clearOldHistory`, `cleanupHistory` and `saveHistory` calls, with any clock
readings, any arguments and any outcomes of the file writes, `historyStats.totalEntries` is the
number of entries of the history. -/
theorem totalEntries_eq_length (rt : Runtime) (ops : List HistoryOp) :
    (runHistoryOps rt ops HistoryManager.fresh).historyStats.totalEntries =
      ((runHistoryOps rt ops HistoryManager.fresh).history.length : Int) :=
  runHistoryOps_keeps_count rt ops HistoryManager.fresh rfl

/-- C30. From the manager the constructor builds, `cacheResponse('q', 'a')` followed one hour
later by `getCachedResponse('q')` leaves the cache mapping empty while `getCacheStats()` still
reports `size` 1: the lookup deletes the expired entry and counts an eviction without
assigning `cacheStats.size`. -/
theorem getCacheStats_size_stale :
    (runCacheOps [.cacheResponse 0 true "q" "a", .getCachedResponse 3600000 "q"]
      HistoryManager.fresh).cache = [] ∧
    (getCacheStats (runCacheOps [.cacheResponse 0 true "q" "a", .getCachedResponse 3600000 "q"]
      HistoryManager.fresh)).size = 1 ∧
    (getCacheStats (runCacheOps [.cacheResponse 0 true "q" "a", .getCachedResponse 3600000 "q"]
      HistoryManager.fresh)).evictions = 1 ∧
    (getCacheStats (runCacheOps [.cacheResponse 0 true "q" "a"]
      HistoryManager.fresh)).size = 1 := by
  refine ⟨?_, ?_, ?_, ?_⟩ <;> decide

/-! ## C22 to C27: the configuration validator -/

theorem foldl_push_errors {α : Type} (f : α → Findings) (l : List α) (acc : Findings) :
    (l.foldl (fun (a : Findings) x => a.push (f x)) acc).errors =
      acc.errors ++ l.flatMap (fun x => (f x).errors) := by
  induction l generalizing acc with
  | nil => simp
  | cons x xs ih =>
    rw [List.foldl_cons, ih]
    simp [Findings.push, List.append_assoc]

theorem foldl_push_warnings {α : Type} (f : α → Findings) (l : List α) (acc : Findings) :
    (l.foldl (fun (a : Findings) x => a.push (f x)) acc).warnings =
      acc.warnings ++ l.flatMap (fun x => (f x).warnings) := by
  induction l generalizing acc with
  | nil => simp
  | cons x xs ih =>
    rw [List.foldl_cons, ih]
    simp [Findings.push, List.append_assoc]

theorem foldl_push_fixes {α : Type} (f : α → Findings) (l : List α) (acc : Findings) :
    (l.foldl (fun (a : Findings) x => a.push (f x)) acc).fixes =
      acc.fixes ++ l.flatMap (fun x => (f x).fixes) := by
  induction l generalizing acc with
  | nil => simp
  | cons x xs ih =>
    rw [List.foldl_cons, ih]
    simp [Findings.push, List.append_assoc]

/-- The errors of `validate` are the errors of the five rounds, in schema order. -/
theorem validate_errors (config : Config) :
    (ConfigValidator.validate config).errors =
      CONFIG_SCHEMA.flatMap (fun entry => (checkEntry entry.1 entry.2 (config entry.1)).errors) := by
  exact (foldl_push_errors (fun (entry : String × Schema) =>
    checkEntry entry.1 entry.2 (config entry.1)) CONFIG_SCHEMA
    { errors := [], warnings := [], fixes := [] }).trans (List.nil_append _)

theorem validate_warnings (config : Config) :
    (ConfigValidator.validate config).warnings =
      CONFIG_SCHEMA.flatMap
        (fun entry => (checkEntry entry.1 entry.2 (config entry.1)).warnings) := by
  exact (foldl_push_warnings (fun (entry : String × Schema) =>
    checkEntry entry.1 entry.2 (config entry.1)) CONFIG_SCHEMA
    { errors := [], warnings := [], fixes := [] }).trans (List.nil_append _)

theorem validate_fixes (config : Config) :
    (ConfigValidator.validate config).fixes =
      CONFIG_SCHEMA.flatMap (fun entry => (checkEntry entry.1 entry.2 (config entry.1)).fixes) := by
  exact (foldl_push_fixes (fun (entry : String × Schema) =>
    checkEntry entry.1 entry.2 (config entry.1)) CONFIG_SCHEMA
    { errors := [], warnings := [], fixes := [] }).trans (List.nil_append _)

theorem validate_isValid (config : Config) :
    (ConfigValidator.validate config).isValid = true ↔
      (ConfigValidator.validate config).errors = [] := by
  show ((ConfigValidator.validate config).errors.length == 0) = true ↔ _
  simp

/-- C22. On the reference configuration `TEST_CONFIG` of the test suite `validate` reports
`isValid = false` with one `has invalid format` error per key, and with the two optional keys
deleted it reports `isValid = false` with the three errors of the required keys: every value
of `TEST_CONFIG` contains a hyphen, which none of the three patterns of `CONFIG_SCHEMA`
admits. -/
theorem validate_TEST_CONFIG_invalid :
    (ConfigValidator.validate TEST_CONFIG).isValid = false ∧
    (ConfigValidator.validate TEST_CONFIG).errors =
      [{ field := "serperApiKey", message := "serperApiKey has invalid format" },
       { field := "llamaApiKey", message := "llamaApiKey has invalid format" },
       { field := "openaiApiKey", message := "openaiApiKey has invalid format" },
       { field := "claudeApiKey", message := "claudeApiKey has invalid format" },
       { field := "bardApiKey", message := "bardApiKey has invalid format" }] ∧
    (ConfigValidator.validate
      ((TEST_CONFIG.delete "claudeApiKey").delete "bardApiKey")).isValid = false ∧
    (ConfigValidator.validate ((TEST_CONFIG.delete "claudeApiKey").delete "bardApiKey")).errors =
      [{ field := "serperApiKey", message := "serperApiKey has invalid format" },
       { field := "llamaApiKey", message := "llamaApiKey has invalid format" },
       { field := "openaiApiKey", message := "openaiApiKey has invalid format" }] := by
  refine ⟨?_, ?_, ?_, ?_⟩ <;> decide

theorem length_le_jsLength (s : String) : s.data.length ≤ jsLength s := by
  unfold jsLength
  induction s.data with
  | nil => simp
  | cons c cs ih =>
    simp only [List.length_cons, List.map_cons, List.sum_cons]
    have : 1 ≤ utf16Units c := by unfold utf16Units; split <;> omega
    omega

theorem isHexDigit_not_whiteSpace (c : Char) (h : isHexDigit c = true) :
    isJsWhiteSpace c = false := by
  simp only [isHexDigit, Bool.or_eq_true, Bool.and_eq_true, decide_eq_true_eq] at h
  simp only [isJsWhiteSpace, Bool.or_eq_false_iff, Bool.and_eq_false_imp, beq_eq_false_iff_ne,
    decide_eq_true_eq, decide_eq_false_iff_not, ne_eq]
  omega

theorem isAsciiAlnum_not_whiteSpace (c : Char) (h : isAsciiAlnum c = true) :
    isJsWhiteSpace c = false := by
  simp only [isAsciiAlnum, Bool.or_eq_true, Bool.and_eq_true, decide_eq_true_eq] at h
  simp only [isJsWhiteSpace, Bool.or_eq_false_iff, Bool.and_eq_false_imp, beq_eq_false_iff_ne,
    decide_eq_true_eq, decide_eq_false_iff_not, ne_eq]
  omega

theorem matchesHexKey_iff (s : String) :
    matchesHexKey s = true ↔ 32 ≤ s.data.length ∧ ∀ c ∈ s.data, isHexDigit c = true := by
  simp [matchesHexKey]

theorem matchesAlnumKey_iff (s : String) :
    matchesAlnumKey s = true ↔ 32 ≤ s.data.length ∧ ∀ c ∈ s.data, isAsciiAlnum c = true := by
  simp [matchesAlnumKey]

theorem matchesOpenAiKey_iff (s : String) :
    matchesOpenAiKey s = true ↔
      ∃ rest : List Char, s.data = 's' :: 'k' :: '-' :: rest ∧ 32 ≤ rest.length ∧
        ∀ c ∈ rest, isAsciiAlnum c = true := by
  have hsk : "sk-".data = ['s', 'k', '-'] := rfl
  unfold matchesOpenAiKey
  rw [hsk]
  constructor
  · intro h
    simp only [Bool.and_eq_true, decide_eq_true_eq, List.all_eq_true] at h
    obtain ⟨⟨hp, hl⟩, ha⟩ := h
    obtain ⟨t, ht⟩ := List.isPrefixOf_iff_prefix.mp hp
    have hd : s.data.drop 3 = t := by rw [← ht]; rfl
    rw [hd] at hl ha
    exact ⟨t, ht.symm, hl, ha⟩
  · rintro ⟨rest, hs, hl, ha⟩
    rw [hs]
    simp only [Bool.and_eq_true, decide_eq_true_eq, List.all_eq_true]
    refine ⟨⟨?_, ?_⟩, ?_⟩
    · exact List.isPrefixOf_iff_prefix.mpr ⟨rest, rfl⟩
    · exact hl
    · exact ha

theorem matchesHexKey_clean (s : String) (h : matchesHexKey s = true) :
    ∀ c ∈ s.data, isJsWhiteSpace c = false :=
  fun c hc => isHexDigit_not_whiteSpace c (((matchesHexKey_iff s).mp h).2 c hc)

theorem matchesAlnumKey_clean (s : String) (h : matchesAlnumKey s = true) :
    ∀ c ∈ s.data, isJsWhiteSpace c = false :=
  fun c hc => isAsciiAlnum_not_whiteSpace c (((matchesAlnumKey_iff s).mp h).2 c hc)

theorem matchesOpenAiKey_clean (s : String) (h : matchesOpenAiKey s = true) :
    ∀ c ∈ s.data, isJsWhiteSpace c = false := by
  obtain ⟨rest, hs, _, ha⟩ := (matchesOpenAiKey_iff s).mp h
  intro c hc
  rw [hs] at hc
  simp only [List.mem_cons] at hc
  rcases hc with rfl | rfl | rfl | hc
  · decide
  · decide
  · decide
  · exact isAsciiAlnum_not_whiteSpace c (ha c hc)

theorem matchesHexKey_length (s : String) (h : matchesHexKey s = true) : 32 ≤ jsLength s :=
  Nat.le_trans ((matchesHexKey_iff s).mp h).1 (length_le_jsLength s)

theorem matchesAlnumKey_length (s : String) (h : matchesAlnumKey s = true) : 32 ≤ jsLength s :=
  Nat.le_trans ((matchesAlnumKey_iff s).mp h).1 (length_le_jsLength s)

theorem matchesOpenAiKey_length (s : String) (h : matchesOpenAiKey s = true) :
    32 ≤ jsLength s := by
  obtain ⟨rest, hs, hl, _⟩ := (matchesOpenAiKey_iff s).mp h
  have := length_le_jsLength s
  rw [hs] at this
  simp only [List.length_cons] at this
  omega

/-- A string without white space neither starts nor ends with a space. -/
theorem clean_no_space (s : String) (h : ∀ c ∈ s.data, isJsWhiteSpace c = false) :
    jsStartsWith s " " = false ∧ jsEndsWith s " " = false := by
  have hsp : " ".data = [' '] := rfl
  have hw : isJsWhiteSpace ' ' = true := by decide
  constructor
  · cases hb : jsStartsWith s " " with
    | false => rfl
    | true =>
      unfold jsStartsWith at hb
      rw [hsp] at hb
      have hm : ' ' ∈ s.data := (List.isPrefixOf_iff_prefix.mp hb).subset (List.mem_singleton.mpr rfl)
      rw [h _ hm] at hw
      cases hw
  · cases hb : jsEndsWith s " " with
    | false => rfl
    | true =>
      unfold jsEndsWith at hb
      rw [hsp] at hb
      have hm : ' ' ∈ s.data := (List.isSuffixOf_iff_suffix.mp hb).subset (List.mem_singleton.mpr rfl)
      rw [h _ hm] at hw
      cases hw

theorem dropWhile_of_all_false {α : Type} (p : α → Bool) (l : List α)
    (h : ∀ c ∈ l, p c = false) : l.dropWhile p = l := by
  cases l with
  | nil => rfl
  | cons c cs => simp [List.dropWhile, h c (List.mem_cons_self c cs)]

/-- On a string without white space `trim` changes nothing. -/
theorem clean_trim (s : String) (h : ∀ c ∈ s.data, isJsWhiteSpace c = false) : jsTrim s = s := by
  unfold jsTrim
  rw [dropWhile_of_all_false _ _ h, dropWhile_of_all_false _ _
    (fun c hc => h c (List.mem_reverse.mp hc)), List.reverse_reverse]

theorem checkCommonIssues_errors (key value : String) :
    (checkCommonIssues key value).errors = [] := by
  unfold checkCommonIssues
  simp only [Findings.push]
  split <;> split <;> split <;> rfl

/-- What a round pushes for a non-empty string value, under a schema entry of type
`'string'`. -/
theorem checkEntry_string (key : String) (schema : Schema) (s : String)
    (htype : schema.type = "string") (ht : jsTruthy s = true) :
    (checkEntry key schema (.string s)).errors =
      (if schema.minLength != 0 && decide (jsLength s < schema.minLength) then
        [{ field := key
           message :=
             key ++ " must be at least " ++ toString schema.minLength ++ " characters long" }]
       else []) ++
      (if !schema.validate s then [{ field := key, message := key ++ " has invalid format" }]
       else []) ∧
    (checkEntry key schema (.string s)).warnings = (checkCommonIssues key s).warnings ∧
    (checkEntry key schema (.string s)).fixes = (checkCommonIssues key s).fixes := by
  have h1 : (schema.required && !(JsValue.string s).truthy) = false := by
    simp [JsValue.truthy, ht]
  have h2 : (!schema.required && !(JsValue.string s).truthy) = false := by
    simp [JsValue.truthy, ht]
  have h3 : ((JsValue.string s).typeof != schema.type) = false := by
    simp [JsValue.typeof, htype]
  unfold checkEntry
  simp only [h1, h2, h3, Bool.false_eq_true, if_false, Findings.push,
    checkCommonIssues_errors, List.append_nil]
  refine ⟨?_, ?_, ?_⟩
  · split <;> split <;> rfl
  · split <;> split <;> rfl
  · split <;> split <;> rfl

/-- What a round pushes for a falsy value. -/
theorem checkEntry_falsy (key : String) (schema : Schema) (value : JsValue)
    (hv : value.truthy = false) :
    checkEntry key schema value =
      if schema.required then
        { errors := [{ field := key, message := key ++ " is required" }], warnings := [],
          fixes := [] }
      else { errors := [], warnings := [], fixes := [] } := by
  unfold checkEntry
  cases hr : schema.required <;> simp [hv]

/-- What a round pushes for a truthy value that is not a string, under a schema entry of
type `'string'`. -/
theorem checkEntry_not_string (key : String) (schema : Schema) (value : JsValue)
    (htype : schema.type = "string") (hv : value.truthy = true)
    (hs : ∀ s, value ≠ .string s) :
    checkEntry key schema value =
      { errors := [{ field := key, message := key ++ " must be a string" }], warnings := [],
        fixes := [] } := by
  have h3 : (value.typeof != schema.type) = true := by
    rw [htype]
    cases value <;> first | rfl | exact absurd rfl (hs _)
  unfold checkEntry
  simp only [hv, h3, Bool.not_true, Bool.and_false, Bool.false_eq_true, if_false, if_true, htype]
  have h5 : (value.typeof != "string") = true := htype ▸ h3
  rw [String.append_assoc, if_pos h5]
  rfl

theorem jsTruthy_of_length (s : String) (h : 32 ≤ jsLength s) : jsTruthy s = true := by
  cases ht : jsTruthy s with
  | true => rfl
  | false =>
    have hs : s = "" := by simpa [jsTruthy] using ht
    rw [hs] at h
    exact absurd h (by decide)

/-- A required key passes its round exactly when its value is a string the pattern accepts. -/
theorem checkEntry_required_valid (key : String) (f : String → Bool) (value : JsValue)
    (hlen : ∀ s, f s = true → 32 ≤ jsLength s) :
    (checkEntry key { type := "string", required := true, minLength := 32, validate := f }
      value).errors = [] ↔ ∃ s, value = .string s ∧ f s = true := by
  by_cases hv : value.truthy = true
  · by_cases hs : ∃ s, value = .string s
    · obtain ⟨s, rfl⟩ := hs
      rw [(checkEntry_string key _ s rfl hv).1]
      cases hf : f s with
      | true =>
        have := hlen s hf
        have hl : ¬ jsLength s < 32 := by omega
        simp [hl, hf]
      | false => simp [hf]
    · rw [checkEntry_not_string key _ value rfl hv (fun s h => hs ⟨s, h⟩)]
      simp only [List.cons_ne_nil, false_iff]
      exact fun ⟨s, h, _⟩ => hs ⟨s, h⟩
  · have hv2 : value.truthy = false := by simpa using hv
    rw [checkEntry_falsy key _ value hv2]
    simp only [if_true, List.cons_ne_nil, false_iff]
    rintro ⟨s, rfl, hf⟩
    have : jsTruthy s = true := jsTruthy_of_length s (hlen s hf)
    exact hv this

/-- An optional key passes its round exactly when its value is falsy or a string the pattern
accepts. -/
theorem checkEntry_optional_valid (key : String) (value : JsValue) :
    (checkEntry key
      { type := "string", required := false, minLength := 32,
        validate := fun v => if jsTruthy v then matchesAlnumKey v else true }
      value).errors = [] ↔
      value.truthy = false ∨ ∃ s, value = .string s ∧ matchesAlnumKey s = true := by
  by_cases hv : value.truthy = true
  · by_cases hs : ∃ s, value = .string s
    · obtain ⟨s, rfl⟩ := hs
      have ht : jsTruthy s = true := hv
      rw [(checkEntry_string key _ s rfl hv).1]
      cases hf : matchesAlnumKey s with
      | true =>
        have := matchesAlnumKey_length s hf
        have hl : ¬ jsLength s < 32 := by omega
        simp [hl, hf, ht]
      | false => simp [hf, ht, hv]
    · rw [checkEntry_not_string key _ value rfl hv (fun s h => hs ⟨s, h⟩)]
      simp only [List.cons_ne_nil, false_iff, hv, Bool.true_eq_false, false_or]
      exact fun ⟨s, h, _⟩ => hs ⟨s, h⟩
  · have hv2 : value.truthy = false := by simpa using hv
    rw [checkEntry_falsy key _ value hv2]
    simp [hv2]

theorem checkCommonIssues_fixes (key value : String) :
    (checkCommonIssues key value).fixes =
      if jsTruthy value && (jsStartsWith value " " || jsEndsWith value " ") then
        [{ field := key, message := "Remove whitespace", fix := jsTrim value }]
      else [] := by
  unfold checkCommonIssues
  simp only [Findings.push]
  split <;> split <;> split <;> rfl

theorem checkCommonIssues_fixes_clean (key value : String)
    (h : ∀ c ∈ value.data, isJsWhiteSpace c = false) :
    (checkCommonIssues key value).fixes = [] := by
  rw [checkCommonIssues_fixes, (clean_no_space value h).1, (clean_no_space value h).2]
  simp

theorem schema_type (entry : String × Schema) (h : entry ∈ CONFIG_SCHEMA) :
    entry.2.type = "string" := by
  simp only [CONFIG_SCHEMA, List.mem_cons, List.mem_singleton, List.not_mem_nil, or_false] at h
  rcases h with rfl | rfl | rfl | rfl | rfl <;> rfl

/-- C23. For every configuration: `isValid` is true exactly when `errors` is empty; `errors`
is empty exactly when `serperApiKey` and `llamaApiKey` are strings of at least 32 characters,
all hexadecimal digits, `openaiApiKey` is a string made of `sk-` followed by at least 32
characters, all ASCII letters or digits, and each of `claudeApiKey` and `bardApiKey` is falsy
(absent or empty) or a string of at least 32 characters, all ASCII letters or digits; a
required key with a falsy (missing) value yields the error `<key> is required`; and a key whose
value is a non-empty string that its pattern rejects yields the error
`<key> has invalid format`. -/
theorem validate_isValid_iff (config : Config) :
    ((ConfigValidator.validate config).isValid = true ↔
      (ConfigValidator.validate config).errors = []) ∧
    ((ConfigValidator.validate config).errors = [] ↔
      (∃ s, config "serperApiKey" = .string s ∧ 32 ≤ s.data.length ∧
        ∀ c ∈ s.data, isHexDigit c = true) ∧
      (∃ s, config "llamaApiKey" = .string s ∧ 32 ≤ s.data.length ∧
        ∀ c ∈ s.data, isHexDigit c = true) ∧
      (∃ s, config "openaiApiKey" = .string s ∧
        ∃ rest : List Char, s.data = 's' :: 'k' :: '-' :: rest ∧ 32 ≤ rest.length ∧
          ∀ c ∈ rest, isAsciiAlnum c = true) ∧
      ((config "claudeApiKey").truthy = false ∨
        ∃ s, config "claudeApiKey" = .string s ∧ 32 ≤ s.data.length ∧
          ∀ c ∈ s.data, isAsciiAlnum c = true) ∧
      ((config "bardApiKey").truthy = false ∨
        ∃ s, config "bardApiKey" = .string s ∧ 32 ≤ s.data.length ∧
          ∀ c ∈ s.data, isAsciiAlnum c = true)) ∧
    (∀ entry ∈ CONFIG_SCHEMA, entry.2.required = true → (config entry.1).truthy = false →
      ({ field := entry.1, message := entry.1 ++ " is required" } : Issue) ∈
        (ConfigValidator.validate config).errors) ∧
    (∀ entry ∈ CONFIG_SCHEMA, ∀ s, config entry.1 = .string s → s ≠ "" →
      entry.2.validate s = false →
      ({ field := entry.1, message := entry.1 ++ " has invalid format" } : Issue) ∈
        (ConfigValidator.validate config).errors) := by
  refine ⟨validate_isValid config, ?_, ?_, ?_⟩
  · rw [validate_errors]
    simp only [CONFIG_SCHEMA, List.flatMap_cons, List.flatMap_nil, List.append_eq_nil,
      and_true]
    rw [checkEntry_required_valid _ _ _ matchesHexKey_length,
      checkEntry_required_valid _ _ _ matchesHexKey_length,
      checkEntry_required_valid _ _ _ matchesOpenAiKey_length,
      checkEntry_optional_valid, checkEntry_optional_valid]
    simp only [matchesHexKey_iff, matchesOpenAiKey_iff, matchesAlnumKey_iff]
  · intro entry hmem hreq hv
    rw [validate_errors, List.mem_flatMap]
    refine ⟨entry, hmem, ?_⟩
    rw [checkEntry_falsy _ _ _ hv, if_pos hreq]
    exact List.mem_singleton.mpr rfl
  · intro entry hmem s hs hne hf
    rw [validate_errors, List.mem_flatMap]
    refine ⟨entry, hmem, ?_⟩
    have ht : jsTruthy s = true := by simpa [jsTruthy] using hne
    rw [hs, (checkEntry_string _ _ s (schema_type entry hmem) ht).1, hf]
    simp

/-- C23, instance: a configuration with two 32-digit hexadecimal keys and an `sk-` key is
valid, and `TEST_CONFIG` without `serperApiKey` draws `serperApiKey is required`. -/
theorem validate_isValid_iff_witness :
    (ConfigValidator.validate hexConfig).isValid = true ∧
    ({ field := "serperApiKey", message := "serperApiKey is required" } : Issue) ∈
      (ConfigValidator.validate (TEST_CONFIG.delete "serperApiKey")).errors :=
  ⟨by decide,
   (validate_isValid_iff (TEST_CONFIG.delete "serperApiKey")).2.2.1
     _ (List.mem_cons_self _ _) rfl (by decide)⟩

theorem jsTruthy_of_space (s : String)
    (h : jsStartsWith s " " = true ∨ jsEndsWith s " " = true) : jsTruthy s = true := by
  cases ht : jsTruthy s with
  | true => rfl
  | false =>
    have hs : s = "" := by simpa [jsTruthy] using ht
    rw [hs] at h
    rcases h with h | h <;> exact absurd h (by decide)

theorem checkCommonIssues_whitespace (key s : String)
    (h : jsStartsWith s " " = true ∨ jsEndsWith s " " = true) :
    ({ field := key, message := key ++ " contains leading or trailing whitespace" } : Issue) ∈
      (checkCommonIssues key s).warnings ∧
    ({ field := key, message := "Remove whitespace", fix := jsTrim s } : Fix) ∈
      (checkCommonIssues key s).fixes := by
  have hc : (jsTruthy s && (jsStartsWith s " " || jsEndsWith s " ")) = true := by
    rw [jsTruthy_of_space s h]
    rcases h with h | h <;> simp [h]
  constructor
  · unfold checkCommonIssues
    simp only [Findings.push, hc, if_true, List.cons_append, List.nil_append]
    exact List.mem_cons_self _ _
  · rw [checkCommonIssues_fixes, if_pos hc]
    exact List.mem_singleton.mpr rfl

/-- C24. For every configuration and every schema key whose value is a string that starts or
ends with a space, `validate` lists the warning
`{field: key, message: '<key> contains leading or trailing whitespace'}` and a fix for that
field whose `fix` is the value after `trim()`. -/
theorem validate_whitespace (config : Config) (entry : String × Schema)
    (hmem : entry ∈ CONFIG_SCHEMA) (s : String) (hs : config entry.1 = .string s)
    (hsp : jsStartsWith s " " = true ∨ jsEndsWith s " " = true) :
    ({ field := entry.1, message := entry.1 ++ " contains leading or trailing whitespace" } :
      Issue) ∈ (ConfigValidator.validate config).warnings ∧
    ({ field := entry.1, message := "Remove whitespace", fix := jsTrim s } : Fix) ∈
      (ConfigValidator.validate config).fixes := by
  have ht := jsTruthy_of_space s hsp
  have hc := checkEntry_string entry.1 entry.2 s (schema_type entry hmem) ht
  have hw := checkCommonIssues_whitespace entry.1 s hsp
  constructor
  · rw [validate_warnings, List.mem_flatMap]
    refine ⟨entry, hmem, ?_⟩
    rw [hs, hc.2.1]
    exact hw.1
  · rw [validate_fixes, List.mem_flatMap]
    refine ⟨entry, hmem, ?_⟩
    rw [hs, hc.2.2]
    exact hw.2

/-- C24, instance: `TEST_CONFIG` with `serperApiKey` wrapped in spaces. -/
theorem validate_whitespace_witness :
    ({ field := "serperApiKey",
       message := "serperApiKey contains leading or trailing whitespace" } : Issue) ∈
      (ConfigValidator.validate
        (TEST_CONFIG.set "serperApiKey"
          (.string " test-serper-key-32chars-exactly-here "))).warnings ∧
    ({ field := "serperApiKey", message := "Remove whitespace",
       fix := "test-serper-key-32chars-exactly-here" } : Fix) ∈
      (ConfigValidator.validate
        (TEST_CONFIG.set "serperApiKey"
          (.string " test-serper-key-32chars-exactly-here "))).fixes :=
  validate_whitespace
    (TEST_CONFIG.set "serperApiKey" (.string " test-serper-key-32chars-exactly-here "))
    _ (List.mem_cons_self _ _) " test-serper-key-32chars-exactly-here " rfl
    (Or.inl (by decide))

/-- A round that pushes no error pushes no fix. -/
theorem checkEntry_fixes_of_valid (entry : String × Schema) (hmem : entry ∈ CONFIG_SCHEMA)
    (value : JsValue) (h : (checkEntry entry.1 entry.2 value).errors = []) :
    (checkEntry entry.1 entry.2 value).fixes = [] := by
  have hstring : ∀ s, value = .string s → (∀ c ∈ s.data, isJsWhiteSpace c = false) →
      (checkEntry entry.1 entry.2 value).fixes = [] := by
    intro s hs hclean
    by_cases ht : jsTruthy s = true
    · rw [hs, (checkEntry_string _ _ s (schema_type entry hmem) ht).2.2]
      exact checkCommonIssues_fixes_clean _ _ hclean
    · have hv : value.truthy = false := by rw [hs]; simpa [JsValue.truthy] using ht
      rw [checkEntry_falsy _ _ _ hv]
      split <;> rfl
  have hfalsy : value.truthy = false → (checkEntry entry.1 entry.2 value).fixes = [] := by
    intro hv
    rw [checkEntry_falsy _ _ _ hv]
    split <;> rfl
  simp only [CONFIG_SCHEMA, List.mem_cons, List.mem_singleton, List.not_mem_nil, or_false]
    at hmem
  rcases hmem with rfl | rfl | rfl | rfl | rfl
  · obtain ⟨s, hs, hf⟩ := (checkEntry_required_valid _ _ _ matchesHexKey_length).mp h
    exact hstring s hs (matchesHexKey_clean s hf)
  · obtain ⟨s, hs, hf⟩ := (checkEntry_required_valid _ _ _ matchesHexKey_length).mp h
    exact hstring s hs (matchesHexKey_clean s hf)
  · obtain ⟨s, hs, hf⟩ := (checkEntry_required_valid _ _ _ matchesOpenAiKey_length).mp h
    exact hstring s hs (matchesOpenAiKey_clean s hf)
  · rcases (checkEntry_optional_valid _ _).mp h with hv | ⟨s, hs, hf⟩
    · exact hfalsy hv
    · exact hstring s hs (matchesAlnumKey_clean s hf)
  · rcases (checkEntry_optional_valid _ _).mp h with hv | ⟨s, hs, hf⟩
    · exact hfalsy hv
    · exact hstring s hs (matchesAlnumKey_clean s hf)

/-- A valid configuration has no pending fix. -/
theorem validate_fixes_of_valid (config : Config)
    (h : (ConfigValidator.validate config).isValid = true) :
    (ConfigValidator.validate config).fixes = [] := by
  have he := (validate_isValid config).mp h
  rw [validate_errors, List.flatMap_eq_nil_iff] at he
  rw [validate_fixes, List.flatMap_eq_nil_iff]
  exact fun entry hmem => checkEntry_fixes_of_valid entry hmem _ (he entry hmem)

/-- On a valid configuration `repair` returns at its first `return`. -/
theorem repair_of_valid (rt : Runtime) (config : Config)
    (h : (ConfigValidator.validate config).isValid = true) :
    ConfigValidator.repair rt config =
      .ok { success := true, message := "Configuration is valid, no repairs needed",
            config := config, appliedFixes := none } := by
  unfold ConfigValidator.repair
  simp [h, validate_fixes_of_valid config h]

/-- Whatever configuration a successful `repair` returns passes `validate`. -/
theorem repair_ok_valid (rt : Runtime) (config : Config) (r : RepairResult)
    (h : ConfigValidator.repair rt config = .ok r) :
    r.success = true ∧ (ConfigValidator.validate r.config).isValid = true := by
  unfold ConfigValidator.repair at h
  simp only at h
  split at h
  · rename_i h1
    cases h
    simp only [Bool.and_eq_true] at h1
    exact ⟨rfl, h1.1⟩
  · split at h
    · rename_i h2
      cases h
      exact ⟨rfl, h2⟩
    · cases h

/-- C26. For every configuration that `validate` reports valid, and so for every
configuration a successful `repair` returned: `validate` lists no fix for it, and `repair`
returns `success = true`, the configuration itself and the message
`Configuration is valid, no repairs needed`. -/
theorem repair_valid_unchanged (rt : Runtime) (c : Config)
    (h : (ConfigValidator.validate c).isValid = true ∨
      ∃ c0 r0, ConfigValidator.repair rt c0 = .ok r0 ∧ r0.config = c) :
    (ConfigValidator.validate c).fixes = [] ∧
    ∃ r, ConfigValidator.repair rt c = .ok r ∧ r.success = true ∧ r.config = c ∧
      r.message = "Configuration is valid, no repairs needed" := by
  have hv : (ConfigValidator.validate c).isValid = true := by
    rcases h with h | ⟨c0, r0, hr, rfl⟩
    · exact h
    · exact (repair_ok_valid rt c0 r0 hr).2
  exact ⟨validate_fixes_of_valid c hv, _, repair_of_valid rt c hv, rfl, rfl, rfl⟩

/-- C26, instance: a configuration with two hexadecimal keys and an `sk-` key comes back
unchanged. -/
theorem repair_valid_unchanged_witness :
    (ConfigValidator.validate hexConfig).isValid = true ∧
    ∃ r, ConfigValidator.repair sampleRuntime hexConfig = .ok r ∧ r.success = true ∧
      r.config = hexConfig ∧ r.message = "Configuration is valid, no repairs needed" :=
  ⟨by decide, (repair_valid_unchanged sampleRuntime hexConfig (Or.inl (by decide))).2⟩

/-- The table `ERROR_CODES` has no entry `CONFIG_REPAIR_FAILED`. -/
theorem ERROR_CODES_no_repair_entry :
    ERROR_CODES.property "CONFIG_REPAIR_FAILED" = none ∧
    ∀ p ∈ ERROR_CODES.table, p.1 ≠ "CONFIG_REPAIR_FAILED" := by
  constructor <;> decide

/-- What the `catch` block of `repair` throws. -/
theorem repairFailure_eq (rt : Runtime) (message : String) :
    ConfigValidator.repairFailure rt message =
      if rt.errorTablesBound then
        .appError
          { message := "Failed to repair configuration: " ++ message
            code := none
            category := some "Configuration Error" }
      else .typeError "Cannot read properties of undefined (reading 'CONFIG_REPAIR_FAILED')" := by
  rfl

/-- When the configuration is still invalid after the fixes, `repair` reaches its `throw`. -/
theorem repair_of_unfixable (rt : Runtime) (config : Config)
    (h : (ConfigValidator.validate
      (applyFixes config (ConfigValidator.validate config).fixes)).isValid = false) :
    ConfigValidator.repair rt config =
      .error (ConfigValidator.repairFailure rt
        "Configuration could not be automatically repaired") := by
  have h1 : ((ConfigValidator.validate config).isValid &&
      (ConfigValidator.validate config).fixes.length == 0) = false := by
    cases hc : ((ConfigValidator.validate config).isValid &&
      (ConfigValidator.validate config).fixes.length == 0) with
    | false => rfl
    | true =>
      simp only [Bool.and_eq_true, beq_iff_eq, List.length_eq_zero] at hc
      rw [hc.2] at h
      have h2 : (ConfigValidator.validate config).isValid = false := h
      rw [hc.1] at h2
      cases h2
  unfold ConfigValidator.repair
  simp only [h1, h, Bool.false_eq_true, if_false]

/-- C27. For every configuration that is still invalid after the suggested fixes are applied,
`repair` raises; where the error tables are bound, what it raises has the message
`Failed to repair configuration: Configuration could not be automatically repaired` and the
category `Configuration Error`, and its `code` is `undefined`, because the table `ERROR_CODES`
has no entry `CONFIG_REPAIR_FAILED`; where they are not bound, it is a `TypeError`. -/
theorem repair_unfixable_raises (rt : Runtime) (config : Config)
    (h : (ConfigValidator.validate
      (applyFixes config (ConfigValidator.validate config).fixes)).isValid = false) :
    ConfigValidator.repair rt config =
      .error
        (if rt.errorTablesBound then
          .appError
            { message :=
                "Failed to repair configuration: Configuration could not be automatically repaired"
              code := none
              category := some "Configuration Error" }
        else
          .typeError "Cannot read properties of undefined (reading 'CONFIG_REPAIR_FAILED')") ∧
    ∀ p ∈ ERROR_CODES.table, p.1 ≠ "CONFIG_REPAIR_FAILED" := by
  refine ⟨?_, ERROR_CODES_no_repair_entry.2⟩
  rw [repair_of_unfixable rt config h, repairFailure_eq]
  rfl

/-- C27, instance: `TEST_CONFIG` with `serperApiKey: null`; the error raised has no `code`. -/
theorem repair_unfixable_raises_witness :
    ConfigValidator.repair sampleRuntime (TEST_CONFIG.set "serperApiKey" .null) =
      .error (.appError
        { message :=
            "Failed to repair configuration: Configuration could not be automatically repaired"
          code := none
          category := some "Configuration Error" }) :=
  (repair_unfixable_raises sampleRuntime (TEST_CONFIG.set "serperApiKey" .null) (by decide)).1

/-- C25. On `TEST_CONFIG` with `serperApiKey` wrapped in spaces `repair` does not succeed: the
fix puts the trimmed key back, the second `validate` rejects the five values of `TEST_CONFIG`
as before, and `repair` raises. -/
theorem repair_padded_TEST_CONFIG_raises (rt : Runtime) :
    (ConfigValidator.validate
      (TEST_CONFIG.set "serperApiKey" (.string " test-serper-key-32chars-exactly-here "))).fixes =
      [{ field := "serperApiKey", message := "Remove whitespace",
         fix := "test-serper-key-32chars-exactly-here" }] ∧
    (ConfigValidator.validate
      (applyFixes
        (TEST_CONFIG.set "serperApiKey" (.string " test-serper-key-32chars-exactly-here "))
        (ConfigValidator.validate
          (TEST_CONFIG.set "serperApiKey"
            (.string " test-serper-key-32chars-exactly-here "))).fixes)).errors =
      (ConfigValidator.validate TEST_CONFIG).errors ∧
    ConfigValidator.repair rt
      (TEST_CONFIG.set "serperApiKey" (.string " test-serper-key-32chars-exactly-here ")) =
      .error (ConfigValidator.repairFailure rt
        "Configuration could not be automatically repaired") :=
  ⟨by decide, by decide, repair_of_unfixable rt _ (by decide)⟩

/-! ## C28: the plugin interface check -/

theorem typeof_function_iff (v : JsValue) : (v.typeof == "function") = true ↔ v = .function := by
  cases v <;> simp [JsValue.typeof]

/-- C28. `validatePlugin(plugin)` returns `true` if and only if `plugin` is truthy, its
`initialize` and `execute` are functions and its `name`, `version` and `description` are truthy
(present and not empty); it returns `false` on a plugin that has only a name and on the test
plugin with `execute` set to a string, and `true` on the test plugin. -/
theorem validatePlugin_iff (plugin : Option Plugin) :
    (validatePlugin plugin = true ↔
      ∃ p, plugin = some p ∧ p "initialize" = .function ∧ p "execute" = .function ∧
        (p "name").truthy = true ∧ (p "version").truthy = true ∧
        (p "description").truthy = true) ∧
    validatePlugin none = false ∧
    validatePlugin (some invalidPlugin) = false ∧
    validatePlugin (some invalidMethodPlugin) = false ∧
    validatePlugin (some (createTestPlugin "test-plugin")) = true := by
  refine ⟨?_, rfl, by decide, by decide, by decide⟩
  cases plugin with
  | none => simp [validatePlugin]
  | some p =>
    simp only [validatePlugin, List.all_cons, List.all_nil, Bool.and_true, Bool.and_eq_true,
      typeof_function_iff, Option.some.injEq, exists_eq_left']
    tauto

/-! ## What `repair` does with padded values of a valid configuration -/

theorem dropWhile_replicate_append {α : Type} (p : α → Bool) (x : α) (hx : p x = true)
    (n : Nat) (l : List α) : (List.replicate n x ++ l).dropWhile p = l.dropWhile p := by
  induction n with
  | zero => rfl
  | succ n ih => simp [List.replicate_succ, List.dropWhile, hx, ih]

/-- Trimming a string without white space that was wrapped in spaces gives the string back. -/
theorem jsTrim_padded (s : String) (a b : Nat)
    (h : ∀ c ∈ s.data, isJsWhiteSpace c = false) :
    jsTrim (String.mk (List.replicate a ' ' ++ s.data ++ List.replicate b ' ')) = s := by
  have hw : isJsWhiteSpace ' ' = true := by decide
  unfold jsTrim
  show String.mk _ = s
  rw [List.append_assoc, dropWhile_replicate_append _ _ hw]
  cases hd : s.data with
  | nil =>
    have h0 := dropWhile_replicate_append isJsWhiteSpace ' ' hw b []
    simp only [List.append_nil, List.dropWhile_nil] at h0
    rw [List.nil_append, h0]
    show String.mk [] = s
    rw [← hd]
  | cons x xs =>
    have hx : isJsWhiteSpace x = false := h x (by rw [hd]; exact List.mem_cons_self x xs)
    have h1 : (x :: xs ++ List.replicate b ' ').dropWhile isJsWhiteSpace =
        x :: xs ++ List.replicate b ' ' := by
      simp [List.dropWhile, hx]
    rw [h1, List.reverse_append, List.reverse_replicate, dropWhile_replicate_append _ _ hw,
      dropWhile_of_all_false _ _ (fun c hc => h c (by rw [hd]; exact List.mem_reverse.mp hc)),
      List.reverse_reverse, ← hd]

/-- The configuration after the fixes: at each key either no fix names the key and the value
is the old one, or the value is the `fix` of a fix that names the key. -/
theorem applyFixes_spec (fixes : List Fix) (config : Config) (k : String) :
    (applyFixes config fixes k = config k ∧ ∀ fix ∈ fixes, fix.field ≠ k) ∨
    ∃ fix ∈ fixes, fix.field = k ∧ applyFixes config fixes k = .string fix.fix := by
  induction fixes generalizing config with
  | nil => exact Or.inl ⟨rfl, fun _ h => absurd h (List.not_mem_nil _)⟩
  | cons f fs ih =>
    have hstep : applyFixes config (f :: fs) = applyFixes (config.set f.field (.string f.fix)) fs :=
      rfl
    rw [hstep]
    rcases ih (config.set f.field (.string f.fix)) with ⟨h1, h2⟩ | ⟨fix, hm, hf, hv⟩
    · by_cases hk : k = f.field
      · right
        refine ⟨f, List.mem_cons_self f fs, hk.symm, ?_⟩
        rw [h1]
        simp [Config.set, hk]
      · left
        refine ⟨?_, ?_⟩
        · rw [h1]
          simp [Config.set, hk]
        · intro fix hm
          rcases List.mem_cons.mp hm with rfl | hm
          · exact fun h => hk h.symm
          · exact h2 fix hm
    · exact Or.inr ⟨fix, List.mem_cons_of_mem f hm, hf, hv⟩

/-- The result of `validate` depends on the values of the schema keys only. -/
theorem validate_congr (c1 c2 : Config)
    (h : ∀ entry ∈ CONFIG_SCHEMA, c1 entry.1 = c2 entry.1) :
    ConfigValidator.validate c1 = ConfigValidator.validate c2 := by
  have hf : CONFIG_SCHEMA.foldl
      (fun (acc : Findings) entry => acc.push (checkEntry entry.1 entry.2 (c1 entry.1)))
      { errors := [], warnings := [], fixes := [] } =
    CONFIG_SCHEMA.foldl
      (fun (acc : Findings) entry => acc.push (checkEntry entry.1 entry.2 (c2 entry.1)))
      { errors := [], warnings := [], fixes := [] } := by
    apply List.foldl_ext
    intro acc entry hmem
    rw [h entry hmem]
  unfold ConfigValidator.validate
  simp only [hf]

/-- A string value that passes its round has no white space. -/
theorem valid_value_clean (entry : String × Schema) (hmem : entry ∈ CONFIG_SCHEMA) (s : String)
    (h : (checkEntry entry.1 entry.2 (.string s)).errors = []) :
    ∀ c ∈ s.data, isJsWhiteSpace c = false := by
  have hempty : (JsValue.string s).truthy = false → ∀ c ∈ s.data, isJsWhiteSpace c = false := by
    intro hv c hc
    have hs : s = "" := by simpa [JsValue.truthy, jsTruthy] using hv
    rw [hs] at hc
    exact absurd hc (List.not_mem_nil c)
  simp only [CONFIG_SCHEMA, List.mem_cons, List.mem_singleton, List.not_mem_nil, or_false]
    at hmem
  rcases hmem with rfl | rfl | rfl | rfl | rfl
  · obtain ⟨t, ht, hf⟩ := (checkEntry_required_valid _ _ _ matchesHexKey_length).mp h
    cases ht
    exact matchesHexKey_clean s hf
  · obtain ⟨t, ht, hf⟩ := (checkEntry_required_valid _ _ _ matchesHexKey_length).mp h
    cases ht
    exact matchesHexKey_clean s hf
  · obtain ⟨t, ht, hf⟩ := (checkEntry_required_valid _ _ _ matchesOpenAiKey_length).mp h
    cases ht
    exact matchesOpenAiKey_clean s hf
  · rcases (checkEntry_optional_valid _ _).mp h with hv | ⟨t, ht, hf⟩
    · exact hempty hv
    · cases ht
      exact matchesAlnumKey_clean s hf
  · rcases (checkEntry_optional_valid _ _).mp h with hv | ⟨t, ht, hf⟩
    · exact hempty hv
    · cases ht
      exact matchesAlnumKey_clean s hf

theorem padded_has_space (l : List Char) (a b : Nat) (h : ¬ (a = 0 ∧ b = 0)) :
    jsStartsWith (String.mk (List.replicate a ' ' ++ l ++ List.replicate b ' ')) " " = true ∨
    jsEndsWith (String.mk (List.replicate a ' ' ++ l ++ List.replicate b ' ')) " " = true := by
  have hsp : " ".data = [' '] := rfl
  cases a with
  | succ a =>
    left
    unfold jsStartsWith
    rw [hsp]
    exact List.isPrefixOf_iff_prefix.mpr ⟨List.replicate a ' ' ++ l ++ List.replicate b ' ', by
      simp [List.replicate_succ]⟩
  | zero =>
    cases b with
    | zero => exact absurd ⟨rfl, rfl⟩ h
    | succ b =>
      right
      unfold jsEndsWith
      rw [hsp]
      exact List.isSuffixOf_iff_suffix.mpr ⟨List.replicate 0 ' ' ++ l ++ List.replicate b ' ', by
        simp [List.replicate_succ']⟩

/-- The fixes of one round on a padded value of a valid configuration: each names the key and
carries the value of the valid configuration, and there is one whenever the value differs. -/
theorem checkEntry_fixes_padded (c c2 : Config) (entry : String × Schema)
    (hmem : entry ∈ CONFIG_SCHEMA)
    (hc : (checkEntry entry.1 entry.2 (c entry.1)).errors = [])
    (hpad : c2 entry.1 = c entry.1 ∨ ∃ s a b, c entry.1 = .string s ∧
      c2 entry.1 = .string (String.mk (List.replicate a ' ' ++ s.data ++ List.replicate b ' '))) :
    (∀ fix ∈ (checkEntry entry.1 entry.2 (c2 entry.1)).fixes,
      fix.field = entry.1 ∧ c entry.1 = .string fix.fix) ∧
    (c2 entry.1 ≠ c entry.1 →
      ∃ fix ∈ (checkEntry entry.1 entry.2 (c2 entry.1)).fixes, fix.field = entry.1) := by
  have hsame : c2 entry.1 = c entry.1 →
      (∀ fix ∈ (checkEntry entry.1 entry.2 (c2 entry.1)).fixes,
        fix.field = entry.1 ∧ c entry.1 = .string fix.fix) ∧
      (c2 entry.1 ≠ c entry.1 →
        ∃ fix ∈ (checkEntry entry.1 entry.2 (c2 entry.1)).fixes, fix.field = entry.1) := by
    intro he
    rw [he, checkEntry_fixes_of_valid entry hmem _ hc]
    exact ⟨fun _ h => absurd h (List.not_mem_nil _), fun h => absurd rfl h⟩
  rcases hpad with he | ⟨s, a, b, hs, hs2⟩
  · exact hsame he
  · by_cases hab : a = 0 ∧ b = 0
    · apply hsame
      rw [hs2, hs, hab.1, hab.2]
      simp
    · have hspace := padded_has_space s.data a b hab
      have ht := jsTruthy_of_space _ hspace
      have hclean := valid_value_clean entry hmem s (hs ▸ hc)
      have hcond : (jsTruthy (String.mk (List.replicate a ' ' ++ s.data ++ List.replicate b ' ')) &&
          (jsStartsWith (String.mk (List.replicate a ' ' ++ s.data ++ List.replicate b ' ')) " " ||
           jsEndsWith (String.mk (List.replicate a ' ' ++ s.data ++ List.replicate b ' ')) " ")) =
          true := by
        rw [ht]
        rcases hspace with h | h
        · rw [h]
          rfl
        · rw [h, Bool.or_true]
          rfl
      rw [hs2, (checkEntry_string _ _ _ (schema_type entry hmem) ht).2.2,
        checkCommonIssues_fixes, if_pos hcond, jsTrim_padded s a b hclean]
      refine ⟨?_, fun _ => ⟨_, List.mem_singleton.mpr rfl, rfl⟩⟩
      intro fix hfix
      rw [List.mem_singleton.mp hfix]
      exact ⟨rfl, hs⟩

/-- For every configuration `c` that `validate` reports valid and every configuration `c2`
whose schema keys hold either the value of `c` or the string value of `c` wrapped in spaces:
`repair(c2)` succeeds, the configuration it returns has the value of `c` at every schema key,
and every other key as in `c2`. -/
theorem repair_trims_padding (rt : Runtime) (c c2 : Config)
    (hvalid : (ConfigValidator.validate c).isValid = true)
    (hpad : ∀ entry ∈ CONFIG_SCHEMA, c2 entry.1 = c entry.1 ∨ ∃ s a b, c entry.1 = .string s ∧
      c2 entry.1 = .string (String.mk (List.replicate a ' ' ++ s.data ++ List.replicate b ' '))) :
    ∃ r, ConfigValidator.repair rt c2 = .ok r ∧ r.success = true ∧
      (∀ entry ∈ CONFIG_SCHEMA, r.config entry.1 = c entry.1) ∧
      (∀ k, (∀ entry ∈ CONFIG_SCHEMA, entry.1 ≠ k) → r.config k = c2 k) ∧
      (ConfigValidator.validate r.config).isValid = true := by
  have he := (validate_isValid c).mp hvalid
  rw [validate_errors, List.flatMap_eq_nil_iff] at he
  have hP1 : ∀ fix ∈ (ConfigValidator.validate c2).fixes,
      (∃ entry ∈ CONFIG_SCHEMA, entry.1 = fix.field) ∧ c fix.field = .string fix.fix := by
    intro fix hfix
    rw [validate_fixes, List.mem_flatMap] at hfix
    obtain ⟨entry, hmem, hin⟩ := hfix
    have h := (checkEntry_fixes_padded c c2 entry hmem (he entry hmem) (hpad entry hmem)).1 fix hin
    exact ⟨⟨entry, hmem, h.1.symm⟩, h.1 ▸ h.2⟩
  have hP2 : ∀ entry ∈ CONFIG_SCHEMA, c2 entry.1 ≠ c entry.1 →
      ∃ fix ∈ (ConfigValidator.validate c2).fixes, fix.field = entry.1 := by
    intro entry hmem hne
    obtain ⟨fix, hin, hf⟩ :=
      (checkEntry_fixes_padded c c2 entry hmem (he entry hmem) (hpad entry hmem)).2 hne
    refine ⟨fix, ?_, hf⟩
    rw [validate_fixes, List.mem_flatMap]
    exact ⟨entry, hmem, hin⟩
  have hrep : ∀ entry ∈ CONFIG_SCHEMA,
      applyFixes c2 (ConfigValidator.validate c2).fixes entry.1 = c entry.1 := by
    intro entry hmem
    rcases applyFixes_spec (ConfigValidator.validate c2).fixes c2 entry.1 with
      ⟨h1, h2⟩ | ⟨fix, hin, hf, hv⟩
    · rw [h1]
      by_contra hne
      obtain ⟨fix, hin, hf⟩ := hP2 entry hmem hne
      exact h2 fix hin hf
    · rw [hv, ← hf]
      exact ((hP1 fix hin).2).symm
  have hother : ∀ k, (∀ entry ∈ CONFIG_SCHEMA, entry.1 ≠ k) →
      applyFixes c2 (ConfigValidator.validate c2).fixes k = c2 k := by
    intro k hk
    rcases applyFixes_spec (ConfigValidator.validate c2).fixes c2 k with
      ⟨h1, _⟩ | ⟨fix, hin, hf, _⟩
    · exact h1
    · obtain ⟨entry, hmem, hentry⟩ := (hP1 fix hin).1
      exact absurd (hentry.trans hf) (hk entry hmem)
  have hfinal : (ConfigValidator.validate
      (applyFixes c2 (ConfigValidator.validate c2).fixes)).isValid = true := by
    rw [validate_congr _ c hrep]
    exact hvalid
  unfold ConfigValidator.repair
  by_cases hfirst : ((ConfigValidator.validate c2).isValid &&
      (ConfigValidator.validate c2).fixes.length == 0) = true
  · simp only [hfirst, if_true]
    simp only [Bool.and_eq_true, beq_iff_eq, List.length_eq_zero] at hfirst
    refine ⟨_, rfl, rfl, ?_, fun _ _ => rfl, hfirst.1⟩
    intro entry hmem
    by_contra hne
    obtain ⟨fix, hin, _⟩ := hP2 entry hmem hne
    rw [hfirst.2] at hin
    exact List.not_mem_nil _ hin
  · simp only [hfirst, hfinal, if_true, Bool.false_eq_true, if_false]
    exact ⟨_, rfl, rfl, hrep, hother, hfinal⟩

/-- An instance: the valid configuration `hexConfig` with its `serperApiKey` wrapped in
spaces is repaired to `hexConfig`. -/
theorem repair_trims_padding_example :
    ∃ r, ConfigValidator.repair sampleRuntime
        (hexConfig.set "serperApiKey" (.string " 0123456789abcdef0123456789abcdef ")) = .ok r ∧
      r.success = true ∧
      r.config "serperApiKey" = .string "0123456789abcdef0123456789abcdef" ∧
      r.config "llamaApiKey" = hexConfig "llamaApiKey" ∧
      r.config "openaiApiKey" = hexConfig "openaiApiKey" ∧
      r.message = "Configuration repaired successfully" := by
  refine ⟨_, rfl, rfl, ?_, ?_, ?_, rfl⟩ <;> decide

end SmartAiCli
